import Mathlib

/-!
# mcperf: master/agent coordination and the scan / search meta-drivers

A shallow embedding of `mcperf.cc`.

* C `int` values are integers kept in two's-complement range by `wrap32`;
  `unsigned int` and `size_t` values are naturals reduced modulo `2^32` and
  `2^64`.
* `double` values (`options.lambda`) are modelled by exact rationals.
* The request/reply sockets are handles (`Sock`); what the peer answers is
  supplied by an environment record, one oracle per receive site, and every
  routine returns the chronological list of the messages it exchanged.
* `vector<zmq::socket_t*>::iterator` is an integer offset from `begin()`;
  `erase` keeps the offset, `its--` and `its++` subtract and add one.
-/

set_option autoImplicit false

namespace Mcperf

/-! ## Machine integers -/

/-- Value held by a 32-bit `int` after storing the integer `x`. -/
def wrap32 (x : Int) : Int := (x + 2147483648) % 4294967296 - 2147483648

/-- Value of `x` after conversion to `unsigned int`. -/
def toU32 (x : Int) : Nat := (x % 4294967296).toNat

/-- Value of `x` after conversion to `size_t` (64 bits). -/
def toU64 (x : Int) : Nat := (x % 18446744073709551616).toNat

/-- Range of `int`. -/
def inInt32 (x : Int) : Prop := -2147483648 ≤ x ∧ x ≤ 2147483647

instance (x : Int) : Decidable (inInt32 x) := by
  unfold inInt32; infer_instance

/-! ## Command line and options -/

/-- Fields of the parsed command line (`args`) that the modelled code reads. -/
structure gengetopt_args_info where
  connections_arg : Int
  qps_arg : Int
  threads_arg : Int
  lambda_mul_arg : Int
  server_given : Nat
  roundrobin_given : Bool
  agent_given : Nat
  agentmode_given : Bool
  measure_connections_given : Bool
  measure_connections_arg : Int
  measure_qps_given : Bool
  measure_qps_arg : Int
  measure_depth_given : Bool
  measure_depth_arg : Int
  records_arg : Int
  time_arg : Int
  depth_arg : Int
  warmup_given : Bool
  warmup_arg : Int
  blocking_given : Bool
  loadonly_given : Bool
  noload_given : Bool
deriving DecidableEq

/-- Fields of `options_t` written by `args_to_options`, `prep_agent` and `agent`
(the string fields and the generator settings are left out). -/
structure options_t where
  connections : Int
  blocking : Bool
  qps : Int
  threads : Int
  server_given : Int
  roundrobin : Bool
  lambda_denom : Int
  lambda : ℚ
  records : Int
  time : Int
  loadonly : Bool
  depth : Int
  noload : Bool
  warmup : Int
deriving DecidableEq

/-- The expression `(double) qps / (double) lambda_denom * lambda_mul`. -/
def lambdaOf (qps lambda_denom lambda_mul : Int) : ℚ :=
  (qps : ℚ) / (lambda_denom : ℚ) * (lambda_mul : ℚ)

/-- `args_to_options`. -/
def args_to_options (args : gengetopt_args_info) : options_t :=
  let connections0 := args.connections_arg
  let qps := args.qps_arg
  let threads := args.threads_arg
  let server_given := wrap32 args.server_given
  let roundrobin := args.roundrobin_given
  let connections :=
    if roundrobin then
      wrap32 (connections0 * (if server_given > threads then server_given else threads))
    else
      wrap32 (connections0 * wrap32 (server_given * threads))
  let denom0 := if connections > 1 then connections else 1
  let denom1 := if args.lambda_mul_arg > 1 then wrap32 (denom0 * args.lambda_mul_arg) else denom0
  let denom := if threads < 1 then 0 else denom1
  let server_given1 := if server_given = 0 then 1 else server_given
  let records0 := wrap32 (Int.tdiv args.records_arg server_given1)
  { connections := connections0
    blocking := args.blocking_given
    qps := qps
    threads := threads
    server_given := server_given1
    roundrobin := roundrobin
    lambda_denom := denom
    lambda := lambdaOf qps denom args.lambda_mul_arg
    records := if records0 = 0 then 1 else records0
    time := args.time_arg
    loadonly := args.loadonly_given
    depth := args.depth_arg
    noload := args.noload_given
    warmup := if args.warmup_given then args.warmup_arg else 0 }

/-! ## Messages -/

/-- Handle of one request socket of `agent_sockets`. -/
abbrev Sock := Nat

/-- Counters and window bounds of `AgentStats`. -/
structure AgentStats where
  rx_bytes : Nat
  tx_bytes : Nat
  gets : Nat
  sets : Nat
  get_misses : Nat
  skips : Nat
  start : ℚ
  stop : ℚ
deriving DecidableEq

/-- Payload of one message on a request/reply socket. -/
inductive Msg where
  | blob (o : options_t)
  | num (n : Int)
  | str (s : String)
  | stats (a : AgentStats)
deriving DecidableEq

/-- One socket operation: a send with the status it returned, or a receive
with the result of `poll_recv` (`none` when it returned false). -/
inductive Event where
  | send (s : Sock) (m : Msg) (status : Bool)
  | recv (s : Sock) (m : Option Msg)
deriving DecidableEq

/-- `s_recv`: the received string, or the sentinel when `poll_recv` failed. -/
def s_recv (r : Option String) : String :=
  match r with
  | some s => s
  | none => "FAIL-RECV"

/-! ## Iterating over `agent_sockets` with erasure -/

/-- The loop `for (its = begin(); its != end(); its++) { ... }` over a vector
whose body may end with `its = erase(its); its--;`.  `body` returns the new
state and whether the current element is erased.  `its` is the offset of the
iterator from `begin()`.  The result is `none` when the fuel runs out or the
iterator is dereferenced outside the vector. -/
def eraseLoop {σ α : Type} (body : σ → α → σ × Bool) :
    Nat → σ → List α → Int → Option (σ × List α)
  | 0, _, _, _ => none
  | fuel + 1, st, v, its =>
    if its = (v.length : Int) then some (st, v)
    else if its < 0 then none
    else
      match v.get? its.toNat with
      | none => none
      | some s =>
        let r := body st s
        if r.2 then eraseLoop body fuel r.1 (v.eraseIdx its.toNat) ((its - 1) + 1)
        else eraseLoop body fuel r.1 v (its + 1)

/-- Functional reading of the same loop: the elements are visited once, in
order; the erased ones are dropped. -/
def eraseFold {σ α : Type} (body : σ → α → σ × Bool) : σ → List α → σ × List α
  | st, [] => (st, [])
  | st, s :: rest =>
    let r := body st s
    let k := eraseFold body r.1 rest
    (k.1, if r.2 then k.2 else s :: k.2)

/-! ## Preparation phase (master side) -/

/-- Outcomes of the socket operations of `prep_agent`: the status of each send,
and the result of `poll_recv` after the Options blob (the `int` read from the
reply), after the server string of index `i`, and after `lambda_denom`. -/
structure PrepEnv where
  sendOk : Sock → Msg → Bool
  numReply : Sock → Option Int
  srvReply : Sock → Nat → Option String
  denomReply : Sock → Option String

/-- The statement `sum += options.connections * (roundrobin ? max : product)`:
the right-hand side is evaluated in `size_t`, the sum is stored back in an
`int`. -/
def addAgentShare (sum connections : Int) (roundrobin : Bool) (nservers num : Nat) : Int :=
  let x : Nat :=
    if roundrobin then (if nservers > num then nservers else num)
    else (nservers * num) % 18446744073709551616
  let prod : Nat := (toU64 connections * x) % 18446744073709551616
  wrap32 (((toU64 sum + prod) % 18446744073709551616 : Nat) : Int)

/-- Inner loop of `prep_agent` sending the server strings to agent `s`,
starting at string index `i`; returns the extended trace and whether the loop
was left with `itid = -1`. -/
def sendServers (env : PrepEnv) (s : Sock) : List String → Nat → List Event → List Event × Bool
  | [], _, tr => (tr, false)
  | srv :: rest, i, tr =>
    let status := env.sendOk s (Msg.str srv)
    let r := env.srvReply s i
    let tr1 := tr ++ [Event.send s (Msg.str srv) status, Event.recv s (r.map Msg.str)]
    if s_recv r = "FAIL-RECV" then (tr1, true)
    else sendServers env s rest (i + 1) tr1

/-- Body of the first loop of `prep_agent` for agent `s`; the state is the
running `sum` and the trace. -/
def prepBody (env : PrepEnv) (servers : List String) (options : options_t)
    (st : Int × List Event) (s : Sock) : (Int × List Event) × Bool :=
  let status := env.sendOk s (Msg.blob options)
  let tr1 := st.2 ++ [Event.send s (Msg.blob options) status]
  match env.numReply s with
  | none => ((st.1, tr1 ++ [Event.recv s none]), true)
  | some n =>
    let num := toU32 n
    let sum := addAgentShare st.1 options.connections options.roundrobin servers.length num
    let r := sendServers env s servers 0 (tr1 ++ [Event.recv s (some (Msg.num n))])
    ((sum, r.1), r.2)

/-- Body of the second loop of `prep_agent`: send `sum`, wait for the answer. -/
def denomBody (env : PrepEnv) (sum : Int) (tr : List Event) (s : Sock) : List Event × Bool :=
  let status := env.sendOk s (Msg.num sum)
  let r := env.denomReply s
  (tr ++ [Event.send s (Msg.num sum) status, Event.recv s (r.map Msg.str)],
    decide (s_recv r = "FAIL-RECV"))

/-- What `prep_agent` leaves behind: the updated options, the global
`agent_sockets`, and the messages exchanged. -/
structure PrepResult where
  options : options_t
  agent_sockets : List Sock
  trace : List Event

/-- `prep_agent`. -/
def prep_agent (args : gengetopt_args_info) (env : PrepEnv) (servers : List String)
    (options : options_t) (agent_sockets : List Sock) : Option PrepResult :=
  let sum0 := options.lambda_denom
  let sum1 :=
    if args.measure_connections_given then
      wrap32 (wrap32 (args.measure_connections_arg * options.server_given) * options.threads)
    else sum0
  let master_sum := sum1
  let sum2 := if args.measure_qps_given then 0 else sum1
  let options1 :=
    if args.measure_qps_given ∧ options.qps ≠ 0 then
      { options with qps := wrap32 (options.qps - args.measure_qps_arg) }
    else options
  match eraseLoop (prepBody env servers options1) (agent_sockets.length + 1)
      (sum2, []) agent_sockets 0 with
  | none => none
  | some (st, socks1) =>
    let sum := st.1
    let options2 :=
      { options1 with
        lambda_denom := sum
        lambda := lambdaOf options1.qps sum args.lambda_mul_arg }
    let options3 :=
      if args.measure_qps_given then
        { options2 with lambda := (args.measure_qps_arg : ℚ) / (master_sum : ℚ) }
      else options2
    let options4 :=
      if args.measure_depth_given then { options3 with depth := args.measure_depth_arg }
      else options3
    match eraseLoop (denomBody env sum) (socks1.length + 1) st.2 socks1 0 with
    | none => none
    | some (tr2, socks2) =>
      some { options := options4, agent_sockets := socks2, trace := tr2 }

/-! ## Preparation phase (agent side) -/

/-- The number an agent answers to the Options blob:
`args.threads_arg * args.lambda_mul_arg`. -/
def agent_num (args : gengetopt_args_info) : Int :=
  wrap32 (args.threads_arg * args.lambda_mul_arg)

/-- The agent's reads of the server strings: `count` messages are taken from
the incoming list, each must be a string. -/
def agentServers : Nat → List Msg → Option (List String × List Msg)
  | 0, inc => some ([], inc)
  | n + 1, Msg.str s :: inc =>
    match agentServers n inc with
    | some (l, rest) => some (s :: l, rest)
    | none => none
  | _ + 1, _ => none

/-- What an agent holds when it calls `go`: the number it sent, its server
list and its options. -/
structure AgentPrep where
  num : Int
  servers : List String
  options : options_t
  rest : List Msg

/-- Preparation part of `agent()` (one turn of its loop, up to the call of
`go`), run on the list of messages that arrive on its socket.  The result is
`none` when a message is missing or is not of the kind the agent reads. -/
def agent_prep (args : gengetopt_args_info) (incoming : List Msg) : Option AgentPrep :=
  match incoming with
  | Msg.blob o :: inc1 =>
    let num := agent_num args
    match agentServers o.server_given.toNat inc1 with
    | some (servers, Msg.num d :: rest) =>
      let options1 := { o with threads := args.threads_arg, lambda_denom := d }
      some { num := num
             servers := servers
             options := { options1 with lambda := lambdaOf options1.qps d args.lambda_mul_arg }
             rest := rest }
    | _ => none
  | _ => none

/-! ## Synchronisation -/

/-- Outcomes of the socket operations of one call of `sync_agent`.  Master
side: status of each send, result of `poll_recv` after "sync_req" and after
"proceed" for each agent.  Agent side: the two messages received on the
agent's own socket. -/
structure SyncEnv where
  sendOk : Sock → Msg → Bool
  syncReply : Sock → Option String
  ackReply : Sock → Option String
  reqRecv : Option String
  proceedRecv : Option String

/-- The loops `for (its ...) s_send(*s, token)` of `sync_agent`. -/
def sendAll (env : SyncEnv) (token : String) (socks : List Sock) : List Event :=
  socks.map (fun s => Event.send s (Msg.str token) (env.sendOk s (Msg.str token)))

/-- Body of a receive loop of `sync_agent` (master side): the reply must be
`expect`; otherwise `errors++`, and the socket is erased when the reply is the
sentinel.  The state is the error count and the trace. -/
def syncRecvBody (expect : String) (reply : Sock → Option String)
    (st : Int × List Event) (s : Sock) : (Int × List Event) × Bool :=
  let r := reply s
  let rep := s_recv r
  let tr := st.2 ++ [Event.recv s (r.map Msg.str)]
  if rep ≠ expect then ((st.1 + 1, tr), decide (rep = "FAIL-RECV"))
  else ((st.1, tr), false)

/-- Result of `sync_agent`: the returned error count, the global
`agent_sockets` afterwards, the messages exchanged. -/
structure SyncResult where
  errors : Int
  agent_sockets : List Sock
  trace : List Event

/-- `sync_agent(socket)`.  The error count is bounded by twice the number of
agents and is kept as an unbounded integer. -/
def sync_agent (args : gengetopt_args_info) (env : SyncEnv) (socket : Sock)
    (agent_sockets : List Sock) : Option SyncResult :=
  if args.agent_given ≠ 0 then
    let tr1 := sendAll env "sync_req" agent_sockets
    match eraseLoop (syncRecvBody "sync" env.syncReply) (agent_sockets.length + 1)
        (0, tr1) agent_sockets 0 with
    | none => none
    | some (st1, socks1) =>
      let tr2 := st1.2 ++ sendAll env "proceed" socks1
      match eraseLoop (syncRecvBody "ack" env.ackReply) (socks1.length + 1)
          (st1.1, tr2) socks1 0 with
      | none => none
      | some (st2, socks2) =>
        some { errors := st2.1, agent_sockets := socks2, trace := st2.2 }
  else if args.agentmode_given then
    let rep1 := s_recv env.reqRecv
    let e1 : Int := if rep1 ≠ "sync_req" then 1 else 0
    let rep2 := s_recv env.proceedRecv
    let e2 : Int := if rep2 ≠ "proceed" then e1 + 1 else e1
    some { errors := e2
           agent_sockets := agent_sockets
           trace :=
             [Event.recv socket (env.reqRecv.map Msg.str),
              Event.send socket (Msg.str "sync") (env.sendOk socket (Msg.str "sync")),
              Event.recv socket (env.proceedRecv.map Msg.str),
              Event.send socket (Msg.str "ack") (env.sendOk socket (Msg.str "ack"))] }
  else
    some { errors := 0, agent_sockets := agent_sockets, trace := [] }

/-! ## Finish phase -/

/-- Counters and window bounds of `ConnectionStats` (the samplers are left
out). -/
structure ConnectionStats where
  rx_bytes : Nat
  tx_bytes : Nat
  gets : Nat
  sets : Nat
  get_misses : Nat
  skips : Nat
  start : ℚ
  stop : ℚ
deriving DecidableEq

/-- Modelled from the spec: `ConnectionStats::accumulate(const AgentStats&)`
is declared in a header that is not part of the sources; "counters add,
start = min, stop = max". -/
def ConnectionStats.accumulate (st : ConnectionStats) (a : AgentStats) : ConnectionStats :=
  { rx_bytes := st.rx_bytes + a.rx_bytes
    tx_bytes := st.tx_bytes + a.tx_bytes
    gets := st.gets + a.gets
    sets := st.sets + a.sets
    get_misses := st.get_misses + a.get_misses
    skips := st.skips + a.skips
    start := min st.start a.start
    stop := max st.stop a.stop }

/-- Outcomes of the socket operations of `finish_agent`: status of the send,
and for the receive the status of `poll_recv` together with the `AgentStats`
image copied out of the message buffer. -/
structure FinishEnv where
  sendOk : Sock → Msg → Bool
  statsReply : Sock → Bool × AgentStats

/-- Result of `finish_agent`. -/
structure FinishResult where
  stats : ConnectionStats
  agent_sockets : List Sock
  trace : List Event

/-- The loop of `finish_agent` over the sockets that remain to be visited. -/
def finishLoop (env : FinishEnv) : List Sock → ConnectionStats → List Event →
    ConnectionStats × List Event
  | [], stats, tr => (stats, tr)
  | s :: rest, stats, tr =>
    let status := env.sendOk s (Msg.str "stats")
    let r := env.statsReply s
    finishLoop env rest (stats.accumulate r.2)
      (tr ++ [Event.send s (Msg.str "stats") status,
              Event.recv s (if r.1 then some (Msg.stats r.2) else none)])

/-- `finish_agent`: no socket is ever erased here. -/
def finish_agent (env : FinishEnv) (stats : ConnectionStats) (agent_sockets : List Sock) :
    FinishResult :=
  let r := finishLoop env agent_sockets stats []
  { stats := r.1, agent_sockets := agent_sockets, trace := r.2 }

/-! ## `do_mcperf` and `go` -/

/-- The two timed windows of `do_mcperf`. -/
inductive Phase where
  | warmup
  | measure
deriving DecidableEq

/-- Observable steps of `do_mcperf` after the connections are idle: a call of
`sync_agent` with what it returned, the start of a window (the connections are
kicked with `drive_write_machine`), or `DIE`. -/
inductive Step where
  | sync (p : Phase) (errors : Int) (trace : List Event)
  | window (p : Phase)
  | die (p : Phase)
deriving DecidableEq

/-- What one call of `do_mcperf` did: connections created, steps taken, the
global `agent_sockets` afterwards, and whether it ended in `DIE`. -/
structure McperfRun where
  opened : Nat
  steps : List Step
  agent_sockets : List Sock
  died : Bool
deriving DecidableEq

/-- The block `if (args.agent_given || args.agentmode_given) { ... err =
sync_agent(socket) ... if (err>0) DIE(...) }` of `do_mcperf`: the steps taken,
the sockets afterwards, and whether `DIE` was reached. -/
def syncBlock (args : gengetopt_args_info) (env : SyncEnv) (master : Bool) (socket : Sock)
    (p : Phase) (agent_sockets : List Sock) : Option (List Step × List Sock × Bool) :=
  if args.agent_given ≠ 0 ∨ args.agentmode_given = true then
    if master then
      match sync_agent args env socket agent_sockets with
      | none => none
      | some r =>
        if r.errors > 0 then
          some ([Step.sync p r.errors r.trace, Step.die p], r.agent_sockets, true)
        else
          some ([Step.sync p r.errors r.trace], r.agent_sockets, false)
    else some ([], agent_sockets, false)
  else some ([], agent_sockets, false)

/-- `do_mcperf`, reduced to the creation of the connections and the sequence
of synchronisation points and windows (the event loops that wait for the
connections are taken to complete).  `envW` and `envM` are the environments of
the synchronisation before warmup and before the measurement. -/
def do_mcperf (args : gengetopt_args_info) (envW envM : SyncEnv) (servers : List String)
    (options : options_t) (master : Bool) (socket : Sock) (agent_sockets : List Sock) :
    Option McperfRun :=
  let conns :=
    if args.measure_connections_given then args.measure_connections_arg
    else options.connections
  let opened := (servers.map (fun _ => conns.toNat)).sum
  if options.loadonly then
    some { opened := opened, steps := [], agent_sockets := agent_sockets, died := false }
  else
    let warm : Option (List Step × List Sock × Bool) :=
      if options.warmup > 0 then
        match syncBlock args envW master socket Phase.warmup agent_sockets with
        | none => none
        | some (steps, socks, died) =>
          if died then some (steps, socks, true)
          else some (steps ++ [Step.window Phase.warmup], socks, false)
      else some ([], agent_sockets, false)
    match warm with
    | none => none
    | some (steps1, socks1, true) =>
      some { opened := opened, steps := steps1, agent_sockets := socks1, died := true }
    | some (steps1, socks1, false) =>
      match syncBlock args envM master socket Phase.measure socks1 with
      | none => none
      | some (steps2, socks2, died) =>
        some { opened := opened
               steps := steps1 ++ steps2 ++ (if died then [] else [Step.window Phase.measure])
               agent_sockets := socks2
               died := died }

/-- The round-robin loop of `go` for one thread:
`for (unsigned int i = t % servers.size(); i < servers.size(); i += threads)
   ts[t].push_back(servers[i % servers.size()])`. -/
def rrLoop (servers : List String) (threads : Int) : Nat → Nat → List String →
    Option (List String)
  | 0, _, _ => none
  | fuel + 1, i, acc =>
    if i < servers.length then
      match servers.get? (i % servers.length) with
      | none => none
      | some srv => rrLoop servers threads fuel ((i + toU32 threads) % 4294967296) (acc ++ [srv])
    else some acc

/-- Server list handed to thread `t` by `go`.  With an empty server vector the
round-robin start index `t % servers.size()` is a division by zero: `none`. -/
def threadServers (servers : List String) (options : options_t) (t : Nat) :
    Option (List String) :=
  if options.roundrobin then
    if servers.length = 0 then none
    else rrLoop servers options.threads (servers.length + 1)
      ((t % servers.length) % 4294967296) []
  else some servers

/-- The loop of `go` that starts the worker threads `t, t+1, ...` (`k` of
them); thread 0 is the one that runs with `master = true`.  The runs are
listed in thread order. -/
def spawnThreads (args : gengetopt_args_info) (envW envM : SyncEnv) (servers : List String)
    (options : options_t) (socket : Sock) (agent_sockets : List Sock) :
    Nat → Nat → Option (List McperfRun)
  | 0, _ => some []
  | k + 1, t =>
    match threadServers servers options t with
    | none => none
    | some ts =>
      match do_mcperf args envW envM ts options (decide (t = 0)) socket agent_sockets with
      | none => none
      | some r =>
        match spawnThreads args envW envM servers options socket agent_sockets k (t + 1) with
        | none => none
        | some rs => some (r :: rs)

/-- What `go` did. -/
structure GoResult where
  options : options_t
  agent_sockets : List Sock
  runs : List McperfRun
  died : Bool
  stats : ConnectionStats
  prepTrace : List Event
  finishTrace : List Event

/-- Connections created by all workers of one `go`. -/
def GoResult.opened (r : GoResult) : Nat := (r.runs.map McperfRun.opened).sum

/-- `go`.  `workerStats` is what the workers accumulate into `stats`; CPU
pinning is not part of this definition.  When a worker ends in `DIE` the
process exits and `finish_agent` is not reached. -/
def go (args : gengetopt_args_info) (penv : PrepEnv) (envW envM : SyncEnv) (fenv : FinishEnv)
    (workerStats : ConnectionStats) (servers : List String) (options : options_t)
    (socket : Sock) (agent_sockets : List Sock) : Option GoResult :=
  let prep : Option PrepResult :=
    if args.agent_given > 0 then prep_agent args penv servers options agent_sockets
    else some { options := options, agent_sockets := agent_sockets, trace := [] }
  match prep with
  | none => none
  | some pr =>
    let work : Option (List McperfRun × List Sock × Bool) :=
      if pr.options.threads > 1 then
        match spawnThreads args envW envM servers pr.options socket pr.agent_sockets
            pr.options.threads.toNat 0 with
        | none => none
        | some [] => some ([], pr.agent_sockets, false)
        | some (r0 :: rs) => some (r0 :: rs, r0.agent_sockets, r0.died)
      else if pr.options.threads = 1 then
        match do_mcperf args envW envM servers pr.options true socket pr.agent_sockets with
        | none => none
        | some r => some ([r], r.agent_sockets, r.died)
      else if args.agent_given ≠ 0 then
        match sync_agent args envM socket pr.agent_sockets with
        | none => none
        | some r => some ([], r.agent_sockets, decide (r.errors > 0))
      else some ([], pr.agent_sockets, false)
    match work with
    | none => none
    | some (runs, socks, true) =>
      some { options := pr.options, agent_sockets := socks, runs := runs, died := true
             stats := workerStats, prepTrace := pr.trace, finishTrace := [] }
    | some (runs, socks, false) =>
      if args.agent_given > 0 then
        let f := finish_agent fenv workerStats socks
        some { options := pr.options, agent_sockets := f.agent_sockets, runs := runs
               died := false, stats := f.stats, prepTrace := pr.trace, finishTrace := f.trace }
      else
        some { options := pr.options, agent_sockets := socks, runs := runs, died := false
               stats := workerStats, prepTrace := pr.trace, finishTrace := [] }

/-! ## Socket timers and `poll_recv` -/

/-- The static variables `max_poll_time` and `poll_interval_s` (both
`unsigned int`). -/
structure Timers where
  max_poll_time : Nat
  poll_interval_s : Nat
deriving DecidableEq

/-- Initial values of the static variables. -/
def initialTimers : Timers := { max_poll_time := 0, poll_interval_s := 1 }

/-- `setup_socket_timers(max, ptime)`. -/
def setup_socket_timers (t : Timers) (max ptime : Nat) : Timers :=
  { max_poll_time := if max > 0 then max else t.max_poll_time
    poll_interval_s := if ptime > 0 then ptime else t.poll_interval_s }

/-- Outcome of one non-blocking `socket.recv`: a message, failure with
`EAGAIN`, or failure with another error. -/
inductive Attempt where
  | msg (m : String)
  | eagain
  | error
deriving DecidableEq

/-- The `do { ... } while (timer > poll_interval_s)` loop of `poll_recv`.
`attempt k` is the outcome of the recv of iteration `k`; `timer` is the
unsigned 32-bit countdown; `slept` adds up the seconds passed to `nanosleep`.
Returns the message (or `none` for `false`) and the seconds slept. -/
def pollLoop (p : Nat) (attempt : Nat → Attempt) :
    Nat → Nat → Nat → Nat → Option (Option String × Nat)
  | 0, _, _, _ => none
  | fuel + 1, itid, timer, slept =>
    match attempt itid with
    | Attempt.msg m => some (some m, slept)
    | Attempt.error => some (none, slept)
    | Attempt.eagain =>
      let slept1 := slept + p
      let timer1 := (timer + 4294967296 - p) % 4294967296
      if timer1 > p then pollLoop p attempt fuel (itid + 1) timer1 slept1
      else some (none, slept1)

/-- `poll_recv`: with `max_poll_time = 0` it is the blocking recv, whose
result is `blocking`; otherwise the polling loop. -/
def poll_recv (t : Timers) (blocking : Option String) (attempt : Nat → Attempt) (fuel : Nat) :
    Option (Option String × Nat) :=
  if t.max_poll_time = 0 then some (blocking, 0)
  else pollLoop t.poll_interval_s attempt fuel 0 t.max_poll_time 0

/-- `s_recv` on top of `poll_recv`: the string returned and the seconds
slept. -/
def s_recv_poll (t : Timers) (blocking : Option String) (attempt : Nat → Attempt) (fuel : Nat) :
    Option (String × Nat) :=
  (poll_recv t blocking attempt fuel).map (fun r => (s_recv r.1, r.2))

/-! ## Scan mode -/

/-- One iteration of the scan loop of `main`: the options handed to `go`, the
statistics `go` left, and the number printed in the `target` column. -/
structure ScanRow where
  options : options_t
  stats : ConnectionStats
  target : Int
deriving DecidableEq

/-- Body of the scan loop for the rate `q`: `args_to_options`, then
`options.qps = q` and the new lambda, then `go` (which `run` stands for,
returning the statistics of the run), then the printed row. -/
def scanRun (args : gengetopt_args_info) (run : options_t → ConnectionStats) (q : Int) :
    ScanRow :=
  let options0 := args_to_options args
  let options1 :=
    { options0 with
      qps := q
      lambda := lambdaOf q options0.lambda_denom args.lambda_mul_arg }
  { options := options1, stats := run options1, target := q }

/-- The loop `for (int q = min; q <= max; q += step)` of `main`. -/
def scanLoop (args : gengetopt_args_info) (run : options_t → ConnectionStats)
    (max step : Int) : Nat → Int → List ScanRow → Option (List ScanRow)
  | 0, _, _ => none
  | fuel + 1, q, rows =>
    if q ≤ max then
      scanLoop args run max step fuel (wrap32 (q + step)) (rows ++ [scanRun args run q])
    else some rows

/-- The `--scan min:max:step` branch of `main`, after `atoi`. -/
def scan (args : gengetopt_args_info) (run : options_t → ConnectionStats)
    (min max step : Int) (fuel : Nat) : Option (List ScanRow) :=
  scanLoop args run max step fuel min []

/-! ## Vocabulary of the statements -/

/-- Messages sent on socket `s`, in order, as recorded in a trace: what the
peer of `s` receives. -/
def sentTo (s : Sock) : List Event → List Msg
  | [] => []
  | Event.send s1 m _ :: tr => if s1 = s then m :: sentTo s tr else sentTo s tr
  | Event.recv _ _ :: tr => sentTo s tr

/-- A command line with the defaults of the option parser (one connection, one
thread, weight 1, no agent), `n` servers and a target rate. -/
def plainArgs (n : Nat) (qps : Int) : gengetopt_args_info :=
  { connections_arg := 1
    qps_arg := qps
    threads_arg := 1
    lambda_mul_arg := 1
    server_given := n
    roundrobin_given := false
    agent_given := 0
    agentmode_given := false
    measure_connections_given := false
    measure_connections_arg := 0
    measure_qps_given := false
    measure_qps_arg := 0
    measure_depth_given := false
    measure_depth_arg := 0
    records_arg := 10000
    time_arg := 5
    depth_arg := 1
    warmup_given := false
    warmup_arg := 0
    blocking_given := false
    loadonly_given := false
    noload_given := false }

/-- Preparation environment in which every send succeeds and every agent
answers: agent `s` reports the number computed from its own command line
`aargs s`, acknowledges each server string and thanks for `lambda_denom`. -/
def answeringEnv (aargs : Sock → gengetopt_args_info) : PrepEnv :=
  { sendOk := fun _ _ => true
    numReply := fun s => some (agent_num (aargs s))
    srvReply := fun _ _ => some "ack"
    denomReply := fun _ => some "THANKS" }

/-- A round-robin master: two servers, two connections, two agents. -/
def rrMasterArgs : gengetopt_args_info :=
  { plainArgs 2 1000 with connections_arg := 2, roundrobin_given := true, agent_given := 2 }

/-- Command lines of the two agents of `rrMasterArgs`: agent 0 runs four
threads, agent 1 one thread. -/
def rrAgentArgs (s : Sock) : gengetopt_args_info :=
  { plainArgs 0 0 with threads_arg := if s = 0 then 4 else 1, agentmode_given := true }

/-- Master of the two-process scenario: one server, one thread, one
connection, weight 1, one agent, 3000 requests per second. -/
def duoMasterArgs : gengetopt_args_info :=
  { plainArgs 1 3000 with agent_given := 1 }

/-- Agent of the two-process scenario: one thread, weight 2. -/
def duoAgentArgs : gengetopt_args_info :=
  { plainArgs 0 0 with lambda_mul_arg := 2, agentmode_given := true }

/-- Synchronisation environment without any failure: sends succeed, agents
answer "sync" and "ack", the agent side receives "sync_req" and "proceed". -/
def calmSync : SyncEnv :=
  { sendOk := fun _ _ => true
    syncReply := fun _ => some "sync"
    ackReply := fun _ => some "ack"
    reqRecv := some "sync_req"
    proceedRecv := some "proceed" }

/-- As `calmSync`, but the receive from socket 0 after "sync_req" fails. -/
def firstSilentSync : SyncEnv :=
  { calmSync with syncReply := fun s => if s = 0 then none else some "sync" }

/-- As `calmSync`, but socket 0 answers "hello" to "sync_req". -/
def chattySync : SyncEnv :=
  { calmSync with syncReply := fun s => if s = 0 then some "hello" else some "sync" }

/-- As `calmSync`, but every send reports failure. -/
def deafSync : SyncEnv :=
  { calmSync with sendOk := fun _ _ => false }

/-- An `AgentStats` with all counters zero. -/
def zeroAgentStats : AgentStats :=
  { rx_bytes := 0, tx_bytes := 0, gets := 0, sets := 0, get_misses := 0, skips := 0
    start := 0, stop := 0 }

/-- A `ConnectionStats` with all counters zero. -/
def zeroStats : ConnectionStats :=
  { rx_bytes := 0, tx_bytes := 0, gets := 0, sets := 0, get_misses := 0, skips := 0
    start := 0, stop := 0 }

/-- Finish environment without failure: every agent returns zero counters. -/
def calmFinish : FinishEnv :=
  { sendOk := fun _ _ => true, statsReply := fun _ => (true, zeroAgentStats) }

/-- Finish environment in which every send and every receive fails. -/
def deadFinish : FinishEnv :=
  { sendOk := fun _ _ => false, statsReply := fun _ => (false, zeroAgentStats) }

/-- A master with one server and `k` agents. -/
def masterArgs (k : Nat) : gengetopt_args_info :=
  { plainArgs 1 1000 with agent_given := k }

/-- Preparation environment in which the agents answer as in `answeringEnv`
but every send reports failure. -/
def deafPrep (aargs : Sock → gengetopt_args_info) : PrepEnv :=
  { answeringEnv aargs with sendOk := fun _ _ => false }

/-- A round-robin master with two servers, one thread, one connection,
weight 1 and one agent. -/
def rrDuoMasterArgs : gengetopt_args_info :=
  { plainArgs 2 3000 with roundrobin_given := true, agent_given := 1 }

/-! ## Search mode -/

/-- What the search reads from the statistics left by one run:
`stats.get_avg()`, `stats.get_nth(n)` and `stats.get_qps()`.  They are
measurements; a run is an oracle for them.  Doubles are exact rationals. -/
structure RunStats where
  get_avg : ℚ
  get_nth : Int → ℚ
  get_qps : ℚ

/-- Conversion of a non-integral `double` to `int`: truncation toward zero. -/
def doubleToInt (q : ℚ) : Int := wrap32 (Int.tdiv q.num (q.den : Int))

/-- Local variables of the `--search` branch of `main`, with the statistics of
the last run and the options handed to `go` so far, in order. -/
structure SearchState where
  peak_qps : ℚ
  high_qps : Int
  low_qps : Int
  cur_qps : Int
  nth : ℚ
  stats : RunStats
  runs : List options_t

/-- The statement `if (avgseek) nth=stats.get_avg(); else nth = stats.get_nth(n);`. -/
def searchStat (avgseek : Bool) (n : Int) (stats : RunStats) : ℚ :=
  if avgseek then stats.get_avg else stats.get_nth n

/-- Options of a run made inside the search loops: `args_to_options`, then
`options.qps = cur_qps` and the new lambda. -/
def searchOptions (args : gengetopt_args_info) (cur_qps : Int) : options_t :=
  let options0 := args_to_options args
  { options0 with
    qps := cur_qps
    lambda := lambdaOf cur_qps options0.lambda_denom args.lambda_mul_arg }

/-- The first run of the search and the initialisation that follows it: `go`
is called with the options computed by `args_to_options` at the start of
`main`; `run` stands for `go`. -/
def searchStart (args : gengetopt_args_info) (run : options_t → RunStats) (avgseek : Bool)
    (n : Int) : SearchState :=
  let options := args_to_options args
  let stats := run options
  { peak_qps := stats.get_qps
    high_qps := doubleToInt stats.get_qps
    low_qps := 1
    cur_qps := doubleToInt stats.get_qps
    nth := searchStat avgseek n stats
    stats := stats
    runs := [options] }

/-- Body of the binary-search loop. -/
def binaryStep (args : gengetopt_args_info) (run : options_t → RunStats) (avgseek : Bool)
    (n x : Int) (st : SearchState) : SearchState :=
  let cur_qps := Int.tdiv (wrap32 (st.high_qps + st.low_qps)) 2
  let options := searchOptions args cur_qps
  let stats := run options
  let nth := searchStat avgseek n stats
  if nth > (x : ℚ) then
    { st with high_qps := cur_qps, cur_qps := cur_qps, nth := nth, stats := stats
              runs := st.runs ++ [options] }
  else
    { st with low_qps := cur_qps, cur_qps := cur_qps, nth := nth, stats := stats
              runs := st.runs ++ [options] }

/-- Condition of the binary-search loop:
`(high_qps > low_qps * 1.02) && cur_qps > (peak_qps * .01)`. -/
def binaryGuard (st : SearchState) : Bool :=
  decide ((st.high_qps : ℚ) > (st.low_qps : ℚ) * (102 / 100)) &&
    decide ((st.cur_qps : ℚ) > st.peak_qps * (1 / 100))

/-- The binary-search loop. -/
def binaryLoop (args : gengetopt_args_info) (run : options_t → RunStats) (avgseek : Bool)
    (n x : Int) : Nat → SearchState → Option SearchState
  | 0, _ => none
  | fuel + 1, st =>
    if binaryGuard st then binaryLoop args run avgseek n x fuel (binaryStep args run avgseek n x st)
    else some st

/-- State of the binary-search loop after at most `k` turns (it stays where
the loop condition fails). -/
def binaryIter (args : gengetopt_args_info) (run : options_t → RunStats) (avgseek : Bool)
    (n x : Int) : Nat → SearchState → SearchState
  | 0, st => st
  | k + 1, st =>
    if binaryGuard st then binaryIter args run avgseek n x k (binaryStep args run avgseek n x st)
    else st

/-- Body of the fine-tune loop. -/
def fineStep (args : gengetopt_args_info) (run : options_t → RunStats) (avgseek : Bool)
    (n : Int) (st : SearchState) : SearchState :=
  let cur_qps := Int.tdiv (wrap32 (st.cur_qps * 99)) 100
  let options := searchOptions args cur_qps
  let stats := run options
  { st with cur_qps := cur_qps, nth := searchStat avgseek n stats, stats := stats
            runs := st.runs ++ [options] }

/-- Condition of the fine-tune loop:
`nth > x && cur_qps > (peak_qps * .01) && cur_qps > (low_qps * 0.90)`. -/
def fineGuard (x : Int) (st : SearchState) : Bool :=
  decide (st.nth > (x : ℚ)) &&
    decide ((st.cur_qps : ℚ) > st.peak_qps * (1 / 100)) &&
    decide ((st.cur_qps : ℚ) > (st.low_qps : ℚ) * (90 / 100))

/-- The fine-tune loop. -/
def fineLoop (args : gengetopt_args_info) (run : options_t → RunStats) (avgseek : Bool)
    (n x : Int) : Nat → SearchState → Option SearchState
  | 0, _ => none
  | fuel + 1, st =>
    if fineGuard x st then fineLoop args run avgseek n x fuel (fineStep args run avgseek n st)
    else some st

/-- The `--search N:X` branch of `main` after the argument is parsed: the
state when the branch is left (the statistics reported are `stats`). -/
def search (args : gengetopt_args_info) (run : options_t → RunStats) (avgseek : Bool)
    (n x : Int) (fuel : Nat) : Option SearchState :=
  let st0 := searchStart args run avgseek n
  if st0.nth > (x : ℚ) then
    match binaryLoop args run avgseek n x fuel st0 with
    | none => none
    | some st1 => fineLoop args run avgseek n x fuel st1
  else some st0

/-- A run oracle: uncapped (`qps = 0`) the system achieves `peak` with a
latency of 1000; at a target it achieves the target, with latency 1000 above
`limit` and 100 up to `limit`. -/
def cliffRun (peak : ℚ) (limit : Int) (o : options_t) : RunStats :=
  { get_avg := if o.qps = 0 ∨ o.qps > limit then 1000 else 100
    get_nth := fun _ => if o.qps = 0 ∨ o.qps > limit then 1000 else 100
    get_qps := if o.qps = 0 then peak else o.qps }

/-- A run oracle that always measures the same latency and rate. -/
def steadyRun (lat qps : ℚ) (_ : options_t) : RunStats :=
  { get_avg := lat, get_nth := fun _ => lat, get_qps := qps }

/-! ## The `--search` argument -/

/-- Test `strncmp(s, p, strlen(p)) == 0`: the string `s` starts with `p`. -/
def startsWith : List Char → List Char → Bool
  | _, [] => true
  | [], _ :: _ => false
  | a :: s, b :: p => a == b && startsWith s p

/-- C library `strstr(haystack, needle)`: offset of the first occurrence of
`needle` in `haystack`, `none` for `NULL`.  An empty needle is found at 0. -/
def strstr : List Char → List Char → Option Nat
  | [], needle => if startsWith [] needle then some 0 else none
  | c :: haystack, needle =>
    if startsWith (c :: haystack) needle then some 0
    else (strstr haystack needle).map (fun i => i + 1)

/-- C library `isspace` in the "C" locale. -/
def isspace (c : Char) : Bool := c.toNat = 32 || (9 ≤ c.toNat && c.toNat ≤ 13)

/-- Digits read by `atoi`: the value of the longest run of decimal digits. -/
def atoiDigits : Int → List Char → Int
  | acc, [] => acc
  | acc, c :: cs =>
    if 48 ≤ c.toNat ∧ c.toNat ≤ 57 then atoiDigits (acc * 10 + ((c.toNat : Int) - 48)) cs
    else acc

/-- C library `atoi`: leading white space, an optional sign, decimal digits;
0 when there is no digit.  The value is taken in 32 bits. -/
def atoi (s : List Char) : Int :=
  match s.dropWhile isspace with
  | '-' :: r => wrap32 (-(atoiDigits 0 r))
  | '+' :: r => wrap32 (atoiDigits 0 r)
  | r => wrap32 (atoiDigits 0 r)

/-- C library `strtok` with the single delimiter `delim`: skips leading
delimiters; `none` when nothing is left, else the token up to the next
delimiter and the text after that delimiter, where the next call resumes. -/
def strtok (s : List Char) (delim : Char) : Option (List Char × List Char) :=
  match s.dropWhile (fun c => c == delim) with
  | [] => none
  | c :: r =>
    some ((c :: r).takeWhile (fun d => d != delim),
      ((c :: r).dropWhile (fun d => d != delim)).drop 1)

/-- The test `strstr("avg", n_ptr) != NULL` that sets `avgseek` in `main`. -/
def avgSeek (n_ptr : List Char) : Bool := (strstr ['a', 'v', 'g'] n_ptr).isSome

/-- Parsing of `--search N:X` in `main`: `none` is
`DIE("Invalid --search argument")`, else `(avgseek, n, x)`. -/
def searchArg (search_arg : List Char) : Option (Bool × Int × Int) :=
  match strtok search_arg ':' with
  | none => none
  | some (n_ptr, rest) =>
    match strtok rest ':' with
    | none => none
    | some (x_ptr, _) => some (avgSeek n_ptr, atoi n_ptr, atoi x_ptr)

/-! ## Round-robin distribution, as the specification words it -/

/-- Indices named by the specification for worker `t` of `T` over `n` servers:
`t mod n`, `t mod n + T`, `t mod n + 2T`, ... below `n` (for `n ≥ 1`). -/
def rrIndices (n T t : Nat) : List Nat :=
  (List.range ((n - 1 - t % n) / T + 1)).map (fun (k : Nat) => t % n + k * T)

/-! ## CPU affinity of the workers -/

/-- The loop of `go` that looks for the CPU of the next worker:
`for (int i = 0; i < max_cpus; i++) { int c = (current_cpu + i + 1) % max_cpus;
   if (CPU_ISSET(c, &m)) { ...; break; } }`.
The first argument counts the turns left (`max_cpus - i`); the result is the
CPU found, `none` when the loop ends without finding one.  `m` is the mask
filled by `sched_getaffinity`. -/
def affinityScan (max_cpus : Int) (m : Int → Bool) (current_cpu : Int) : Nat → Int → Option Int
  | 0, _ => none
  | k + 1, i =>
    let c := Int.tmod (wrap32 (wrap32 (current_cpu + i) + 1)) max_cpus
    if m c then some c else affinityScan max_cpus m current_cpu k (wrap32 (i + 1))

/-- The affinity step over the workers `t, t+1, ...` (`k` of them) of the
thread loop of `go` when `args.affinity_given`: the CPU each worker is pinned
to, `none` for a worker whose attribute is left alone.  `setOk c` tells whether
`pthread_attr_setaffinity_np` succeeds for CPU `c`; when it fails `go` ends in
`DIE` (result `none`). -/
def pinLoop (max_cpus : Int) (m : Int → Bool) (setOk : Int → Bool) :
    Nat → Int → Option (List (Option Int))
  | 0, _ => some []
  | k + 1, current_cpu =>
    match affinityScan max_cpus m current_cpu max_cpus.toNat 0 with
    | none => (pinLoop max_cpus m setOk k current_cpu).map (fun l => none :: l)
    | some c =>
      if setOk c then (pinLoop max_cpus m setOk k c).map (fun l => some c :: l)
      else none

/-- CPU pinning done by `go` for its workers, in worker order (`none`: the
worker is not pinned).  The affinity step is in the `options.threads > 1`
branch only, with `current_cpu = -1` at the start; with `options.threads == 1`
the single worker `do_mcperf` runs in the calling thread and nothing is
pinned.  `max_cpus` is `8 * sizeof(cpu_set_t)`. -/
def goPins (affinity_given : Bool) (options : options_t) (max_cpus : Int) (m : Int → Bool)
    (setOk : Int → Bool) : Option (List (Option Int)) :=
  if options.threads > 1 then
    if affinity_given then pinLoop max_cpus m setOk options.threads.toNat (-1)
    else some (List.replicate options.threads.toNat none)
  else if options.threads = 1 then some [none]
  else some []

/-- The specification's "smallest CPU of M". -/
def IsLeastCpu (m : Int → Bool) (c : Int) : Prop :=
  m c = true ∧ ∀ d, m d = true → c ≤ d

/-- The specification's "smallest CPU of M strictly greater than the CPU `p`
of the previous worker, wrapping around to the smallest CPU of M when there is
none". -/
def IsNextCpu (m : Int → Bool) (p c : Int) : Prop :=
  m c = true ∧
    ((p < c ∧ ∀ d, m d = true → p < d → c ≤ d) ∨
     ((∀ d, m d = true → d ≤ p) ∧ ∀ d, m d = true → c ≤ d))

/-! ## The statistics an agent sends back -/

/-- The copy `as.rx_bytes = stats.rx_bytes; ...` made by `agent()` after
`go` returned: the agent's `ConnectionStats` as an `AgentStats`. -/
def agent_stats (stats : ConnectionStats) : AgentStats :=
  { rx_bytes := stats.rx_bytes
    tx_bytes := stats.tx_bytes
    gets := stats.gets
    sets := stats.sets
    get_misses := stats.get_misses
    skips := stats.skips
    start := stats.start
    stop := stats.stop }

/-- Finish environment in which every agent answers the "stats" request with
the copy of its own statistics: `conn s` is the `ConnectionStats` of the agent
behind socket `s` when its `go` returned. -/
def agentFinish (conn : Sock → ConnectionStats) : FinishEnv :=
  { sendOk := fun _ _ => true, statsReply := fun s => (true, agent_stats (conn s)) }

/-- Statistics of a process whose workers did `g` gets and `s` sets. -/
def someStats (g s : Nat) : ConnectionStats :=
  { zeroStats with gets := g, sets := s, rx_bytes := 100 * g, tx_bytes := 10 * (g + s) }

/-! ## The two schedules side by side -/

/-- Messages received on socket `s`, in order, as recorded in a trace (`none`:
the receive failed): what the peer of `s` sent, when nothing is lost. -/
def recvFrom (s : Sock) (tr : List Event) : List (Option Msg) :=
  tr.flatMap (fun e =>
    match e with
    | Event.recv s1 m => if s1 = s then [m] else []
    | Event.send _ _ _ => [])

/-- The calls of `sync_agent` made by one `do_mcperf`, in order: what each
returned and the messages it exchanged. -/
def runSyncs (run : McperfRun) : List (Int × List Event) :=
  run.steps.flatMap (fun st =>
    match st with
    | Step.sync _ e tr => [(e, tr)]
    | _ => [])

/-- The calls of `sync_agent` made by the workers of one `go`. -/
def GoResult.syncs (r : GoResult) : List (Int × List Event) := r.runs.flatMap runSyncs

/-- Messages exchanged by a step when it is the synchronisation before the
warm-up. -/
def stepWarmup : Step → List Event
  | Step.sync Phase.warmup _ tr => tr
  | _ => []

/-- Messages exchanged by the synchronisation before the warm-up. -/
def GoResult.warmupTrace (r : GoResult) : List Event :=
  r.runs.flatMap (fun run => run.steps.flatMap stepWarmup)

/-- Everything one `go` (with at least one worker) exchanged over the sockets,
in order: preparation, synchronisation points, finish. -/
def GoResult.trace (r : GoResult) : List Event :=
  r.prepTrace ++ r.syncs.flatMap (fun x => x.2) ++ r.finishTrace

/-- The string `s_recv` makes of a message: a token is itself; the bytes of a
blob or of a number are rendered as the text "binary". -/
def msgText : Msg → String
  | Msg.str s => s
  | _ => "binary"

/-- Agent-side environment of one call of `sync_agent` when the messages `q`
are what arrives on the agent's socket: its two receives take the first two of
them (a receive fails when nothing arrives). -/
def queueSync (q : List Msg) : SyncEnv :=
  { sendOk := fun _ _ => true
    syncReply := fun _ => none
    ackReply := fun _ => none
    reqRecv := (q.get? 0).map msgText
    proceedRecv := (q.get? 1).map msgText }

/-- Preparation environment of a process without agent sockets. -/
def noPrep : PrepEnv :=
  { sendOk := fun _ _ => false
    numReply := fun _ => none
    srvReply := fun _ _ => none
    denomReply := fun _ => none }

/-- The call `go(servers, options, stats, &socket)` made by `agent()`, fed with
the messages `q` that arrive on the agent's socket (`agent_sockets` is empty in
an agent process, `main` calls `agent()` before it connects to anything).  The
synchronisation before the measurement reads the socket where the one before
the warm-up left it. -/
def agent_go (aargs : gengetopt_args_info) (socket : Sock) (q : List Msg)
    (workerStats : ConnectionStats) (servers : List String) (options : options_t) :
    Option GoResult :=
  match go aargs noPrep (queueSync q) (queueSync q) deadFinish workerStats servers options
      socket [] with
  | none => none
  | some r1 =>
    go aargs noPrep (queueSync q)
      (queueSync (q.drop (recvFrom socket r1.warmupTrace).length)) deadFinish workerStats
      servers options socket []

/-- One turn of the loop of `agent()`. -/
structure AgentRound where
  prep : AgentPrep
  run : GoResult
  req : Option Msg
  sent : List Msg
  rest : List Msg

/-- One turn of the loop of `agent()` on the messages `incoming` that arrive
on its socket: the preparation, `go`, then (unless `go` ended in `DIE`) the
receive of the request `req` (not compared with "stats") answered with the
`AgentStats` copy.  `sent` is everything the agent sent, in order, `rest` what
it did not read. -/
def agent_round (aargs : gengetopt_args_info) (socket : Sock) (incoming : List Msg)
    (workerStats : ConnectionStats) : Option AgentRound :=
  match agent_prep aargs incoming with
  | none => none
  | some a =>
    match agent_go aargs socket a.rest workerStats a.servers a.options with
    | none => none
    | some r =>
      let q := a.rest.drop (recvFrom socket r.trace).length
      let prepSent :=
        Msg.num a.num :: a.servers.map (fun _ => Msg.str "ack") ++ [Msg.str "THANKS"]
      if r.died then
        some { prep := a, run := r, req := none, sent := prepSent ++ sentTo socket r.trace
               rest := q }
      else
        some { prep := a, run := r, req := q.head?
               sent := prepSent ++ sentTo socket r.trace ++ [Msg.stats (agent_stats r.stats)]
               rest := q.drop 1 }

/-- An agent started with `--threads 0`. -/
def idleAgentArgs : gengetopt_args_info :=
  { plainArgs 0 0 with threads_arg := 0, agentmode_given := true }

/-- The master of the two-process scenario with `--measure_connections 4` and
`--measure_qps 1000`. -/
def measuringMasterArgs : gengetopt_args_info :=
  { duoMasterArgs with
    measure_connections_given := true
    measure_connections_arg := 4
    measure_qps_given := true
    measure_qps_arg := 1000 }

/-- Number of synchronisation points of one run of `do_mcperf` on the thread
that synchronises, by the options: none in load-only mode, else one before the
measurement, and one more before the warm-up when there is a warm-up. -/
def syncPoints (o : options_t) : Nat :=
  if o.loadonly then 0 else if o.warmup > 0 then 2 else 1

theorem eraseLoop_append {σ α : Type} (body : σ → α → σ × Bool) :
    ∀ (suf pre : List α) (st : σ) (fuel : Nat), suf.length + 1 ≤ fuel →
      eraseLoop body fuel st (pre ++ suf) (pre.length : Int) =
        some ((eraseFold body st suf).1, pre ++ (eraseFold body st suf).2) := by
  intro suf
  induction suf with
  | nil =>
    intro pre st fuel hf
    obtain ⟨f, rfl⟩ : ∃ f, fuel = f + 1 := ⟨fuel - 1, by simp at hf; omega⟩
    simp [eraseLoop, eraseFold]
  | cons s rest ih =>
    intro pre st fuel hf
    obtain ⟨f, rfl⟩ : ∃ f, fuel = f + 1 := ⟨fuel - 1, by simp at hf; omega⟩
    have hf2 : rest.length + 1 ≤ f := by simp at hf; omega
    have hne : ¬ ((pre.length : Int) = ((pre ++ s :: rest).length : Int)) := by
      simp; omega
    have hget : (pre ++ s :: rest).get? (pre.length : Int).toNat = some s := by
      rw [Int.toNat_ofNat, List.get?_eq_getElem?, List.getElem?_append_right (le_refl _)]
      simp
    unfold eraseLoop
    rw [if_neg hne, if_neg (by omega), hget]
    simp only [eraseFold]
    by_cases hb : (body st s).2 = true
    · simp only [hb, if_true]
      have he : (pre ++ s :: rest).eraseIdx (pre.length : Int).toNat = pre ++ rest := by
        simp [List.eraseIdx_append_of_length_le]
      rw [he]
      have hi : ((pre.length : Int) - 1 + 1) = (pre.length : Int) := by omega
      rw [hi]
      exact ih pre (body st s).1 f hf2
    · simp only [hb, if_false, Bool.false_eq_true]
      have h1 : pre ++ s :: rest = (pre ++ [s]) ++ rest := by simp
      have h2 : ((pre.length : Int) + 1) = ((pre ++ [s]).length : Int) := by simp
      rw [h1, h2, ih (pre ++ [s]) (body st s).1 f hf2]
      simp

/-- Started at `begin()` with one unit of fuel more than the vector is long,
the loop ends and has the effect of `eraseFold`. -/
theorem eraseLoop_eq_fold {σ α : Type} (body : σ → α → σ × Bool) (st : σ) (v : List α) :
    eraseLoop body (v.length + 1) st v 0 = some (eraseFold body st v) := by
  have h := eraseLoop_append body v [] st (v.length + 1) (le_refl _)
  simpa using h

/-! ## Machine arithmetic -/

theorem wrap32_emod (x : Int) : wrap32 x % 4294967296 = x % 4294967296 := by
  unfold wrap32; omega
theorem wrap32_range (x : Int) : inInt32 (wrap32 x) := by
  unfold wrap32 inInt32; omega
theorem wrap32_of_range {x : Int} (h : inInt32 x) : wrap32 x = x := by
  unfold wrap32; unfold inInt32 at h; omega
theorem eq_of_emod_of_range {a b : Int} (h : a % 4294967296 = b % 4294967296)
    (ha : inInt32 a) (hb : inInt32 b) : a = b := by
  unfold inInt32 at ha hb; omega
theorem toU64_cast_emod (x : Int) : ((toU64 x : Nat) : Int) % 4294967296 = x % 4294967296 := by
  unfold toU64
  rw [Int.toNat_of_nonneg (Int.emod_nonneg _ (by norm_num))]
  omega

theorem mul_emod_congr {a b c d : Int} (h1 : a % 4294967296 = b % 4294967296)
    (h2 : c % 4294967296 = d % 4294967296) : (a * c) % 4294967296 = (b * d) % 4294967296 :=
  Int.ModEq.mul h1 h2

theorem share_core (sum c : Int) (x : Nat) (X : Int)
    (hx : (x : Int) % 4294967296 = X % 4294967296) :
    (((toU64 sum + (toU64 c * x) % 18446744073709551616) % 18446744073709551616 : Nat) : Int)
        % 4294967296 = (sum + c * X) % 4294967296 := by
  have hp := mul_emod_congr (toU64_cast_emod c) hx
  have hs := toU64_cast_emod sum
  push_cast
  generalize ((toU64 c : Nat) : Int) * (x : Int) = P at *
  generalize c * X = Q at *
  omega

theorem addAgentShare_emod (sum c : Int) (rr : Bool) (n num : Nat) :
    addAgentShare sum c rr n num % 4294967296 =
      (sum + c * (if rr then ((max n num : Nat) : Int) else (n : Int) * (num : Int))) % 4294967296 := by
  unfold addAgentShare
  rw [wrap32_emod]
  apply share_core
  cases rr
  · simp only [Bool.false_eq_true, if_false]
    push_cast
    generalize (n : Int) * (num : Int) = P
    omega
  · simp only [if_true]
    congr 2
    by_cases h : n > num
    · rw [if_pos h]; omega
    · rw [if_neg h]; omega

/-! ## Preparation: the negotiated `lambda_denom` -/

theorem sendServers_ok (env : PrepEnv) (s : Sock) :
    ∀ (l : List String) (i : Nat) (tr : List Event),
      (∀ j, j < l.length → s_recv (env.srvReply s (i + j)) ≠ "FAIL-RECV") →
      (sendServers env s l i tr).2 = false := by
  intro l
  induction l with
  | nil => intro i tr _; rfl
  | cons srv rest ih =>
    intro i tr h
    have h0 := h 0 (by simp)
    simp only [Nat.add_zero] at h0
    simp only [sendServers, if_neg h0]
    apply ih
    intro j hj
    have := h (j + 1) (by simp; omega)
    rwa [show i + 1 + j = i + (j + 1) by omega]

theorem sendServers_num (env : PrepEnv) (s : Sock) :
    ∀ (l : List String) (i : Nat) (tr : List Event) (s1 : Sock) (n : Int) (st : Bool),
      Event.send s1 (Msg.num n) st ∈ (sendServers env s l i tr).1 →
      Event.send s1 (Msg.num n) st ∈ tr := by
  intro l
  induction l with
  | nil => intro i tr s1 n st h; exact h
  | cons srv rest ih =>
    intro i tr s1 n st h
    simp only [sendServers] at h
    split at h
    · simpa using h
    · have := ih _ _ _ _ _ h
      simpa using this

theorem prepFold_all (env : PrepEnv) (servers : List String) (o : options_t) :
    ∀ (l : List Sock) (sum : Int) (tr : List Event),
      (∀ s ∈ l, (env.numReply s).isSome = true ∧
        (∀ i, i < servers.length → s_recv (env.srvReply s i) ≠ "FAIL-RECV")) →
      (eraseFold (prepBody env servers o) (sum, tr) l).2 = l ∧
      (eraseFold (prepBody env servers o) (sum, tr) l).1.1 % 4294967296 =
        (sum + (l.map (fun s => o.connections *
          (if o.roundrobin then ((max servers.length (toU32 ((env.numReply s).getD 0)) : Nat) : Int)
           else (servers.length : Int) * (toU32 ((env.numReply s).getD 0) : Int)))).sum)
          % 4294967296 ∧
      (inInt32 sum → inInt32 (eraseFold (prepBody env servers o) (sum, tr) l).1.1) ∧
      (∀ (s1 : Sock) (n : Int) (st : Bool),
        Event.send s1 (Msg.num n) st ∈ (eraseFold (prepBody env servers o) (sum, tr) l).1.2 →
        Event.send s1 (Msg.num n) st ∈ tr) := by
  intro l
  induction l with
  | nil => intro sum tr _; simp [eraseFold]
  | cons s rest ih =>
    intro sum tr h
    obtain ⟨hnum, hsrv⟩ := h s (by simp)
    obtain ⟨n, hn⟩ := Option.isSome_iff_exists.mp hnum
    have hrest : ∀ s ∈ rest, (env.numReply s).isSome = true ∧
        (∀ i, i < servers.length → s_recv (env.srvReply s i) ≠ "FAIL-RECV") :=
      fun s1 hs1 => h s1 (by simp [hs1])
    have hok : ∀ tr1, (sendServers env s servers 0 tr1).2 = false := fun tr1 =>
      sendServers_ok env s servers 0 tr1 (fun j hj => by simpa using hsrv j hj)
    have hbody : prepBody env servers o (sum, tr) s =
        ((addAgentShare sum o.connections o.roundrobin servers.length (toU32 n),
          (sendServers env s servers 0
            (tr ++ [Event.send s (Msg.blob o) (env.sendOk s (Msg.blob o))] ++
              [Event.recv s (some (Msg.num n))])).1), false) := by
      simp only [prepBody, hn]
      rw [hok]
    obtain ⟨ih1, ih2, ih3, ih4⟩ := ih
      (addAgentShare sum o.connections o.roundrobin servers.length (toU32 n))
      ((sendServers env s servers 0
            (tr ++ [Event.send s (Msg.blob o) (env.sendOk s (Msg.blob o))] ++
              [Event.recv s (some (Msg.num n))])).1) hrest
    simp only [eraseFold, hbody, Bool.false_eq_true, if_false]
    refine ⟨by rw [ih1], ?_, ?_, ?_⟩
    · rw [ih2]
      have ha := addAgentShare_emod sum o.connections o.roundrobin servers.length (toU32 n)
      simp only [List.map_cons, List.sum_cons, hn, Option.getD_some]
      rw [← add_assoc]
      exact Int.ModEq.add_right _ ha
    · intro _
      apply ih3
      unfold addAgentShare
      exact wrap32_range _
    · intro s1 m st hmem
      have h1 := sendServers_num env s servers 0 _ s1 m st (ih4 s1 m st hmem)
      simpa using h1

theorem denomFold_all (env : PrepEnv) (d : Int) :
    ∀ (l : List Sock) (tr : List Event),
      (∀ s ∈ l, s_recv (env.denomReply s) ≠ "FAIL-RECV") →
      (eraseFold (denomBody env d) tr l).2 = l ∧
      (∀ e ∈ tr, e ∈ (eraseFold (denomBody env d) tr l).1) ∧
      (∀ s ∈ l, ∃ st, Event.send s (Msg.num d) st ∈ (eraseFold (denomBody env d) tr l).1) ∧
      (∀ (s1 : Sock) (n : Int) (st : Bool),
        Event.send s1 (Msg.num n) st ∈ (eraseFold (denomBody env d) tr l).1 →
        Event.send s1 (Msg.num n) st ∈ tr ∨ n = d) := by
  intro l
  induction l with
  | nil =>
    intro tr _
    exact ⟨rfl, fun e he => he, by simp, fun _ _ _ h => Or.inl h⟩
  | cons s rest ih =>
    intro tr h
    have hs := h s (by simp)
    obtain ⟨ih1, ih2, ih3, ih4⟩ := ih (denomBody env d tr s).1 (fun s1 hs1 => h s1 (by simp [hs1]))
    have hb : (denomBody env d tr s).2 = false := by simp [denomBody, hs]
    simp only [eraseFold, hb, Bool.false_eq_true, if_false]
    refine ⟨by rw [ih1], ?_, ?_, ?_⟩
    · intro e he
      apply ih2
      simp [denomBody, he]
    · intro s1 hs1
      rcases List.mem_cons.mp hs1 with rfl | hmem
      · exact ⟨env.sendOk s1 (Msg.num d), ih2 _ (by simp [denomBody])⟩
      · exact ih3 s1 hmem
    · intro s1 n st hmem
      rcases ih4 s1 n st hmem with h1 | h1
      · simp only [denomBody, List.mem_append, List.mem_cons, List.mem_singleton] at h1
        rcases h1 with h1 | h1 | h1 | h1
        · exact Or.inl h1
        · injection h1 with _ h2 _
          injection h2 with h3
          exact Or.inr h3
        · cases h1
        · simp at h1
      · exact Or.inr h1

theorem args_to_options_denom_range (args : gengetopt_args_info) :
    inInt32 (args_to_options args).lambda_denom := by
  simp only [args_to_options]
  split_ifs <;> first | exact wrap32_range _ | (unfold inInt32; omega)

/-- Without `--measure_connections` and `--measure_qps`, `prep_agent` is the
two loops in sequence, started from the `lambda_denom` it was given. -/
theorem prep_agent_plain (args : gengetopt_args_info) (env : PrepEnv)
    (servers : List String) (o : options_t) (agents : List Sock)
    (hmc : args.measure_connections_given = false)
    (hmq : args.measure_qps_given = false) :
    ∃ r, prep_agent args env servers o agents = some r ∧
      r.options.lambda_denom =
        (eraseFold (prepBody env servers o) (o.lambda_denom, []) agents).1.1 ∧
      r.options.qps = o.qps ∧
      r.options.lambda = lambdaOf o.qps r.options.lambda_denom args.lambda_mul_arg ∧
      r.agent_sockets =
        (eraseFold (denomBody env
          (eraseFold (prepBody env servers o) (o.lambda_denom, []) agents).1.1)
          (eraseFold (prepBody env servers o) (o.lambda_denom, []) agents).1.2
          (eraseFold (prepBody env servers o) (o.lambda_denom, []) agents).2).2 ∧
      r.trace =
        (eraseFold (denomBody env
          (eraseFold (prepBody env servers o) (o.lambda_denom, []) agents).1.1)
          (eraseFold (prepBody env servers o) (o.lambda_denom, []) agents).1.2
          (eraseFold (prepBody env servers o) (o.lambda_denom, []) agents).2).1 := by
  simp only [prep_agent, hmc, hmq, Bool.false_eq_true, false_and, if_false,
    eraseLoop_eq_fold]
  refine ⟨_, rfl, ?_, ?_, ?_, rfl, rfl⟩
  · split_ifs <;> rfl
  · split_ifs <;> rfl
  · split_ifs <;> rfl

/-- The denominator negotiated by `prep_agent` from options `o` when every
agent answers. -/
theorem prep_agent_denom (args : gengetopt_args_info) (env : PrepEnv)
    (servers : List String) (o : options_t) (agents : List Sock)
    (hmc : args.measure_connections_given = false)
    (hmq : args.measure_qps_given = false)
    (hans : ∀ s ∈ agents, (env.numReply s).isSome = true ∧
      (∀ i, i < servers.length → s_recv (env.srvReply s i) ≠ "FAIL-RECV") ∧
      s_recv (env.denomReply s) ≠ "FAIL-RECV")
    (ho : inInt32 o.lambda_denom)
    (hrange : inInt32 (o.lambda_denom +
      (agents.map (fun s => o.connections *
        (if o.roundrobin then
          ((max servers.length (toU32 ((env.numReply s).getD 0)) : Nat) : Int)
         else (servers.length : Int) * (toU32 ((env.numReply s).getD 0) : Int)))).sum)) :
    ∃ r, prep_agent args env servers o agents = some r ∧
      r.options.lambda_denom = o.lambda_denom +
        (agents.map (fun s => o.connections *
          (if o.roundrobin then
            ((max servers.length (toU32 ((env.numReply s).getD 0)) : Nat) : Int)
           else (servers.length : Int) * (toU32 ((env.numReply s).getD 0) : Int)))).sum ∧
      r.agent_sockets = agents ∧
      (∀ s ∈ agents, ∃ st, Event.send s (Msg.num r.options.lambda_denom) st ∈ r.trace) ∧
      (∀ (s : Sock) (n : Int) (st : Bool),
        Event.send s (Msg.num n) st ∈ r.trace → n = r.options.lambda_denom) := by
  obtain ⟨p1, p2, p3, p4⟩ := prepFold_all env servers o agents
    o.lambda_denom [] (fun s hs => ⟨(hans s hs).1, (hans s hs).2.1⟩)
  have hsum := eq_of_emod_of_range p2 (p3 ho) hrange
  obtain ⟨r, hr, hd, _, _, hsocks, htr⟩ :=
    prep_agent_plain args env servers o agents hmc hmq
  rw [p1] at hsocks htr
  obtain ⟨q1, _, q3, q4⟩ := denomFold_all env
    (eraseFold (prepBody env servers o) (o.lambda_denom, []) agents).1.1 agents
    (eraseFold (prepBody env servers o) (o.lambda_denom, []) agents).1.2
    (fun s hs => (hans s hs).2.2)
  rw [← htr] at q3 q4
  rw [← hd] at q3 q4
  refine ⟨r, hr, by rw [hd]; exact hsum, by rw [hsocks]; exact q1, q3, ?_⟩
  intro s n st hmem
  rcases q4 s n st hmem with h | h
  · exact absurd (p4 s n st h) (by simp)
  · exact h

theorem prep_agent_keeps (args : gengetopt_args_info) (env : PrepEnv)
    (servers : List String) (o : options_t) (agents : List Sock) (r : PrepResult)
    (h : prep_agent args env servers o agents = some r) :
    r.options.threads = o.threads ∧ r.options.roundrobin = o.roundrobin ∧
      r.options.connections = o.connections := by
  simp only [prep_agent, eraseLoop_eq_fold, Option.some.injEq] at h
  subst h
  split_ifs <;> exact ⟨rfl, rfl, rfl⟩

/-- C1: with no `--measure_connections` and no `--measure_qps`, and every agent
answering each request of the preparation, `prep_agent` ends, keeps every
agent, and sets `options.lambda_denom` to the value computed by
`args_to_options` plus, per agent, `connections * max(|servers|, num)` in
round-robin mode and `connections * |servers| * num` otherwise (`num` being the
unsigned number read from the agent's reply; the total is assumed to fit an
`int`); every agent is sent that integer, and no other integer is sent. -/
theorem prep_agent_lambda_denom (args : gengetopt_args_info) (env : PrepEnv)
    (servers : List String) (agents : List Sock)
    (hmc : args.measure_connections_given = false)
    (hmq : args.measure_qps_given = false)
    (hans : ∀ s ∈ agents, (env.numReply s).isSome = true ∧
      (∀ i, i < servers.length → s_recv (env.srvReply s i) ≠ "FAIL-RECV") ∧
      s_recv (env.denomReply s) ≠ "FAIL-RECV")
    (hrange : inInt32 ((args_to_options args).lambda_denom +
      (agents.map (fun s => (args_to_options args).connections *
        (if (args_to_options args).roundrobin then
          ((max servers.length (toU32 ((env.numReply s).getD 0)) : Nat) : Int)
         else (servers.length : Int) * (toU32 ((env.numReply s).getD 0) : Int)))).sum)) :
    ∃ r, prep_agent args env servers (args_to_options args) agents = some r ∧
      r.options.lambda_denom = (args_to_options args).lambda_denom +
        (agents.map (fun s => (args_to_options args).connections *
          (if (args_to_options args).roundrobin then
            ((max servers.length (toU32 ((env.numReply s).getD 0)) : Nat) : Int)
           else (servers.length : Int) * (toU32 ((env.numReply s).getD 0) : Int)))).sum ∧
      r.agent_sockets = agents ∧
      (∀ s ∈ agents, ∃ st, Event.send s (Msg.num r.options.lambda_denom) st ∈ r.trace) ∧
      (∀ (s : Sock) (n : Int) (st : Bool),
        Event.send s (Msg.num n) st ∈ r.trace → n = r.options.lambda_denom) := by
  have ho := args_to_options_denom_range args
  obtain ⟨r, hr, hd, hsocks, hsent, honly⟩ :=
    prep_agent_denom args env servers (args_to_options args) agents hmc hmq hans ho hrange
  exact ⟨r, hr, hd, hsocks, hsent, honly⟩

theorem prep_agent_lambda_denom_witness :
    ∃ r, prep_agent rrMasterArgs (answeringEnv rrAgentArgs) ["10.0.0.1:11211", "10.0.0.2:11211"]
        (args_to_options rrMasterArgs) [0, 1] = some r ∧
      r.options.lambda_denom = 4 + (8 + 4) ∧
      r.agent_sockets = [0, 1] := by
  obtain ⟨r, h1, h2, h3, _⟩ := prep_agent_lambda_denom rrMasterArgs (answeringEnv rrAgentArgs)
    ["10.0.0.1:11211", "10.0.0.2:11211"] [0, 1] rfl rfl (by decide) (by decide)
  exact ⟨r, h1, by rw [h2]; decide, h3⟩

/-! ## What each socket is sent -/

theorem eraseFold_kept {σ α : Type} (body : σ → α → σ × Bool) (p : α → Bool)
    (h : ∀ st s, (body st s).2 = p s) :
    ∀ (l : List α) (st : σ), (eraseFold body st l).2 = l.filter (fun s => !p s) := by
  intro l
  induction l with
  | nil => intro st; rfl
  | cons s rest ih =>
    intro st
    simp only [eraseFold, h, ih, List.filter_cons]
    cases p s <;> simp

theorem eraseFold_trace {σ α β : Type} (body : σ → α → σ × Bool) (proj : σ → List β)
    (ev : α → List β) (h : ∀ st s, proj (body st s).1 = proj st ++ ev s) :
    ∀ (l : List α) (st : σ), proj (eraseFold body st l).1 = proj st ++ l.flatMap ev := by
  intro l
  induction l with
  | nil => intro st; simp [eraseFold]
  | cons s rest ih =>
    intro st
    simp only [eraseFold, ih, h, List.flatMap_cons, List.append_assoc]

theorem sentTo_append (s : Sock) (a b : List Event) :
    sentTo s (a ++ b) = sentTo s a ++ sentTo s b := by
  induction a with
  | nil => rfl
  | cons e rest ih =>
    cases e with
    | send s1 m st =>
      by_cases h : s1 = s <;> simp [sentTo, h, ih]
    | recv s1 m => simp [sentTo, ih]

theorem sentTo_flatMap (s : Sock) (ev : Sock → List Event)
    (hother : ∀ s1, s1 ≠ s → sentTo s (ev s1) = []) :
    ∀ (l : List Sock), l.Nodup →
      sentTo s (l.flatMap ev) = if s ∈ l then sentTo s (ev s) else [] := by
  intro l
  induction l with
  | nil => intro _; simp [sentTo]
  | cons s1 rest ih =>
    intro hnd
    have hnd2 := List.nodup_cons.mp hnd
    rw [List.flatMap_cons, sentTo_append, ih hnd2.2]
    by_cases h : s1 = s
    · subst h
      simp [hnd2.1]
    · have h2 : ¬ s = s1 := fun e => h e.symm
      simp [hother s1 h, h2]

theorem sendServers_append (env : PrepEnv) (s : Sock) :
    ∀ (l : List String) (i : Nat) (tr : List Event),
      sendServers env s l i tr =
        (tr ++ (sendServers env s l i []).1, (sendServers env s l i []).2) := by
  intro l
  induction l with
  | nil => intro i tr; simp [sendServers]
  | cons srv rest ih =>
    intro i tr
    simp only [sendServers]
    split_ifs
    · simp
    · rw [ih (i + 1) (tr ++ _), ih (i + 1) ([] ++ _)]
      simp

theorem sendServers_other (env : PrepEnv) (s s1 : Sock) (h : s1 ≠ s) :
    ∀ (l : List String) (i : Nat), sentTo s (sendServers env s1 l i []).1 = [] := by
  intro l
  induction l with
  | nil => intro i; rfl
  | cons srv rest ih =>
    intro i
    simp only [sendServers]
    split_ifs
    · simp [sentTo, h]
    · rw [sendServers_append, sentTo_append, ih]
      simp [sentTo, h]

theorem sendServers_self (env : PrepEnv) (s : Sock) :
    ∀ (l : List String) (i : Nat), (sendServers env s l i []).2 = false →
      sentTo s (sendServers env s l i []).1 = l.map Msg.str := by
  intro l
  induction l with
  | nil => intro i _; rfl
  | cons srv rest ih =>
    intro i hok
    simp only [sendServers] at hok ⊢
    split_ifs at hok ⊢ with hf
    simp only [List.nil_append] at hok ⊢
    rw [sendServers_append] at hok ⊢
    rw [sentTo_append, ih (i + 1) hok]
    simp [sentTo]

theorem prepBody_append (env : PrepEnv) (servers : List String) (o : options_t)
    (st : Int × List Event) (s : Sock) :
    (prepBody env servers o st s).1.2 = st.2 ++ (prepBody env servers o (0, []) s).1.2 ∧
    (prepBody env servers o st s).2 = (prepBody env servers o (0, []) s).2 := by
  simp only [prepBody]
  cases env.numReply s with
  | none => simp
  | some n =>
    simp only []
    rw [sendServers_append env s servers 0 (st.2 ++ _ ++ _),
      sendServers_append env s servers 0 ([] ++ _ ++ _)]
    simp

theorem prepBody_other (env : PrepEnv) (servers : List String) (o : options_t)
    (s s1 : Sock) (h : s1 ≠ s) :
    sentTo s (prepBody env servers o (0, []) s1).1.2 = [] := by
  simp only [prepBody]
  cases env.numReply s1 with
  | none => simp [sentTo, h]
  | some n =>
    simp only []
    rw [sendServers_append, sentTo_append, sendServers_other env s s1 h]
    simp [sentTo, h]

theorem prepBody_self (env : PrepEnv) (servers : List String) (o : options_t) (s : Sock)
    (hok : (prepBody env servers o (0, []) s).2 = false) :
    sentTo s (prepBody env servers o (0, []) s).1.2 = Msg.blob o :: servers.map Msg.str := by
  simp only [prepBody] at hok ⊢
  cases hn : env.numReply s with
  | none => rw [hn] at hok; simp at hok
  | some n =>
    rw [hn] at hok
    simp only [] at hok ⊢
    rw [sendServers_append] at hok ⊢
    rw [sentTo_append, sendServers_self env s servers 0 hok]
    simp [sentTo]

theorem denomBody_other (env : PrepEnv) (d : Int) (s s1 : Sock) (h : s1 ≠ s) :
    sentTo s (denomBody env d [] s1).1 = [] := by
  simp [denomBody, sentTo, h]

theorem agentServers_map :
    ∀ (l : List String) (rest : List Msg),
      agentServers l.length (l.map Msg.str ++ rest) = some (l, rest) := by
  intro l
  induction l with
  | nil => intro rest; rfl
  | cons srv l ih => intro rest; simp [agentServers, ih]

theorem args_to_options_server_given (args : gengetopt_args_info)
    (h0 : 0 < args.server_given) (h1 : args.server_given < 2147483648) :
    (args_to_options args).server_given = (args.server_given : Int) := by
  have hw : wrap32 (args.server_given : Int) = (args.server_given : Int) :=
    wrap32_of_range (by unfold inInt32; omega)
  simp only [args_to_options, hw]
  rw [if_neg (by omega)]

/-- What a surviving agent was sent during the preparation: the Options blob,
the server strings, then the negotiated `lambda_denom`. -/
theorem prep_agent_sent (args : gengetopt_args_info) (env : PrepEnv)
    (servers : List String) (o : options_t) (agents : List Sock)
    (hmc : args.measure_connections_given = false)
    (hmq : args.measure_qps_given = false)
    (hnd : agents.Nodup) :
    ∃ r, prep_agent args env servers o agents = some r ∧
      r.options.qps = o.qps ∧
      r.options.lambda = lambdaOf o.qps r.options.lambda_denom args.lambda_mul_arg ∧
      ∀ s ∈ r.agent_sockets,
        sentTo s r.trace =
          Msg.blob o :: servers.map Msg.str ++ [Msg.num r.options.lambda_denom] := by
  obtain ⟨r, hr, hd, hq, hl, hsocks, htr⟩ := prep_agent_plain args env servers o agents hmc hmq
  refine ⟨r, hr, hq, hl, ?_⟩
  have k1 := eraseFold_kept (prepBody env servers o)
    (fun s => (prepBody env servers o (0, []) s).2)
    (fun st s => (prepBody_append env servers o st s).2) agents (o.lambda_denom, [])
  have t1 := eraseFold_trace (prepBody env servers o) (fun st => st.2)
    (fun s => (prepBody env servers o (0, []) s).1.2)
    (fun st s => (prepBody_append env servers o st s).1) agents (o.lambda_denom, [])
  rw [← hd] at hsocks htr
  generalize (eraseFold (prepBody env servers o) (o.lambda_denom, []) agents) = F1 at *
  have k2 := eraseFold_kept (denomBody env r.options.lambda_denom)
    (fun s => decide (s_recv (env.denomReply s) = "FAIL-RECV"))
    (fun _ _ => rfl) F1.2 F1.1.2
  have t2 := eraseFold_trace (denomBody env r.options.lambda_denom) (fun tr => tr)
    (fun s => (denomBody env r.options.lambda_denom [] s).1)
    (fun tr s => by simp [denomBody]) F1.2 F1.1.2
  simp only [] at t1 t2
  intro s hs
  rw [hsocks, k2] at hs
  have hs1 : s ∈ F1.2 := (List.mem_filter.mp hs).1
  have hs0 : s ∈ agents ∧ (prepBody env servers o (0, []) s).2 = false := by
    rw [k1] at hs1
    have := List.mem_filter.mp hs1
    exact ⟨this.1, by simpa using this.2⟩
  have hnd1 : F1.2.Nodup := by rw [k1]; exact hnd.filter _
  rw [htr, t2, t1, List.nil_append, sentTo_append,
    sentTo_flatMap s _ (fun s1 h => prepBody_other env servers o s s1 h) agents hnd,
    sentTo_flatMap s _ (fun s1 h => denomBody_other env _ s s1 h) F1.2 hnd1,
    if_pos hs0.1, if_pos hs1, prepBody_self env servers o s hs0.2]
  simp [denomBody, sentTo]

theorem agent_prep_sent (aargs : gengetopt_args_info) (o : options_t)
    (servers : List String) (d : Int) (h : o.server_given.toNat = servers.length) :
    ∃ a, agent_prep aargs (Msg.blob o :: servers.map Msg.str ++ [Msg.num d]) = some a ∧
      a.options.lambda_denom = d ∧ a.options.qps = o.qps ∧
      a.options.lambda = lambdaOf o.qps d aargs.lambda_mul_arg ∧
      a.servers = servers ∧ a.num = agent_num aargs ∧
      a.options.threads = aargs.threads_arg ∧ a.options.roundrobin = o.roundrobin ∧
      a.options.connections = o.connections := by
  simp only [agent_prep, List.cons_append, h, agentServers_map]
  exact ⟨_, rfl, rfl, rfl, rfl, rfl, rfl, rfl, rfl, rfl⟩

/-- C2: after a preparation without `--measure_connections` and
`--measure_qps`, every agent still in the active set has been sent the Options
blob, the server strings and the master's `lambda_denom`, so that its options
carry the master's `lambda_denom` and `qps`, and each side sets
`lambda = qps / lambda_denom * lambda_mul` with its own `lambda_mul`
(in exact arithmetic).  In the two-process scenario (one server; master with
one thread, one connection, weight 1, 3000 qps; agent with one thread, weight
2) both hold `lambda_denom = 3`, the master's lambda is 1000 and the agent's
2000. -/
theorem lambda_agreement :
    (∀ (args : gengetopt_args_info) (env : PrepEnv) (servers : List String)
        (agents : List Sock) (aargs : Sock → gengetopt_args_info),
      args.measure_connections_given = false → args.measure_qps_given = false →
      agents.Nodup → servers.length = args.server_given →
      0 < args.server_given → args.server_given < 2147483648 →
      ∃ r, prep_agent args env servers (args_to_options args) agents = some r ∧
        r.options.lambda =
          lambdaOf r.options.qps r.options.lambda_denom args.lambda_mul_arg ∧
        ∀ s ∈ r.agent_sockets, ∃ a, agent_prep (aargs s) (sentTo s r.trace) = some a ∧
          a.options.lambda_denom = r.options.lambda_denom ∧
          a.options.qps = r.options.qps ∧
          a.options.lambda =
            lambdaOf a.options.qps a.options.lambda_denom (aargs s).lambda_mul_arg) ∧
    (∃ r a, prep_agent duoMasterArgs (answeringEnv (fun _ => duoAgentArgs)) ["10.0.0.1:11211"]
          (args_to_options duoMasterArgs) [0] = some r ∧
        agent_prep duoAgentArgs (sentTo 0 r.trace) = some a ∧
        r.agent_sockets = [0] ∧
        r.options.lambda_denom = 3 ∧ a.options.lambda_denom = 3 ∧
        r.options.qps = 3000 ∧ a.options.qps = 3000 ∧
        r.options.lambda = 1000 ∧ a.options.lambda = 2000) := by
  have general : ∀ (args : gengetopt_args_info) (env : PrepEnv) (servers : List String)
        (agents : List Sock) (aargs : Sock → gengetopt_args_info),
      args.measure_connections_given = false → args.measure_qps_given = false →
      agents.Nodup → servers.length = args.server_given →
      0 < args.server_given → args.server_given < 2147483648 →
      ∃ r, prep_agent args env servers (args_to_options args) agents = some r ∧
        r.options.lambda =
          lambdaOf r.options.qps r.options.lambda_denom args.lambda_mul_arg ∧
        ∀ s ∈ r.agent_sockets, ∃ a, agent_prep (aargs s) (sentTo s r.trace) = some a ∧
          a.options.lambda_denom = r.options.lambda_denom ∧
          a.options.qps = r.options.qps ∧
          a.options.lambda =
            lambdaOf a.options.qps a.options.lambda_denom (aargs s).lambda_mul_arg := by
    intro args env servers agents aargs hmc hmq hnd hlen h0 h1
    have hsg := args_to_options_server_given args h0 h1
    obtain ⟨r, hr, hq, hl, hsent⟩ :=
      prep_agent_sent args env servers (args_to_options args) agents hmc hmq hnd
    refine ⟨r, hr, by rw [hl, hq], ?_⟩
    intro s hs
    obtain ⟨a, ha, h2, h3, h4, _, _⟩ := agent_prep_sent (aargs s) (args_to_options args)
      servers r.options.lambda_denom (by rw [hsg, hlen]; simp)
    rw [← hsent s hs] at ha
    exact ⟨a, ha, h2, by rw [h3, hq], by rw [h4, h3, h2]⟩
  refine ⟨general, ?_⟩
  obtain ⟨r, hr, hl, hag⟩ := general duoMasterArgs (answeringEnv (fun _ => duoAgentArgs))
    ["10.0.0.1:11211"] [0] (fun _ => duoAgentArgs) rfl rfl (by decide) rfl (by decide) (by decide)
  have key : (prep_agent duoMasterArgs (answeringEnv (fun _ => duoAgentArgs)) ["10.0.0.1:11211"]
      (args_to_options duoMasterArgs) [0]).map
        (fun r => (r.options.lambda_denom, r.options.qps, r.agent_sockets)) =
      some (3, 3000, [0]) := by decide
  rw [hr] at key
  simp only [Option.map_some', Option.some.injEq, Prod.mk.injEq] at key
  obtain ⟨k1, k2, k3⟩ := key
  obtain ⟨a, ha, h2, h3, h4⟩ := hag 0 (by rw [k3]; simp)
  refine ⟨r, a, hr, ha, k3, k1, by rw [h2, k1], k2, by rw [h3, k2], ?_, ?_⟩
  · rw [hl, k1, k2]
    norm_num [lambdaOf, duoMasterArgs, plainArgs]
  · rw [h4, h3, h2, k1, k2]
    norm_num [lambdaOf, duoAgentArgs, plainArgs]

theorem lambda_agreement_witness :
    ∃ r, prep_agent rrMasterArgs (answeringEnv rrAgentArgs)
        ["10.0.0.1:11211", "10.0.0.2:11211"] (args_to_options rrMasterArgs) [0, 1] = some r ∧
      r.options.lambda =
        lambdaOf r.options.qps r.options.lambda_denom rrMasterArgs.lambda_mul_arg ∧
      ∀ s ∈ r.agent_sockets, ∃ a, agent_prep (rrAgentArgs s) (sentTo s r.trace) = some a ∧
        a.options.lambda_denom = r.options.lambda_denom ∧
        a.options.qps = r.options.qps ∧
        a.options.lambda =
          lambdaOf a.options.qps a.options.lambda_denom (rrAgentArgs s).lambda_mul_arg :=
  lambda_agreement.1 rrMasterArgs (answeringEnv rrAgentArgs)
    ["10.0.0.1:11211", "10.0.0.2:11211"] [0, 1] rrAgentArgs rfl rfl (by decide) rfl
    (by decide) (by decide)

/-! ## Synchronisation: what `sync_agent` does on the master -/

theorem syncFold_all (expect : String) (reply : Sock → Option String) :
    ∀ (l : List Sock) (e : Int) (tr : List Event),
      (eraseFold (syncRecvBody expect reply) (e, tr) l).1.1 =
        e + (l.countP (fun s => decide (s_recv (reply s) ≠ expect)) : Nat) ∧
      (eraseFold (syncRecvBody expect reply) (e, tr) l).1.2 =
        tr ++ l.map (fun s => Event.recv s ((reply s).map Msg.str)) ∧
      (eraseFold (syncRecvBody expect reply) (e, tr) l).2 =
        l.filter (fun s => !(decide (s_recv (reply s) ≠ expect) &&
          decide (s_recv (reply s) = "FAIL-RECV"))) := by
  intro l
  induction l with
  | nil => intro e tr; simp [eraseFold]
  | cons s rest ih =>
    intro e tr
    by_cases hx : s_recv (reply s) = expect
    · have hb : syncRecvBody expect reply (e, tr) s =
          ((e, tr ++ [Event.recv s ((reply s).map Msg.str)]), false) := by
        simp [syncRecvBody, hx]
      obtain ⟨i1, i2, i3⟩ := ih e (tr ++ [Event.recv s ((reply s).map Msg.str)])
      simp only [eraseFold, hb, i1, i2, i3]
      simp [hx]
    · have hb : syncRecvBody expect reply (e, tr) s =
          ((e + 1, tr ++ [Event.recv s ((reply s).map Msg.str)]),
            decide (s_recv (reply s) = "FAIL-RECV")) := by
        simp [syncRecvBody, hx]
      obtain ⟨i1, i2, i3⟩ := ih (e + 1) (tr ++ [Event.recv s ((reply s).map Msg.str)])
      simp only [eraseFold, hb, i1, i2, i3]
      refine ⟨?_, by simp, ?_⟩
      · simp [hx, List.countP_cons]; omega
      · by_cases hf : s_recv (reply s) = "FAIL-RECV"
        · have hfe : ¬ "FAIL-RECV" = expect := by rw [← hf]; exact hx
          simp [hf, hfe, List.filter_cons]
        · simp [hx, hf, List.filter_cons]

/-- On the master (`--agent` given) `sync_agent` always returns, and its
result is determined as follows: the sockets answering the sentinel in the
first round are erased before "proceed" is sent, those answering the sentinel
in the second round are erased afterwards, and every unexpected answer is
counted. -/
theorem sync_agent_master (args : gengetopt_args_info) (env : SyncEnv) (socket : Sock)
    (agents : List Sock) (hm : args.agent_given ≠ 0) :
    sync_agent args env socket agents = some
      { errors :=
          (agents.countP (fun s => decide (s_recv (env.syncReply s) ≠ "sync")) : Nat) +
          ((agents.filter (fun s => !(decide (s_recv (env.syncReply s) ≠ "sync") &&
              decide (s_recv (env.syncReply s) = "FAIL-RECV")))).countP
            (fun s => decide (s_recv (env.ackReply s) ≠ "ack")) : Nat)
        agent_sockets :=
          (agents.filter (fun s => !(decide (s_recv (env.syncReply s) ≠ "sync") &&
              decide (s_recv (env.syncReply s) = "FAIL-RECV")))).filter
            (fun s => !(decide (s_recv (env.ackReply s) ≠ "ack") &&
              decide (s_recv (env.ackReply s) = "FAIL-RECV")))
        trace :=
          sendAll env "sync_req" agents ++
          agents.map (fun s => Event.recv s ((env.syncReply s).map Msg.str)) ++
          sendAll env "proceed"
            (agents.filter (fun s => !(decide (s_recv (env.syncReply s) ≠ "sync") &&
              decide (s_recv (env.syncReply s) = "FAIL-RECV")))) ++
          (agents.filter (fun s => !(decide (s_recv (env.syncReply s) ≠ "sync") &&
              decide (s_recv (env.syncReply s) = "FAIL-RECV")))).map
            (fun s => Event.recv s ((env.ackReply s).map Msg.str)) } := by
  obtain ⟨a1, a2, a3⟩ := syncFold_all "sync" env.syncReply agents 0
    (sendAll env "sync_req" agents)
  simp only [sync_agent, if_pos hm, eraseLoop_eq_fold]
  obtain ⟨b1, b2, b3⟩ := syncFold_all "ack" env.ackReply
    (eraseFold (syncRecvBody "sync" env.syncReply) (0, sendAll env "sync_req" agents) agents).2
    (eraseFold (syncRecvBody "sync" env.syncReply) (0, sendAll env "sync_req" agents) agents).1.1
    ((eraseFold (syncRecvBody "sync" env.syncReply)
      (0, sendAll env "sync_req" agents) agents).1.2 ++
      sendAll env "proceed"
        (eraseFold (syncRecvBody "sync" env.syncReply)
          (0, sendAll env "sync_req" agents) agents).2)
  rw [b1, b2, b3, a1, a2, a3]
  simp

theorem sync_agent_total (args : gengetopt_args_info) (env : SyncEnv) (socket : Sock)
    (agents : List Sock) :
    ∃ r, sync_agent args env socket agents = some r ∧ 0 ≤ r.errors := by
  by_cases hm : args.agent_given ≠ 0
  · rw [sync_agent_master args env socket agents hm]
    exact ⟨_, rfl, by simp only []; omega⟩
  · by_cases ha : args.agentmode_given = true
    · simp only [sync_agent, if_neg hm, if_pos ha]
      refine ⟨_, rfl, ?_⟩
      simp only []
      split_ifs <;> omega
    · simp only [sync_agent, if_neg hm, if_neg ha]
      exact ⟨_, rfl, le_refl _⟩

/-- The synchronisation block of `do_mcperf` either makes no call of
`sync_agent`, or makes one that returned 0 and goes on, or makes one that
returned a positive count and ends in `DIE`. -/
theorem syncBlock_spec (args : gengetopt_args_info) (env : SyncEnv) (master : Bool)
    (socket : Sock) (p : Phase) (agents : List Sock) :
    ∃ steps socks died, syncBlock args env master socket p agents = some (steps, socks, died) ∧
      ((steps = [] ∧ died = false) ∨
       (∃ tr, steps = [Step.sync p 0 tr] ∧ died = false) ∨
       (∃ e tr, 0 < e ∧ steps = [Step.sync p e tr, Step.die p] ∧ died = true)) := by
  unfold syncBlock
  split_ifs with h1 h2
  · obtain ⟨r, hr, hpos⟩ := sync_agent_total args env socket agents
    rw [hr]
    simp only []
    by_cases he : r.errors > 0
    · rw [if_pos he]
      exact ⟨_, _, _, rfl, Or.inr (Or.inr ⟨r.errors, r.trace, he, rfl, rfl⟩)⟩
    · rw [if_neg he]
      have h0 : r.errors = 0 := by omega
      exact ⟨_, _, _, rfl, Or.inr (Or.inl ⟨r.trace, by rw [h0], rfl⟩)⟩
  · exact ⟨_, _, _, rfl, Or.inl ⟨rfl, rfl⟩⟩
  · exact ⟨_, _, _, rfl, Or.inl ⟨rfl, rfl⟩⟩

theorem s_recv_eq_some {r : Option String} {t : String} (ht : t ≠ "FAIL-RECV")
    (h : s_recv r = t) : r = some t := by
  cases r with
  | none => exact absurd h.symm ht
  | some x => simp only [s_recv] at h; rw [h]

/-- C5: on the master `sync_agent` returns, and the active set it leaves is
the original list, in its order, without the agents whose reply to "sync_req"
or to "proceed" was the sentinel "FAIL-RECV"; in particular a failing agent at
the head of the list is removed and the rest is treated in the same way. -/
theorem sync_agent_removes_failed (args : gengetopt_args_info) (env : SyncEnv) (socket : Sock)
    (agents : List Sock) (hm : args.agent_given ≠ 0) :
    ∃ r, sync_agent args env socket agents = some r ∧
      r.agent_sockets = agents.filter (fun s =>
        decide (s_recv (env.syncReply s) ≠ "FAIL-RECV") &&
        decide (s_recv (env.ackReply s) ≠ "FAIL-RECV")) ∧
      (∀ (a : Sock) (rest : List Sock), agents = a :: rest →
        (s_recv (env.syncReply a) = "FAIL-RECV" ∨ s_recv (env.ackReply a) = "FAIL-RECV") →
        r.agent_sockets = rest.filter (fun s =>
          decide (s_recv (env.syncReply s) ≠ "FAIL-RECV") &&
          decide (s_recv (env.ackReply s) ≠ "FAIL-RECV"))) := by
  refine ⟨_, sync_agent_master args env socket agents hm, ?_⟩
  simp only []
  have hf : (agents.filter (fun s => !(decide (s_recv (env.syncReply s) ≠ "sync") &&
        decide (s_recv (env.syncReply s) = "FAIL-RECV")))).filter
        (fun s => !(decide (s_recv (env.ackReply s) ≠ "ack") &&
          decide (s_recv (env.ackReply s) = "FAIL-RECV"))) =
      agents.filter (fun s =>
        decide (s_recv (env.syncReply s) ≠ "FAIL-RECV") &&
        decide (s_recv (env.ackReply s) ≠ "FAIL-RECV")) := by
    rw [List.filter_filter]
    apply List.filter_congr
    intro s _
    by_cases h1 : s_recv (env.syncReply s) = "FAIL-RECV" <;>
      by_cases h2 : s_recv (env.ackReply s) = "FAIL-RECV" <;> simp [h1, h2]
  refine ⟨hf, ?_⟩
  intro a rest hag hfail
  rw [hf, hag, List.filter_cons]
  rcases hfail with h | h <;> simp [h]

theorem sync_agent_removes_failed_witness :
    ∃ r, sync_agent (masterArgs 3) firstSilentSync 0 [0, 1, 2] = some r ∧
      r.agent_sockets = [1, 2] := by
  obtain ⟨r, h1, h2, _⟩ :=
    sync_agent_removes_failed (masterArgs 3) firstSilentSync 0 [0, 1, 2] (by decide)
  exact ⟨r, h1, by rw [h2]; decide⟩

/-! ## Synchronisation errors abort the run -/

theorem sync_errors_pos (args : gengetopt_args_info) (env : SyncEnv) (socket : Sock)
    (agents : List Sock) (hm : args.agent_given ≠ 0)
    (hfail : ∃ s ∈ agents, s_recv (env.syncReply s) ≠ "sync" ∨ s_recv (env.ackReply s) ≠ "ack") :
    ∃ r, sync_agent args env socket agents = some r ∧ 0 < r.errors := by
  refine ⟨_, sync_agent_master args env socket agents hm, ?_⟩
  simp only []
  obtain ⟨s, hs, hbad⟩ := hfail
  by_cases h1 : s_recv (env.syncReply s) = "sync"
  · have h2 : s_recv (env.ackReply s) ≠ "ack" := by
      rcases hbad with h | h
      · exact absurd h1 h
      · exact h
    have hmem : s ∈ agents.filter (fun s => !(decide (s_recv (env.syncReply s) ≠ "sync") &&
        decide (s_recv (env.syncReply s) = "FAIL-RECV"))) := by
      apply List.mem_filter.mpr
      exact ⟨hs, by simp [h1]⟩
    have hpos : 0 < (agents.filter (fun s => !(decide (s_recv (env.syncReply s) ≠ "sync") &&
        decide (s_recv (env.syncReply s) = "FAIL-RECV")))).countP
          (fun s => decide (s_recv (env.ackReply s) ≠ "ack")) :=
      List.countP_pos_iff.mpr ⟨s, hmem, by simpa using h2⟩
    omega
  · have hpos : 0 < agents.countP (fun s => decide (s_recv (env.syncReply s) ≠ "sync")) :=
      List.countP_pos_iff.mpr ⟨s, hs, by simpa using h1⟩
    omega

theorem sync_errors_zero (args : gengetopt_args_info) (env : SyncEnv) (socket : Sock)
    (agents : List Sock) (hm : args.agent_given ≠ 0)
    (hgood : ∀ s ∈ agents, s_recv (env.syncReply s) = "sync" ∧ s_recv (env.ackReply s) = "ack") :
    ∃ r, sync_agent args env socket agents = some r ∧ r.errors = 0 ∧
      r.agent_sockets = agents := by
  refine ⟨_, sync_agent_master args env socket agents hm, ?_⟩
  simp only []
  have hkeep1 : agents.filter (fun s => !(decide (s_recv (env.syncReply s) ≠ "sync") &&
      decide (s_recv (env.syncReply s) = "FAIL-RECV"))) = agents := by
    apply List.filter_eq_self.mpr
    intro s hs
    simp [(hgood s hs).1]
  have hkeep2 : agents.filter (fun s => !(decide (s_recv (env.ackReply s) ≠ "ack") &&
      decide (s_recv (env.ackReply s) = "FAIL-RECV"))) = agents := by
    apply List.filter_eq_self.mpr
    intro s hs
    simp [(hgood s hs).2]
  have hc1 : agents.countP (fun s => decide (s_recv (env.syncReply s) ≠ "sync")) = 0 := by
    apply List.countP_eq_zero.mpr
    intro s hs
    simp [(hgood s hs).1]
  have hc2 : agents.countP (fun s => decide (s_recv (env.ackReply s) ≠ "ack")) = 0 := by
    apply List.countP_eq_zero.mpr
    intro s hs
    simp [(hgood s hs).2]
  rw [hkeep1, hkeep2, hc1, hc2]
  exact ⟨rfl, rfl⟩

theorem syncBlock_fail (args : gengetopt_args_info) (env : SyncEnv) (socket : Sock)
    (p : Phase) (agents : List Sock) (hm : args.agent_given ≠ 0)
    (hfail : ∃ s ∈ agents, s_recv (env.syncReply s) ≠ "sync" ∨ s_recv (env.ackReply s) ≠ "ack") :
    ∃ e tr socks, syncBlock args env true socket p agents =
      some ([Step.sync p e tr, Step.die p], socks, true) := by
  obtain ⟨r, hr, hpos⟩ := sync_errors_pos args env socket agents hm hfail
  refine ⟨r.errors, r.trace, r.agent_sockets, ?_⟩
  simp only [syncBlock, hm, ne_eq, not_false_eq_true, true_or, if_true, hr, hpos]

theorem syncBlock_good (args : gengetopt_args_info) (env : SyncEnv) (socket : Sock)
    (p : Phase) (agents : List Sock) (hm : args.agent_given ≠ 0)
    (hgood : ∀ s ∈ agents, s_recv (env.syncReply s) = "sync" ∧ s_recv (env.ackReply s) = "ack") :
    ∃ tr, syncBlock args env true socket p agents =
      some ([Step.sync p 0 tr], agents, false) := by
  obtain ⟨r, hr, h0, hs⟩ := sync_errors_zero args env socket agents hm hgood
  refine ⟨r.trace, ?_⟩
  simp only [syncBlock, hm, ne_eq, not_false_eq_true, true_or, if_true, hr, h0, hs,
    lt_self_iff_false, gt_iff_lt, if_false]

/-- C6 (amended): on the master thread, with agents configured and not in
load-only mode, an agent that fails at the first synchronisation point reached
(its reply differs from the expected token, a failed receive included) makes
`do_mcperf` end in `DIE` without starting any window, whatever the other
agents answered; and when the warmup synchronisation went through without
error, a failure at the measurement synchronisation makes it end in `DIE`
without starting the measurement window. -/
theorem sync_failure_aborts (args : gengetopt_args_info) (envW envM : SyncEnv)
    (servers : List String) (options : options_t) (socket : Sock) (agents : List Sock)
    (hm : args.agent_given ≠ 0) (hl : options.loadonly = false) :
    ((∃ s ∈ agents,
        s_recv ((if options.warmup > 0 then envW else envM).syncReply s) ≠ "sync" ∨
        s_recv ((if options.warmup > 0 then envW else envM).ackReply s) ≠ "ack") →
      ∃ run, do_mcperf args envW envM servers options true socket agents = some run ∧
        run.died = true ∧ ∀ p, Step.window p ∉ run.steps) ∧
    (options.warmup > 0 →
      (∀ s ∈ agents, s_recv (envW.syncReply s) = "sync" ∧ s_recv (envW.ackReply s) = "ack") →
      (∃ s ∈ agents, s_recv (envM.syncReply s) ≠ "sync" ∨ s_recv (envM.ackReply s) ≠ "ack") →
      ∃ run, do_mcperf args envW envM servers options true socket agents = some run ∧
        run.died = true ∧ Step.window Phase.measure ∉ run.steps) := by
  constructor
  · intro hfail
    by_cases hw : options.warmup > 0
    · rw [if_pos hw] at hfail
      obtain ⟨e, tr, socks, hb⟩ := syncBlock_fail args envW socket Phase.warmup agents hm hfail
      simp only [do_mcperf, hl, Bool.false_eq_true, if_false, if_pos hw, hb, if_true]
      exact ⟨_, rfl, rfl, by simp⟩
    · rw [if_neg hw] at hfail
      obtain ⟨e, tr, socks, hb⟩ := syncBlock_fail args envM socket Phase.measure agents hm hfail
      simp only [do_mcperf, hl, Bool.false_eq_true, if_false, if_neg hw, hb, if_true]
      exact ⟨_, rfl, rfl, by simp⟩
  · intro hw hgood hfail
    obtain ⟨tr1, hb1⟩ := syncBlock_good args envW socket Phase.warmup agents hm hgood
    obtain ⟨e, tr, socks, hb⟩ := syncBlock_fail args envM socket Phase.measure agents hm hfail
    simp only [do_mcperf, hl, Bool.false_eq_true, if_false, if_pos hw, hb1, hb, if_true]
    exact ⟨_, rfl, rfl, by simp⟩

/-- C6, as stated, fails: with two agents of which only agent 0 is silent at
the measurement synchronisation, agent 1 stays in the active set, yet
`do_mcperf` ends in `DIE` and the measurement window is not started. -/
theorem partial_failure_aborts :
    (do_mcperf (masterArgs 2) calmSync firstSilentSync ["10.0.0.1:11211"]
        (args_to_options (masterArgs 2)) true 0 [0, 1]).map
      (fun run => (run.died, run.agent_sockets,
        decide (Step.window Phase.measure ∈ run.steps))) = some (true, [1], false) := by
  decide

theorem sync_failure_aborts_witness :
    ∃ run, do_mcperf (masterArgs 2) calmSync firstSilentSync ["10.0.0.1:11211"]
        (args_to_options (masterArgs 2)) true 0 [0, 1] = some run ∧
      run.died = true ∧ ∀ p, Step.window p ∉ run.steps :=
  (sync_failure_aborts (masterArgs 2) calmSync firstSilentSync ["10.0.0.1:11211"]
    (args_to_options (masterArgs 2)) 0 [0, 1] (by decide) rfl).1
    ⟨0, by decide, Or.inl (by decide)⟩

/-! ## Unexpected replies -/

theorem sync_agent_summary (args : gengetopt_args_info) (env : SyncEnv) (socket : Sock)
    (agents : List Sock) (hm : args.agent_given ≠ 0) :
    ∃ r, sync_agent args env socket agents = some r ∧
      r.agent_sockets = agents.filter (fun s =>
        decide (s_recv (env.syncReply s) ≠ "FAIL-RECV") &&
        decide (s_recv (env.ackReply s) ≠ "FAIL-RECV")) ∧
      ((∃ s ∈ agents, s_recv (env.syncReply s) ≠ "sync" ∨ s_recv (env.ackReply s) ≠ "ack") →
        0 < r.errors) := by
  refine ⟨_, sync_agent_master args env socket agents hm, ?_, ?_⟩
  · simp only []
    rw [List.filter_filter]
    apply List.filter_congr
    intro s _
    by_cases h1 : s_recv (env.syncReply s) = "FAIL-RECV" <;>
      by_cases h2 : s_recv (env.ackReply s) = "FAIL-RECV" <;> simp [h1, h2]
  · intro hfail
    obtain ⟨r, hr, hpos⟩ := sync_errors_pos args env socket agents hm hfail
    rw [sync_agent_master args env socket agents hm] at hr
    rw [Option.some.inj hr]
    exact hpos

/-- C7, as stated, fails: agent 0 answers "hello" to "sync_req"; it is still
in the active set afterwards, and one error is counted. -/
theorem unexpected_reply_kept :
    (sync_agent (masterArgs 2) chattySync 0 [0, 1]).map
        (fun r => (r.agent_sockets, r.errors)) = some ([0, 1], 1) ∧
      s_recv (chattySync.syncReply 0) ≠ "sync" := by
  decide

/-- C7 (amended): on the master, an agent whose reply to "sync_req" is not
"sync" or whose reply to "proceed" is not "ack" makes `sync_agent` return a
positive error count; it is removed from the active set exactly when one of
its replies is the sentinel "FAIL-RECV". -/
theorem sync_agent_unexpected_reply (args : gengetopt_args_info) (env : SyncEnv)
    (socket : Sock) (agents : List Sock) (hm : args.agent_given ≠ 0) :
    ∃ r, sync_agent args env socket agents = some r ∧
      (∀ s ∈ agents,
        (s_recv (env.syncReply s) ≠ "sync" ∨ s_recv (env.ackReply s) ≠ "ack") →
        0 < r.errors) ∧
      (∀ s, s ∈ r.agent_sockets ↔
        s ∈ agents ∧ s_recv (env.syncReply s) ≠ "FAIL-RECV" ∧
          s_recv (env.ackReply s) ≠ "FAIL-RECV") := by
  obtain ⟨r, hr, hk, he⟩ := sync_agent_summary args env socket agents hm
  refine ⟨r, hr, fun s hs hbad => he ⟨s, hs, hbad⟩, ?_⟩
  intro s
  rw [hk, List.mem_filter]
  simp

theorem sync_agent_unexpected_reply_witness :
    ∃ r, sync_agent (masterArgs 2) chattySync 0 [0, 1] = some r ∧
      0 < r.errors ∧ (0 ∈ r.agent_sockets) := by
  obtain ⟨r, hr, h1, h2⟩ :=
    sync_agent_unexpected_reply (masterArgs 2) chattySync 0 [0, 1] (by decide)
  exact ⟨r, hr, h1 0 (by decide) (Or.inl (by decide)),
    (h2 0).mpr ⟨by decide, by decide, by decide⟩⟩

/-! ## The status of a send is never used -/

theorem sendServers_flag_sendOk (env : PrepEnv) (f : Sock → Msg → Bool) (s : Sock) :
    ∀ (l : List String) (i : Nat) (tr1 tr2 : List Event),
      (sendServers { env with sendOk := f } s l i tr1).2 = (sendServers env s l i tr2).2 := by
  intro l
  induction l with
  | nil => intro i tr1 tr2; rfl
  | cons srv rest ih =>
    intro i tr1 tr2
    simp only [sendServers]
    split_ifs
    · rfl
    · exact ih _ _ _

theorem prepBody_sendOk (env : PrepEnv) (f : Sock → Msg → Bool) (servers : List String)
    (o : options_t) (sum : Int) (tr1 tr2 : List Event) (s : Sock) :
    (prepBody { env with sendOk := f } servers o (sum, tr1) s).1.1 =
      (prepBody env servers o (sum, tr2) s).1.1 ∧
    (prepBody { env with sendOk := f } servers o (sum, tr1) s).2 =
      (prepBody env servers o (sum, tr2) s).2 := by
  simp only [prepBody]
  cases env.numReply s with
  | none => exact ⟨rfl, rfl⟩
  | some n => exact ⟨rfl, sendServers_flag_sendOk env f s servers 0 _ _⟩

theorem prepFold_sendOk (env : PrepEnv) (f : Sock → Msg → Bool) (servers : List String)
    (o : options_t) :
    ∀ (l : List Sock) (sum : Int) (tr1 tr2 : List Event),
      (eraseFold (prepBody { env with sendOk := f } servers o) (sum, tr1) l).1.1 =
        (eraseFold (prepBody env servers o) (sum, tr2) l).1.1 ∧
      (eraseFold (prepBody { env with sendOk := f } servers o) (sum, tr1) l).2 =
        (eraseFold (prepBody env servers o) (sum, tr2) l).2 := by
  intro l
  induction l with
  | nil => intro sum tr1 tr2; exact ⟨rfl, rfl⟩
  | cons s rest ih =>
    intro sum tr1 tr2
    obtain ⟨b1, b2⟩ := prepBody_sendOk env f servers o sum tr1 tr2 s
    have hst : ∀ (x : (Int × List Event) × Bool), x = ((x.1.1, x.1.2), x.2) := fun _ => rfl
    rw [eraseFold, eraseFold, hst (prepBody { env with sendOk := f } servers o (sum, tr1) s),
      hst (prepBody env servers o (sum, tr2) s), b1, b2]
    obtain ⟨i1, i2⟩ := ih (prepBody env servers o (sum, tr2) s).1.1
      (prepBody { env with sendOk := f } servers o (sum, tr1) s).1.2
      (prepBody env servers o (sum, tr2) s).1.2
    simp only []
    rw [i1, i2]
    exact ⟨rfl, rfl⟩

theorem denomFold_sendOk (env : PrepEnv) (f : Sock → Msg → Bool) (d : Int) (l : List Sock)
    (tr1 tr2 : List Event) :
    (eraseFold (denomBody { env with sendOk := f } d) tr1 l).2 =
      (eraseFold (denomBody env d) tr2 l).2 := by
  rw [eraseFold_kept (denomBody { env with sendOk := f } d)
      (fun s => decide (s_recv (env.denomReply s) = "FAIL-RECV")) (fun _ _ => rfl),
    eraseFold_kept (denomBody env d)
      (fun s => decide (s_recv (env.denomReply s) = "FAIL-RECV")) (fun _ _ => rfl)]

theorem prep_agent_sendOk (args : gengetopt_args_info) (env : PrepEnv)
    (f : Sock → Msg → Bool) (servers : List String) (o : options_t) (agents : List Sock) :
    (prep_agent args { env with sendOk := f } servers o agents).map
        (fun r => (r.agent_sockets, r.options)) =
      (prep_agent args env servers o agents).map (fun r => (r.agent_sockets, r.options)) := by
  simp only [prep_agent, eraseLoop_eq_fold, Option.map_some']
  generalize (if args.measure_qps_given = true then (0 : Int) else
    if args.measure_connections_given = true then
      wrap32 (wrap32 (args.measure_connections_arg * o.server_given) * o.threads)
    else o.lambda_denom) = sum0
  generalize (if args.measure_qps_given = true ∧ o.qps ≠ 0 then
    { o with qps := wrap32 (o.qps - args.measure_qps_arg) } else o) = o1
  obtain ⟨p1, p2⟩ := prepFold_sendOk env f servers o1 agents sum0 [] []
  rw [p1, p2]
  rw [denomFold_sendOk env f _ _
    (eraseFold (prepBody { env with sendOk := f } servers o1) (sum0, []) agents).1.2
    (eraseFold (prepBody env servers o1) (sum0, []) agents).1.2]

theorem sync_agent_sendOk (args : gengetopt_args_info) (env : SyncEnv)
    (f : Sock → Msg → Bool) (socket : Sock) (agents : List Sock) :
    (sync_agent args { env with sendOk := f } socket agents).map
        (fun r => (r.agent_sockets, r.errors)) =
      (sync_agent args env socket agents).map (fun r => (r.agent_sockets, r.errors)) := by
  by_cases hm : args.agent_given ≠ 0
  · rw [sync_agent_master args _ socket agents hm, sync_agent_master args env socket agents hm]
    rfl
  · by_cases ha : args.agentmode_given = true
    · simp only [sync_agent, if_neg hm, if_pos ha, Option.map_some']
    · simp only [sync_agent, if_neg hm, if_neg ha, Option.map_some']

/-- C8, as stated, fails: with every send reporting failure the agent is
still in the active set after `sync_agent`, after `prep_agent` and after
`finish_agent` (there even with the receive failing as well). -/
theorem failed_send_ignored :
    deafSync.sendOk 0 (Msg.str "sync_req") = false ∧
    (sync_agent (masterArgs 1) deafSync 0 [0]).map
        (fun r => (r.agent_sockets, r.errors)) = some ([0], 0) ∧
    (prep_agent (masterArgs 1) (deafPrep (fun _ => duoAgentArgs)) ["10.0.0.1:11211"]
        (args_to_options (masterArgs 1)) [0]).map (fun r => r.agent_sockets) = some [0] ∧
    (finish_agent deadFinish zeroStats [0]).agent_sockets = [0] := by
  decide

/-- C8 (amended): the status returned by a send is never acted upon.  The
active set, the options and the error count left by `prep_agent` and
`sync_agent` are the same whatever the sends return (an agent is removed only
through the result of a receive), and `finish_agent` removes no agent at
all. -/
theorem send_status_unused (args : gengetopt_args_info) (f : Sock → Msg → Bool)
    (agents : List Sock) :
    (∀ (env : PrepEnv) (servers : List String) (o : options_t),
      (prep_agent args { env with sendOk := f } servers o agents).map
          (fun r => (r.agent_sockets, r.options)) =
        (prep_agent args env servers o agents).map (fun r => (r.agent_sockets, r.options))) ∧
    (∀ (env : SyncEnv) (socket : Sock),
      (sync_agent args { env with sendOk := f } socket agents).map
          (fun r => (r.agent_sockets, r.errors)) =
        (sync_agent args env socket agents).map (fun r => (r.agent_sockets, r.errors))) ∧
    (∀ (env : FinishEnv) (stats : ConnectionStats),
      (finish_agent env stats agents).agent_sockets = agents) :=
  ⟨fun env servers o => prep_agent_sendOk args env f servers o agents,
    fun env socket => sync_agent_sendOk args env f socket agents,
    fun _ _ => rfl⟩

/-! ## The polling receive -/

/-- One turn of the polling loop when the attempt fails with `EAGAIN`. -/
theorem pollLoop_eagain_step (p : Nat) (attempt : Nat → Attempt) (fuel itid timer slept : Nat)
    (h : attempt itid = Attempt.eagain) :
    pollLoop p attempt (fuel + 1) itid timer slept =
      if (timer + 4294967296 - p) % 4294967296 > p then
        pollLoop p attempt fuel (itid + 1) ((timer + 4294967296 - p) % 4294967296) (slept + p)
      else some (none, slept + p) := by
  rw [pollLoop, h]

/-- While the countdown does not wrap, `n` turns are made when the timer lies
in `(p*n, p*(n+1)]`. -/
theorem pollLoop_eagain_count (p : Nat) (attempt : Nat → Attempt)
    (hall : ∀ k, attempt k = Attempt.eagain) (hp : 0 < p) :
    ∀ (n : Nat), 1 ≤ n → ∀ (fuel itid timer slept : Nat),
      p * n < timer → timer ≤ p * (n + 1) → timer < 4294967296 → n ≤ fuel →
      pollLoop p attempt fuel itid timer slept = some (none, slept + p * n) := by
  intro n
  induction n with
  | zero => intro h; omega
  | succ m ih =>
    intro _ fuel itid timer slept hlo hhi hlt hfuel
    obtain ⟨f, rfl⟩ : ∃ f, fuel = f + 1 := ⟨fuel - 1, by omega⟩
    rw [pollLoop_eagain_step p attempt f itid timer slept (hall itid)]
    have e1 : p * (m + 1) = p * m + p := Nat.mul_succ p m
    have e2 : p * (m + 1 + 1) = p * m + p + p := by rw [Nat.mul_succ, Nat.mul_succ]
    have ht : (timer + 4294967296 - p) % 4294967296 = timer - p := by omega
    rw [ht]
    by_cases hm : m = 0
    · subst hm
      simp only [Nat.mul_zero, Nat.zero_add] at e1 e2
      rw [if_neg (by omega)]
      simp
    · rw [if_pos (by
        have : p * 1 ≤ p * m := Nat.mul_le_mul_left p (by omega)
        omega)]
      rw [ih (by omega) f (itid + 1) (timer - p) (slept + p) (by omega) (by omega) (by omega)
        (by omega)]
      congr 2
      omega

/-- With a budget of 1 and an interval of 2 the countdown wraps in the first
turn; the loop then needs 2147483647 further turns. -/
theorem pollLoop_overshoot (fuel : Nat) (hf : 2147483647 ≤ fuel) :
    pollLoop 2 (fun _ => Attempt.eagain) (fuel + 1) 0 1 0 = some (none, 4294967296) := by
  rw [pollLoop_eagain_step 2 _ fuel 0 1 0 rfl]
  rw [if_pos (by decide)]
  exact pollLoop_eagain_count 2 (fun _ => Attempt.eagain) (fun _ => rfl) (by decide)
    2147483647 (by decide) fuel (0 + 1) ((1 + 4294967296 - 2) % 4294967296) (0 + 2)
    (by decide) (by decide) (by decide) hf

/-- C9: with `setup_socket_timers(1, 2)` (budget 1 s, interval 2 s) and every
non-blocking recv failing with `EAGAIN`, `poll_recv` returns false, and
`s_recv` the sentinel, only after 2147483648 turns and 4294967296 seconds of
sleep: the unsigned countdown wraps from 1 to 4294967295 in the first turn. -/
theorem poll_recv_overshoot :
    poll_recv (setup_socket_timers initialTimers 1 2) none (fun _ => Attempt.eagain) 2147483648 =
        some (none, 4294967296) ∧
      s_recv_poll (setup_socket_timers initialTimers 1 2) none (fun _ => Attempt.eagain)
        2147483648 = some ("FAIL-RECV", 4294967296) := by
  have h : poll_recv (setup_socket_timers initialTimers 1 2) none (fun _ => Attempt.eagain)
      2147483648 = some (none, 4294967296) := by
    have ht : setup_socket_timers initialTimers 1 2 =
        { max_poll_time := 1, poll_interval_s := 2 } := by decide
    rw [ht]
    simp only [poll_recv]
    rw [if_neg (by decide)]
    exact pollLoop_overshoot 2147483647 (le_refl _)
  refine ⟨h, ?_⟩
  unfold s_recv_poll
  rw [h]
  rfl

/-- When the interval does not exceed the budget the countdown never wraps
and the total sleep stays within the budget. -/
theorem poll_recv_within_budget (M p : Nat) (hp : 0 < p) (hle : p ≤ M) (hM : M < 4294967296) :
    ∃ fuel slept, poll_recv (setup_socket_timers initialTimers M p) none
        (fun _ => Attempt.eagain) fuel = some (none, slept) ∧ slept ≤ M := by
  have hM0 : 0 < M := by omega
  have ht : setup_socket_timers initialTimers M p = { max_poll_time := M, poll_interval_s := p } := by
    simp [setup_socket_timers, hp, hM0]
  rw [ht]
  simp only [poll_recv, if_neg (show ¬ M = 0 by omega)]
  by_cases heq : M = p
  · subst heq
    refine ⟨1, M, ?_, le_refl _⟩
    rw [pollLoop_eagain_step M _ 0 0 M 0 rfl]
    have : (M + 4294967296 - M) % 4294967296 = 0 := by
      rw [Nat.add_sub_cancel_left]
    rw [this, if_neg (by omega)]
    simp
  · have hn1 : 1 ≤ (M - 1) / p := (Nat.one_le_div_iff hp).mpr (by omega)
    have hlo : p * ((M - 1) / p) ≤ M - 1 := Nat.mul_div_le (M - 1) p
    have hhi : M - 1 < p * ((M - 1) / p + 1) := Nat.lt_mul_div_succ (M - 1) hp
    refine ⟨(M - 1) / p, 0 + p * ((M - 1) / p), ?_, by omega⟩
    exact pollLoop_eagain_count p _ (fun _ => rfl) hp ((M - 1) / p) hn1 _ 0 M 0
      (by omega) (by omega) hM (le_refl _)

/-! ## Scan mode -/

theorem range_succ_map {β : Type} (f : Nat → β) (n : Nat) :
    (List.range (n + 1)).map f = f 0 :: (List.range n).map (fun i => f (i + 1)) := by
  rw [List.range_succ_eq_map]
  simp [List.map_map, Function.comp_def]

/-- With `n` rates left below or at `max`, the scan loop makes exactly `n`
more runs. -/
theorem scanLoop_rows (args : gengetopt_args_info) (run : options_t → ConnectionStats)
    (max step : Int) (hstep : 0 < step) (hno : max + step ≤ 2147483647) :
    ∀ (n : Nat) (q : Int) (rows : List ScanRow) (fuel : Nat),
      -2147483648 ≤ q → (n = 0 ∨ q + ((n : Int) - 1) * step ≤ max) →
      max < q + (n : Int) * step → n + 1 ≤ fuel →
      scanLoop args run max step fuel q rows =
        some (rows ++ (List.range n).map (fun (i : Nat) => scanRun args run (q + (i : Int) * step))) := by
  intro n
  induction n with
  | zero =>
    intro q rows fuel _ _ hhi hfuel
    obtain ⟨f, rfl⟩ : ∃ f, fuel = f + 1 := ⟨fuel - 1, by omega⟩
    simp only [Nat.cast_zero, zero_mul, add_zero] at hhi
    simp [scanLoop, not_le.mpr hhi]
  | succ m ih =>
    intro q rows fuel hq hlo hhi hfuel
    obtain ⟨f, rfl⟩ : ∃ f, fuel = f + 1 := ⟨fuel - 1, by omega⟩
    have hm0 : (0 : Int) ≤ (m : Int) * step := mul_nonneg (Int.ofNat_nonneg m) (le_of_lt hstep)
    have e1 : ((m + 1 : Nat) : Int) * step = (m : Int) * step + step := by push_cast; ring
    have e2 : (((m + 1 : Nat) : Int) - 1) * step = (m : Int) * step := by push_cast; ring
    rw [e1] at hhi
    have hqmax : q ≤ max := by
      rcases hlo with h | h
      · omega
      · rw [e2] at h; omega
    have hw : wrap32 (q + step) = q + step := wrap32_of_range (by unfold inInt32; omega)
    rw [scanLoop, if_pos hqmax, hw]
    have hlo2 : m = 0 ∨ q + step + ((m : Int) - 1) * step ≤ max := by
      by_cases hm : m = 0
      · exact Or.inl hm
      · right
        rcases hlo with h | h
        · omega
        · rw [e2] at h
          have : ((m : Int) - 1) * step = (m : Int) * step - step := by ring
          rw [this]; omega
    rw [ih (q + step) _ f (by omega) hlo2 (by omega) (by omega), range_succ_map]
    simp only [List.append_assoc, List.singleton_append, Nat.cast_zero, zero_mul, add_zero,
      Option.some.injEq, List.append_cancel_left_eq, List.cons.injEq, true_and]
    apply List.map_congr_left
    intro i _
    congr 1
    push_cast
    ring

/-- C3: round-robin master (two servers, one thread, one connection, weight
1) with one agent (one thread, weight 2).  Master and agent both end the
preparation with `lambda_denom = 4`, while the master's worker opens 2
connections and the agent's worker opens 2 connections of weight 2: the
weighted connection count is `2 * 1 + 2 * 2 = 6`. -/
theorem rr_denom_mismatch :
    (go rrDuoMasterArgs (answeringEnv (fun _ => duoAgentArgs)) calmSync calmSync calmFinish
        zeroStats ["10.0.0.1:11211", "10.0.0.2:11211"] (args_to_options rrDuoMasterArgs)
        0 [0]).bind (fun rm =>
      (agent_prep duoAgentArgs (sentTo 0 rm.prepTrace)).bind (fun a =>
        (go duoAgentArgs (answeringEnv (fun _ => duoAgentArgs)) calmSync calmSync calmFinish
            zeroStats a.servers a.options 0 []).map (fun ra =>
          (rm.options.lambda_denom, a.options.lambda_denom, rm.opened, ra.opened,
            (rm.opened : Int) * rrDuoMasterArgs.lambda_mul_arg +
              (ra.opened : Int) * duoAgentArgs.lambda_mul_arg)))) =
      some (4, 4, 2, 2, 6) := by
  decide

/-! ## Connections opened by the workers -/

theorem do_mcperf_opened (args : gengetopt_args_info) (envW envM : SyncEnv)
    (servers : List String) (options : options_t) (master : Bool) (socket : Sock)
    (agents : List Sock) :
    ∃ run, do_mcperf args envW envM servers options master socket agents = some run ∧
      run.opened = servers.length *
        (if args.measure_connections_given then args.measure_connections_arg
         else options.connections).toNat := by
  have hsum : ∀ c : Nat, (servers.map (fun _ => c)).sum = servers.length * c := by
    intro c
    induction servers with
    | nil => simp
    | cons a l ih => simp only [List.map_cons, List.sum_cons, ih, List.length_cons]; ring
  unfold do_mcperf
  simp only [hsum]
  by_cases hl : options.loadonly = true
  · rw [if_pos hl]
    exact ⟨_, rfl, rfl⟩
  · rw [if_neg hl]
    by_cases hw : options.warmup > 0
    · rw [if_pos hw]
      obtain ⟨st1, so1, d1, h1, _⟩ :=
        syncBlock_spec args envW master socket Phase.warmup agents
      rw [h1]
      cases d1
      · obtain ⟨st2, so2, d2, h2, _⟩ :=
          syncBlock_spec args envM master socket Phase.measure so1
        simp only [Bool.false_eq_true, if_false, h2]
        exact ⟨_, rfl, rfl⟩
      · exact ⟨_, rfl, rfl⟩
    · rw [if_neg hw]
      obtain ⟨st2, so2, d2, h2, _⟩ :=
        syncBlock_spec args envM master socket Phase.measure agents
      simp only [h2]
      exact ⟨_, rfl, rfl⟩

theorem spawnThreads_plain (args : gengetopt_args_info) (envW envM : SyncEnv)
    (servers : List String) (options : options_t) (socket : Sock) (agents : List Sock)
    (hrr : options.roundrobin = false) :
    ∀ (k t : Nat), ∃ runs,
      spawnThreads args envW envM servers options socket agents k t = some runs ∧
      runs.length = k ∧
      (runs.map McperfRun.opened).sum = k * (servers.length *
        (if args.measure_connections_given then args.measure_connections_arg
         else options.connections).toNat) := by
  intro k
  induction k with
  | zero => intro t; exact ⟨[], rfl, rfl, by simp⟩
  | succ k ih =>
    intro t
    obtain ⟨r, hr, hop⟩ :=
      do_mcperf_opened args envW envM servers options (decide (t = 0)) socket agents
    obtain ⟨rs, hrs, hlen, hsum⟩ := ih (t + 1)
    refine ⟨r :: rs, ?_, by simp [hlen], ?_⟩
    · simp only [spawnThreads, threadServers, hrr, Bool.false_eq_true, if_false, hr, hrs]
    · simp only [List.map_cons, List.sum_cons, hop, hsum]
      ring

/-- Without round-robin and with at least one thread, the workers of one `go`
open `threads * |servers| * conns` connections, whatever happens at the
synchronisation points. -/
theorem go_opened_plain (args : gengetopt_args_info) (penv : PrepEnv) (envW envM : SyncEnv)
    (fenv : FinishEnv) (ws : ConnectionStats) (servers : List String) (o : options_t)
    (socket : Sock) (agents : List Sock) (pr : PrepResult)
    (hprep : (if args.agent_given > 0 then prep_agent args penv servers o agents
      else some { options := o, agent_sockets := agents, trace := [] }) = some pr)
    (hrr : pr.options.roundrobin = false) (hT : 1 ≤ pr.options.threads) :
    ∃ r, go args penv envW envM fenv ws servers o socket agents = some r ∧
      r.options = pr.options ∧ r.prepTrace = pr.trace ∧
      r.opened = pr.options.threads.toNat * (servers.length *
        (if args.measure_connections_given then args.measure_connections_arg
         else pr.options.connections).toNat) := by
  unfold go
  simp only [hprep]
  generalize hc : (if args.measure_connections_given = true then args.measure_connections_arg
    else pr.options.connections).toNat = c
  by_cases h1 : pr.options.threads > 1
  · rw [if_pos h1]
    obtain ⟨runs, hruns, hlen, hsum⟩ := spawnThreads_plain args envW envM servers pr.options
      socket pr.agent_sockets hrr pr.options.threads.toNat 0
    rw [hc] at hsum
    rw [hruns]
    cases runs with
    | nil =>
      simp only [List.length_nil] at hlen
      omega
    | cons r0 rs =>
      simp only []
      cases r0.died
      · simp only []
        by_cases hg : args.agent_given > 0
        · rw [if_pos hg]; exact ⟨_, rfl, rfl, rfl, hsum⟩
        · rw [if_neg hg]; exact ⟨_, rfl, rfl, rfl, hsum⟩
      · exact ⟨_, rfl, rfl, rfl, hsum⟩
  · rw [if_neg h1]
    have h2 : pr.options.threads = 1 := by omega
    rw [if_pos h2]
    obtain ⟨r, hr, hop⟩ :=
      do_mcperf_opened args envW envM servers pr.options true socket pr.agent_sockets
    rw [hc] at hop
    rw [hr]
    have hone : pr.options.threads.toNat = 1 := by rw [h2]; rfl
    simp only []
    cases r.died
    · simp only []
      by_cases hg : args.agent_given > 0
      · rw [if_pos hg]; exact ⟨_, rfl, rfl, rfl, by simp [GoResult.opened, hop, hone]⟩
      · rw [if_neg hg]; exact ⟨_, rfl, rfl, rfl, by simp [GoResult.opened, hop, hone]⟩
    · exact ⟨_, rfl, rfl, rfl, by simp [GoResult.opened, hop, hone]⟩

/-! ## Without round-robin the denominator is the weighted connection count -/

theorem args_to_options_plain (args : gengetopt_args_info)
    (hrr : args.roundrobin_given = false)
    (hc : 1 ≤ args.connections_arg) (hT : 1 ≤ args.threads_arg)
    (hm : 1 ≤ args.lambda_mul_arg) (hn0 : 0 < args.server_given)
    (hrange : args.connections_arg * ((args.server_given : Int) * args.threads_arg) *
      args.lambda_mul_arg ≤ 2147483647) :
    (args_to_options args).lambda_denom =
        args.connections_arg * ((args.server_given : Int) * args.threads_arg) *
          args.lambda_mul_arg ∧
      (args_to_options args).server_given = (args.server_given : Int) ∧
      args.server_given < 2147483648 := by
  have hn1 : (1 : Int) ≤ (args.server_given : Int) := by omega
  have hnT : (1 : Int) ≤ (args.server_given : Int) * args.threads_arg := by nlinarith
  have h1 : (args.server_given : Int) ≤ (args.server_given : Int) * args.threads_arg := by
    nlinarith
  have h2 : (args.server_given : Int) * args.threads_arg ≤
      args.connections_arg * ((args.server_given : Int) * args.threads_arg) := by nlinarith
  have h3 : args.connections_arg * ((args.server_given : Int) * args.threads_arg) ≤
      args.connections_arg * ((args.server_given : Int) * args.threads_arg) *
        args.lambda_mul_arg := by nlinarith
  have hlt : args.server_given < 2147483648 := by omega
  have w1 : wrap32 (args.server_given : Int) = (args.server_given : Int) :=
    wrap32_of_range (by unfold inInt32; omega)
  have w2 : wrap32 ((args.server_given : Int) * args.threads_arg) =
      (args.server_given : Int) * args.threads_arg :=
    wrap32_of_range (by unfold inInt32; omega)
  have w3 : wrap32 (args.connections_arg * ((args.server_given : Int) * args.threads_arg)) =
      args.connections_arg * ((args.server_given : Int) * args.threads_arg) :=
    wrap32_of_range (by unfold inInt32; omega)
  have w4 : wrap32 (args.connections_arg * ((args.server_given : Int) * args.threads_arg) *
      args.lambda_mul_arg) =
      args.connections_arg * ((args.server_given : Int) * args.threads_arg) *
        args.lambda_mul_arg :=
    wrap32_of_range (by unfold inInt32; omega)
  refine ⟨?_, args_to_options_server_given args hn0 hlt, hlt⟩
  simp only [args_to_options, hrr, Bool.false_eq_true, if_false, w1, w2, w3]
  rw [if_neg (by omega)]
  by_cases hc1 : args.connections_arg * ((args.server_given : Int) * args.threads_arg) > 1
  · rw [if_pos hc1]
    by_cases hm1 : args.lambda_mul_arg > 1
    · rw [if_pos hm1, w4]
    · rw [if_neg hm1]
      have : args.lambda_mul_arg = 1 := by omega
      rw [this, mul_one]
  · rw [if_neg hc1]
    have hone : args.connections_arg * ((args.server_given : Int) * args.threads_arg) = 1 := by
      omega
    by_cases hm1 : args.lambda_mul_arg > 1
    · rw [if_pos hm1, hone, one_mul]
      exact wrap32_of_range (by unfold inInt32; rw [hone, one_mul] at hrange; omega)
    · rw [if_neg hm1]
      have : args.lambda_mul_arg = 1 := by omega
      rw [this, mul_one, hone]

/-- Without round-robin, with at least one thread and weight at least 1 on
every process, no `--measure_*` option and every agent answering, the
negotiated `lambda_denom` is the sum over the master and the agents of the
connections their workers open, each multiplied by the process's
`lambda_mul` (no overflow assumed). -/
theorem plain_denom_weighted (args : gengetopt_args_info)
    (aargs : Sock → gengetopt_args_info) (envW envM : SyncEnv) (fenv : FinishEnv)
    (ws : ConnectionStats) (servers : List String) (agents : List Sock) (socket : Sock)
    (hrr : args.roundrobin_given = false)
    (hmc : args.measure_connections_given = false) (hmq : args.measure_qps_given = false)
    (hag0 : 0 < args.agent_given)
    (hc : 1 ≤ args.connections_arg) (hT : 1 ≤ args.threads_arg)
    (hm : 1 ≤ args.lambda_mul_arg)
    (hn : servers.length = args.server_given) (hn0 : 0 < args.server_given)
    (hnd : agents.Nodup)
    (hag : ∀ s ∈ agents, 1 ≤ (aargs s).threads_arg ∧ 1 ≤ (aargs s).lambda_mul_arg ∧
      (aargs s).measure_connections_given = false ∧ (aargs s).agent_given = 0)
    (hrange : args.connections_arg * ((args.server_given : Int) * args.threads_arg) *
        args.lambda_mul_arg +
      (agents.map (fun s => args.connections_arg * ((args.server_given : Int) *
        ((aargs s).threads_arg * (aargs s).lambda_mul_arg)))).sum ≤ 2147483647) :
    ∃ rm, go args (answeringEnv aargs) envW envM fenv ws servers (args_to_options args)
        socket agents = some rm ∧
      rm.opened = args.threads_arg.toNat * (servers.length * args.connections_arg.toNat) ∧
      (∀ s ∈ agents, ∀ (envW1 envM1 : SyncEnv) (fenv1 : FinishEnv) (ws1 : ConnectionStats)
          (sock1 : Sock),
        ∃ a ra, agent_prep (aargs s) (sentTo s rm.prepTrace) = some a ∧
          go (aargs s) (answeringEnv aargs) envW1 envM1 fenv1 ws1 a.servers a.options
            sock1 [] = some ra ∧
          a.options.lambda_denom = rm.options.lambda_denom ∧
          ra.opened =
            (aargs s).threads_arg.toNat * (servers.length * args.connections_arg.toNat)) ∧
      rm.options.lambda_denom =
        (rm.opened : Int) * args.lambda_mul_arg +
        (agents.map (fun s =>
          (((aargs s).threads_arg.toNat * (servers.length * args.connections_arg.toNat) : Nat)
            : Int) * (aargs s).lambda_mul_arg)).sum := by
  -- every agent term is at least 1 and at most the sum
  have hterm : ∀ s ∈ agents, (aargs s).threads_arg * (aargs s).lambda_mul_arg ≤
      args.connections_arg * ((args.server_given : Int) *
        ((aargs s).threads_arg * (aargs s).lambda_mul_arg)) ∧
      1 ≤ (aargs s).threads_arg * (aargs s).lambda_mul_arg := by
    intro s hs
    obtain ⟨a1, a2, _, _⟩ := hag s hs
    have hn1 : (1 : Int) ≤ (args.server_given : Int) := by omega
    have hp : 1 ≤ (aargs s).threads_arg * (aargs s).lambda_mul_arg := by nlinarith
    have hq : (aargs s).threads_arg * (aargs s).lambda_mul_arg ≤
        (args.server_given : Int) * ((aargs s).threads_arg * (aargs s).lambda_mul_arg) := by
      nlinarith
    exact ⟨by nlinarith, hp⟩
  have hnonneg : ∀ x ∈ agents.map (fun s => args.connections_arg *
      ((args.server_given : Int) * ((aargs s).threads_arg * (aargs s).lambda_mul_arg))),
      (0 : Int) ≤ x := by
    intro x hx
    obtain ⟨s, hs, rfl⟩ := List.mem_map.mp hx
    have := hterm s hs
    omega
  have hsum0 := List.sum_nonneg hnonneg
  have hle : ∀ s ∈ agents, args.connections_arg * ((args.server_given : Int) *
      ((aargs s).threads_arg * (aargs s).lambda_mul_arg)) ≤
      (agents.map (fun s => args.connections_arg * ((args.server_given : Int) *
        ((aargs s).threads_arg * (aargs s).lambda_mul_arg)))).sum :=
    fun s hs => List.single_le_sum hnonneg _ (List.mem_map.mpr ⟨s, hs, rfl⟩)
  have hmaster : 1 ≤ args.connections_arg * ((args.server_given : Int) * args.threads_arg) *
      args.lambda_mul_arg := by
    have hn1 : (1 : Int) ≤ (args.server_given : Int) := by omega
    have h1 : (1 : Int) ≤ (args.server_given : Int) * args.threads_arg := by nlinarith
    have h2 : 1 ≤ args.connections_arg * ((args.server_given : Int) * args.threads_arg) := by
      nlinarith
    nlinarith
  obtain ⟨od, osg, hlt⟩ := args_to_options_plain args hrr hc hT hm hn0 (by omega)
  have ornd : (args_to_options args).roundrobin = false := hrr
  have ocon : (args_to_options args).connections = args.connections_arg := rfl
  have othr : (args_to_options args).threads = args.threads_arg := rfl
  -- what the agents report
  have hnum : ∀ s ∈ agents, ((toU32 (((answeringEnv aargs).numReply s).getD 0) : Nat) : Int) =
      (aargs s).threads_arg * (aargs s).lambda_mul_arg := by
    intro s hs
    have h1 := hterm s hs
    have h2 := hle s hs
    have hw : agent_num (aargs s) = (aargs s).threads_arg * (aargs s).lambda_mul_arg :=
      wrap32_of_range (by unfold inInt32; omega)
    simp only [answeringEnv, Option.getD_some, hw, toU32]
    rw [Int.toNat_of_nonneg (Int.emod_nonneg _ (by norm_num))]
    omega
  have hmap : (agents.map (fun s => (args_to_options args).connections *
        (if (args_to_options args).roundrobin then
          ((max servers.length (toU32 (((answeringEnv aargs).numReply s).getD 0)) : Nat) : Int)
         else (servers.length : Int) *
          (toU32 (((answeringEnv aargs).numReply s).getD 0) : Int)))) =
      agents.map (fun s => args.connections_arg * ((args.server_given : Int) *
        ((aargs s).threads_arg * (aargs s).lambda_mul_arg))) := by
    apply List.map_congr_left
    intro s hs
    rw [ornd, ocon, hnum s hs, hn]
    simp
  -- the preparation
  obtain ⟨pr, hpr, hD, hsocks, _, _⟩ := prep_agent_denom args (answeringEnv aargs) servers
    (args_to_options args) agents hmc hmq
    (fun s _ => ⟨rfl, fun _ _ => by simp [answeringEnv, s_recv],
      by simp [answeringEnv, s_recv]⟩)
    (args_to_options_denom_range args)
    (by rw [hmap, od]; unfold inInt32; omega)
  rw [hmap, od] at hD
  obtain ⟨k1, k2, k3⟩ := prep_agent_keeps args (answeringEnv aargs) servers
    (args_to_options args) agents pr hpr
  obtain ⟨pr2, hpr2, _, _, hsent⟩ := prep_agent_sent args (answeringEnv aargs) servers
    (args_to_options args) agents hmc hmq hnd
  rw [hpr] at hpr2
  have hpreq : pr2 = pr := (Option.some.inj hpr2).symm
  subst hpreq
  -- the master's workers
  obtain ⟨rm, hrm, hopt, htr, hop⟩ := go_opened_plain args (answeringEnv aargs) envW envM fenv
    ws servers (args_to_options args) socket agents pr2 (by rw [if_pos hag0]; exact hpr)
    (by rw [k2]; exact ornd) (by rw [k1, othr]; exact hT)
  rw [hmc, k1, k3, othr, ocon] at hop
  simp only [Bool.false_eq_true, if_false] at hop
  refine ⟨rm, hrm, hop, ?_, ?_⟩
  · intro s hs envW1 envM1 fenv1 ws1 sock1
    obtain ⟨_, _, gmc, gag⟩ := hag s hs
    obtain ⟨a, ha, ad, _, _, asrv, _, athr, arr, acon⟩ := agent_prep_sent (aargs s)
      (args_to_options args) servers pr2.options.lambda_denom (by rw [osg, hn]; simp)
    rw [← hsent s (by rw [hsocks]; exact hs), ← htr] at ha
    obtain ⟨ra, hra, _, _, hrop⟩ := go_opened_plain (aargs s) (answeringEnv aargs) envW1 envM1
      fenv1 ws1 a.servers a.options sock1 []
      { options := a.options, agent_sockets := [], trace := [] }
      (by rw [if_neg (by omega)]) (by rw [arr]; exact ornd) (by rw [athr]; exact (hag s hs).1)
    simp only [gmc, Bool.false_eq_true, if_false, athr, acon, ocon, asrv] at hrop
    exact ⟨a, ra, ha, hra, by rw [ad, hopt], hrop⟩
  · rw [hopt, hD, hop]
    have hTn : ((args.threads_arg.toNat : Nat) : Int) = args.threads_arg :=
      Int.toNat_of_nonneg (by omega)
    have hcn : ((args.connections_arg.toNat : Nat) : Int) = args.connections_arg :=
      Int.toNat_of_nonneg (by omega)
    have hmap2 : agents.map (fun s =>
          (((aargs s).threads_arg.toNat * (servers.length * args.connections_arg.toNat) : Nat)
            : Int) * (aargs s).lambda_mul_arg) =
        agents.map (fun s => args.connections_arg * ((args.server_given : Int) *
          ((aargs s).threads_arg * (aargs s).lambda_mul_arg))) := by
      apply List.map_congr_left
      intro s hs
      have hTs : (((aargs s).threads_arg.toNat : Nat) : Int) = (aargs s).threads_arg :=
        Int.toNat_of_nonneg (by have := (hag s hs).1; omega)
      push_cast
      rw [hTs, hcn, hn]
      ring
    rw [hmap2]
    push_cast
    rw [hTn, hcn, hn]
    ring

/-! ## Search mode -/

theorem doubleToInt_spec (q : ℚ) (h1 : 1 ≤ q) (h2 : q < 1073741824) :
    1 ≤ doubleToInt q ∧ ((doubleToInt q : Int) : ℚ) ≤ q ∧ doubleToInt q < 1073741824 := by
  have hq0 : (0 : ℚ) ≤ q := le_trans (by norm_num) h1
  have hnum : 0 ≤ q.num := Rat.num_nonneg.mpr hq0
  have hfl : Int.tdiv q.num (q.den : Int) = ⌊q⌋ := by
    rw [Int.tdiv_eq_ediv hnum (Int.ofNat_nonneg _), Rat.floor_def]
  have hle : ((⌊q⌋ : Int) : ℚ) ≤ q := Int.floor_le q
  have hge : 1 ≤ ⌊q⌋ := Int.le_floor.mpr (by exact_mod_cast h1)
  have hlt : ⌊q⌋ < 1073741824 := Int.floor_lt.mpr (by exact_mod_cast h2)
  have hw : doubleToInt q = ⌊q⌋ := by
    unfold doubleToInt
    rw [hfl]
    exact wrap32_of_range (by unfold inInt32; omega)
  rw [hw]
  exact ⟨hge, hle, hlt⟩

/-- One turn of the binary-search loop from a state with
`1 ≤ low ≤ high < 2^30`. -/
theorem binaryStep_spec (args : gengetopt_args_info) (run : options_t → RunStats)
    (avgseek : Bool) (n x : Int) (st : SearchState)
    (h1 : 1 ≤ st.low_qps) (h2 : st.low_qps ≤ st.high_qps) (h3 : st.high_qps < 1073741824) :
    (binaryStep args run avgseek n x st).cur_qps = (st.high_qps + st.low_qps) / 2 ∧
    st.low_qps ≤ (binaryStep args run avgseek n x st).cur_qps ∧
    (binaryStep args run avgseek n x st).cur_qps ≤ st.high_qps ∧
    (binaryStep args run avgseek n x st).peak_qps = st.peak_qps ∧
    (binaryStep args run avgseek n x st).nth =
      searchStat avgseek n (run (searchOptions args
        (binaryStep args run avgseek n x st).cur_qps)) ∧
    (binaryStep args run avgseek n x st).stats =
      run (searchOptions args (binaryStep args run avgseek n x st).cur_qps) ∧
    (binaryStep args run avgseek n x st).runs =
      st.runs ++ [searchOptions args (binaryStep args run avgseek n x st).cur_qps] ∧
    (((binaryStep args run avgseek n x st).nth > (x : ℚ) ∧
        (binaryStep args run avgseek n x st).high_qps =
          (binaryStep args run avgseek n x st).cur_qps ∧
        (binaryStep args run avgseek n x st).low_qps = st.low_qps) ∨
      ((binaryStep args run avgseek n x st).nth ≤ (x : ℚ) ∧
        (binaryStep args run avgseek n x st).low_qps =
          (binaryStep args run avgseek n x st).cur_qps ∧
        (binaryStep args run avgseek n x st).high_qps = st.high_qps)) := by
  have hw : wrap32 (st.high_qps + st.low_qps) = st.high_qps + st.low_qps :=
    wrap32_of_range (by unfold inInt32; omega)
  have hd : Int.tdiv (st.high_qps + st.low_qps) 2 = (st.high_qps + st.low_qps) / 2 :=
    Int.tdiv_eq_ediv (by omega) (by norm_num)
  unfold binaryStep
  simp only [hw, hd]
  by_cases hb : searchStat avgseek n (run (searchOptions args ((st.high_qps + st.low_qps) / 2)))
      > (x : ℚ)
  · rw [if_pos hb]
    exact ⟨rfl, by show st.low_qps ≤ (st.high_qps + st.low_qps) / 2; omega,
      by show (st.high_qps + st.low_qps) / 2 ≤ st.high_qps; omega, rfl, rfl, rfl, rfl,
      Or.inl ⟨hb, rfl, rfl⟩⟩
  · rw [if_neg hb]
    exact ⟨rfl, by show st.low_qps ≤ (st.high_qps + st.low_qps) / 2; omega,
      by show (st.high_qps + st.low_qps) / 2 ≤ st.high_qps; omega, rfl, rfl, rfl, rfl,
      Or.inr ⟨not_lt.mp hb, rfl, rfl⟩⟩

theorem binaryIter_inv (args : gengetopt_args_info) (run : options_t → RunStats)
    (avgseek : Bool) (n x : Int) :
    ∀ (k : Nat) (st : SearchState),
      1 ≤ st.low_qps → st.low_qps ≤ st.high_qps → (st.high_qps : ℚ) ≤ st.peak_qps →
      st.high_qps < 1073741824 →
      1 ≤ (binaryIter args run avgseek n x k st).low_qps ∧
      (binaryIter args run avgseek n x k st).low_qps ≤
        (binaryIter args run avgseek n x k st).high_qps ∧
      ((binaryIter args run avgseek n x k st).high_qps : ℚ) ≤ st.peak_qps ∧
      (binaryIter args run avgseek n x k st).high_qps < 1073741824 ∧
      (binaryIter args run avgseek n x k st).peak_qps = st.peak_qps := by
  intro k
  induction k with
  | zero => intro st h1 h2 h3 h4; exact ⟨h1, h2, h3, h4, rfl⟩
  | succ k ih =>
    intro st h1 h2 h3 h4
    unfold binaryIter
    by_cases hg : binaryGuard st = true
    · rw [if_pos hg]
      obtain ⟨s1, s2, s3, s4, _, _, _, s8⟩ := binaryStep_spec args run avgseek n x st h1 h2 h4
      have hq : ((binaryStep args run avgseek n x st).cur_qps : ℚ) ≤ st.peak_qps :=
        le_trans (by exact_mod_cast s3) h3
      have key := ih (binaryStep args run avgseek n x st)
      rw [s4] at key
      rcases s8 with ⟨_, e1, e2⟩ | ⟨_, e1, e2⟩
      · exact key (by rw [e2]; exact h1) (by rw [e1, e2]; exact s2) (by rw [e1]; exact hq)
          (by rw [e1]; omega)
      · exact key (by rw [e1]; omega) (by rw [e1, e2]; exact s3) (by rw [e2]; exact h3)
          (by rw [e2]; exact h4)
    · rw [if_neg hg]
      exact ⟨h1, h2, h3, h4, rfl⟩

theorem searchStart_fields (args : gengetopt_args_info) (run : options_t → RunStats)
    (avgseek : Bool) (n : Int) :
    (searchStart args run avgseek n).runs = [args_to_options args] ∧
    (searchStart args run avgseek n).peak_qps = (run (args_to_options args)).get_qps ∧
    (searchStart args run avgseek n).stats = run (args_to_options args) ∧
    (searchStart args run avgseek n).nth = searchStat avgseek n (run (args_to_options args)) ∧
    (searchStart args run avgseek n).low_qps = 1 ∧
    (searchStart args run avgseek n).high_qps =
      doubleToInt (run (args_to_options args)).get_qps ∧
    (searchStart args run avgseek n).cur_qps =
      doubleToInt (run (args_to_options args)).get_qps :=
  ⟨rfl, rfl, rfl, rfl, rfl, rfl, rfl⟩

/-- C13: for every run oracle and every peak rate `1 ≤ peak < 2^30` (so that
`high_qps + low_qps` fits an `int`), after any number of turns of the
binary-search loop `1 ≤ low_qps ≤ high_qps ≤ peak_qps` holds; and when the
loop condition holds the next probed target is `floor((high + low) / 2)`,
lies in `[low, high]`, the run is made at that target, and either its
statistic is above `X` and only `high_qps` is replaced by the target, or it is
at most `X` and only `low_qps` is replaced by the target. -/
theorem binary_search_invariant (args : gengetopt_args_info) (run : options_t → RunStats)
    (avgseek : Bool) (n x : Int) (k : Nat)
    (hlo : 1 ≤ (run (args_to_options args)).get_qps)
    (hhi : (run (args_to_options args)).get_qps < 1073741824) :
    1 ≤ (binaryIter args run avgseek n x k (searchStart args run avgseek n)).low_qps ∧
    (binaryIter args run avgseek n x k (searchStart args run avgseek n)).low_qps ≤
      (binaryIter args run avgseek n x k (searchStart args run avgseek n)).high_qps ∧
    ((binaryIter args run avgseek n x k (searchStart args run avgseek n)).high_qps : ℚ) ≤
      (run (args_to_options args)).get_qps ∧
    (binaryGuard (binaryIter args run avgseek n x k (searchStart args run avgseek n)) = true →
      (binaryStep args run avgseek n x
          (binaryIter args run avgseek n x k (searchStart args run avgseek n))).cur_qps =
        ((binaryIter args run avgseek n x k (searchStart args run avgseek n)).high_qps +
          (binaryIter args run avgseek n x k (searchStart args run avgseek n)).low_qps) / 2 ∧
      (binaryIter args run avgseek n x k (searchStart args run avgseek n)).low_qps ≤
        (binaryStep args run avgseek n x
          (binaryIter args run avgseek n x k (searchStart args run avgseek n))).cur_qps ∧
      (binaryStep args run avgseek n x
          (binaryIter args run avgseek n x k (searchStart args run avgseek n))).cur_qps ≤
        (binaryIter args run avgseek n x k (searchStart args run avgseek n)).high_qps ∧
      (binaryStep args run avgseek n x
          (binaryIter args run avgseek n x k (searchStart args run avgseek n))).nth =
        searchStat avgseek n (run (searchOptions args
          (binaryStep args run avgseek n x
            (binaryIter args run avgseek n x k (searchStart args run avgseek n))).cur_qps)) ∧
      (((binaryStep args run avgseek n x
            (binaryIter args run avgseek n x k (searchStart args run avgseek n))).nth > (x : ℚ) ∧
          (binaryStep args run avgseek n x
            (binaryIter args run avgseek n x k (searchStart args run avgseek n))).high_qps =
            (binaryStep args run avgseek n x
              (binaryIter args run avgseek n x k (searchStart args run avgseek n))).cur_qps ∧
          (binaryStep args run avgseek n x
            (binaryIter args run avgseek n x k (searchStart args run avgseek n))).low_qps =
            (binaryIter args run avgseek n x k (searchStart args run avgseek n)).low_qps) ∨
        ((binaryStep args run avgseek n x
            (binaryIter args run avgseek n x k (searchStart args run avgseek n))).nth ≤ (x : ℚ) ∧
          (binaryStep args run avgseek n x
            (binaryIter args run avgseek n x k (searchStart args run avgseek n))).low_qps =
            (binaryStep args run avgseek n x
              (binaryIter args run avgseek n x k (searchStart args run avgseek n))).cur_qps ∧
          (binaryStep args run avgseek n x
            (binaryIter args run avgseek n x k (searchStart args run avgseek n))).high_qps =
            (binaryIter args run avgseek n x k (searchStart args run avgseek n)).high_qps))) := by
  obtain ⟨d1, d2, d3⟩ := doubleToInt_spec _ hlo hhi
  obtain ⟨i1, i2, i3, i4, _⟩ := binaryIter_inv args run avgseek n x k
    (searchStart args run avgseek n) (le_refl _) d1 d2 d3
  refine ⟨i1, i2, i3, ?_⟩
  intro _
  obtain ⟨s1, s2, s3, _, s5, _, _, s8⟩ := binaryStep_spec args run avgseek n x
    (binaryIter args run avgseek n x k (searchStart args run avgseek n)) i1 i2 i4
  exact ⟨s1, s2, s3, s5, s8⟩

theorem binary_search_invariant_witness :
    1 ≤ (binaryIter (plainArgs 1 0) (cliffRun 40 10) false 95 500 3
        (searchStart (plainArgs 1 0) (cliffRun 40 10) false 95)).low_qps ∧
    (binaryIter (plainArgs 1 0) (cliffRun 40 10) false 95 500 3
        (searchStart (plainArgs 1 0) (cliffRun 40 10) false 95)).low_qps ≤
      (binaryIter (plainArgs 1 0) (cliffRun 40 10) false 95 500 3
        (searchStart (plainArgs 1 0) (cliffRun 40 10) false 95)).high_qps :=
  ⟨(binary_search_invariant (plainArgs 1 0) (cliffRun 40 10) false 95 500 3
      (by decide!) (by decide!)).1,
    (binary_search_invariant (plainArgs 1 0) (cliffRun 40 10) false 95 500 3
      (by decide!) (by decide!)).2.1⟩

/-! ### What the loops keep -/

theorem binaryStep_keeps (args : gengetopt_args_info) (run : options_t → RunStats)
    (avgseek : Bool) (n x : Int) (st : SearchState) :
    (binaryStep args run avgseek n x st).peak_qps = st.peak_qps ∧
    (∃ o, (binaryStep args run avgseek n x st).runs = st.runs ++ [o] ∧
      (binaryStep args run avgseek n x st).stats = run o) ∧
    (binaryStep args run avgseek n x st).nth =
      searchStat avgseek n (binaryStep args run avgseek n x st).stats := by
  unfold binaryStep
  simp only []
  split_ifs <;> exact ⟨rfl, ⟨_, rfl, rfl⟩, rfl⟩

theorem fineStep_keeps (args : gengetopt_args_info) (run : options_t → RunStats)
    (avgseek : Bool) (n : Int) (st : SearchState) :
    (fineStep args run avgseek n st).peak_qps = st.peak_qps ∧
    (fineStep args run avgseek n st).low_qps = st.low_qps ∧
    (fineStep args run avgseek n st).high_qps = st.high_qps ∧
    (∃ o, (fineStep args run avgseek n st).runs = st.runs ++ [o] ∧
      (fineStep args run avgseek n st).stats = run o) ∧
    (fineStep args run avgseek n st).nth =
      searchStat avgseek n (fineStep args run avgseek n st).stats :=
  ⟨rfl, rfl, rfl, ⟨_, rfl, rfl⟩, rfl⟩

/-- When the binary-search loop ends, its condition is false; the peak is
unchanged, the runs made are appended, `nth` is still the statistic of
`stats` and `stats` is still what the last run returned. -/
theorem binaryLoop_some (args : gengetopt_args_info) (run : options_t → RunStats)
    (avgseek : Bool) (n x : Int) :
    ∀ (fuel : Nat) (st st1 : SearchState),
      binaryLoop args run avgseek n x fuel st = some st1 →
      st1.peak_qps = st.peak_qps ∧ binaryGuard st1 = false ∧
      (∃ l, st1.runs = st.runs ++ l) ∧
      (st.nth = searchStat avgseek n st.stats → st1.nth = searchStat avgseek n st1.stats) ∧
      ((∃ o ∈ st.runs.getLast?, st.stats = run o) →
        ∃ o ∈ st1.runs.getLast?, st1.stats = run o) := by
  intro fuel
  induction fuel with
  | zero => intro st st1 h; simp [binaryLoop] at h
  | succ f ih =>
    intro st st1 h
    unfold binaryLoop at h
    by_cases hg : binaryGuard st = true
    · rw [if_pos hg] at h
      obtain ⟨k1, ⟨o, k2, k3⟩, k4⟩ := binaryStep_keeps args run avgseek n x st
      obtain ⟨i1, i2, ⟨l, i3⟩, i4, i5⟩ := ih _ _ h
      refine ⟨by rw [i1, k1], i2, ⟨[o] ++ l, by rw [i3, k2, List.append_assoc]⟩,
        fun _ => i4 k4, fun _ => i5 ⟨o, by rw [k2]; simp, k3⟩⟩
    · rw [if_neg hg] at h
      have e : st1 = st := (Option.some.inj h).symm
      subst e
      exact ⟨rfl, by simpa using hg, ⟨[], by simp⟩, fun h => h, fun h => h⟩

theorem fineLoop_some (args : gengetopt_args_info) (run : options_t → RunStats)
    (avgseek : Bool) (n x : Int) :
    ∀ (fuel : Nat) (st st1 : SearchState),
      fineLoop args run avgseek n x fuel st = some st1 →
      st1.peak_qps = st.peak_qps ∧ st1.low_qps = st.low_qps ∧ st1.high_qps = st.high_qps ∧
      fineGuard x st1 = false ∧
      (∃ l, st1.runs = st.runs ++ l) ∧
      (st.nth = searchStat avgseek n st.stats → st1.nth = searchStat avgseek n st1.stats) ∧
      ((∃ o ∈ st.runs.getLast?, st.stats = run o) →
        ∃ o ∈ st1.runs.getLast?, st1.stats = run o) := by
  intro fuel
  induction fuel with
  | zero => intro st st1 h; simp [fineLoop] at h
  | succ f ih =>
    intro st st1 h
    unfold fineLoop at h
    by_cases hg : fineGuard x st = true
    · rw [if_pos hg] at h
      obtain ⟨k1, k1a, k1b, ⟨o, k2, k3⟩, k4⟩ := fineStep_keeps args run avgseek n st
      obtain ⟨i1, i1a, i1b, i2, ⟨l, i3⟩, i4, i5⟩ := ih _ _ h
      refine ⟨by rw [i1, k1], by rw [i1a, k1a], by rw [i1b, k1b], i2,
        ⟨[o] ++ l, by rw [i3, k2, List.append_assoc]⟩,
        fun _ => i4 k4, fun _ => i5 ⟨o, by rw [k2]; simp, k3⟩⟩
    · rw [if_neg hg] at h
      have e : st1 = st := (Option.some.inj h).symm
      subst e
      exact ⟨rfl, rfl, rfl, by simpa using hg, ⟨[], by simp⟩, fun h => h, fun h => h⟩

theorem binaryLoop_mono (args : gengetopt_args_info) (run : options_t → RunStats)
    (avgseek : Bool) (n x : Int) :
    ∀ (fuel : Nat) (st st1 : SearchState),
      binaryLoop args run avgseek n x fuel st = some st1 →
      ∀ more, binaryLoop args run avgseek n x (fuel + more) st = some st1 := by
  intro fuel
  induction fuel with
  | zero => intro st st1 h; simp [binaryLoop] at h
  | succ f ih =>
    intro st st1 h more
    rw [show f + 1 + more = (f + more) + 1 by omega]
    unfold binaryLoop at h ⊢
    by_cases hg : binaryGuard st = true
    · rw [if_pos hg] at h ⊢
      exact ih _ _ h more
    · rw [if_neg hg] at h ⊢
      exact h

/-- C11, as stated, fails: with `--qps 5000` the first run of the search is
made with `options.qps = 5000`. -/
theorem search_first_run_capped :
    (search (plainArgs 1 5000) (steadyRun 100 5000) false 95 500 10).map
      (fun st => st.runs.map (fun o => o.qps)) = some [5000] := by
  decide!

/-- C11 (amended): the first run of the search is made with the options
computed by `args_to_options`, whose `qps` is the value of `--qps` (0, no cap,
only when that is the value given or the default), and `peak_qps` is the rate
achieved by that run; this is the first of the runs of every search that
returns. -/
theorem search_first_run (args : gengetopt_args_info) (run : options_t → RunStats)
    (avgseek : Bool) (n x : Int) :
    (searchStart args run avgseek n).runs = [args_to_options args] ∧
    (args_to_options args).qps = args.qps_arg ∧
    (searchStart args run avgseek n).peak_qps = (run (args_to_options args)).get_qps ∧
    (∀ (fuel : Nat) (res : SearchState), search args run avgseek n x fuel = some res →
      res.runs.head? = some (args_to_options args) ∧
      res.peak_qps = (run (args_to_options args)).get_qps) := by
  refine ⟨rfl, rfl, rfl, ?_⟩
  intro fuel res h
  unfold search at h
  simp only [] at h
  by_cases hb : (searchStart args run avgseek n).nth > (x : ℚ)
  · rw [if_pos hb] at h
    cases h1 : binaryLoop args run avgseek n x fuel (searchStart args run avgseek n) with
    | none => rw [h1] at h; simp at h
    | some st1 =>
      rw [h1] at h
      simp only [] at h
      obtain ⟨a1, _, ⟨l1, a3⟩, _, _⟩ := binaryLoop_some args run avgseek n x fuel _ _ h1
      obtain ⟨b1, _, _, _, ⟨l2, b3⟩, _, _⟩ := fineLoop_some args run avgseek n x fuel _ _ h
      refine ⟨?_, by rw [b1, a1]; rfl⟩
      rw [b3, a3]
      rfl
  · rw [if_neg hb] at h
    have e : res = searchStart args run avgseek n := (Option.some.inj h).symm
    subst e
    exact ⟨rfl, rfl⟩

/-- C12: when the statistic of the first run is at most `X`, the search
returns at once: no other run is made, and the statistics reported are those
of the first run. -/
theorem search_peak_meets (args : gengetopt_args_info) (run : options_t → RunStats)
    (avgseek : Bool) (n x : Int) (fuel : Nat)
    (h : searchStat avgseek n (run (args_to_options args)) ≤ (x : ℚ)) :
    ∃ res, search args run avgseek n x fuel = some res ∧
      res.runs = [args_to_options args] ∧
      res.stats = run (args_to_options args) ∧
      res.nth = searchStat avgseek n (run (args_to_options args)) := by
  refine ⟨searchStart args run avgseek n, ?_, rfl, rfl, rfl⟩
  have hn : ¬ (searchStart args run avgseek n).nth > (x : ℚ) := not_lt.mpr h
  unfold search
  simp only []
  rw [if_neg hn]

theorem search_peak_meets_witness :
    ∃ res, search (plainArgs 1 0) (steadyRun 100 5000) false 95 500 0 = some res ∧
      res.runs = [args_to_options (plainArgs 1 0)] :=
  let ⟨res, h1, h2, _⟩ :=
    search_peak_meets (plainArgs 1 0) (steadyRun 100 5000) false 95 500 0 (by decide!)
  ⟨res, h1, h2⟩

/-! ### What holds when the search returns -/

theorem binaryLoop_succ (args : gengetopt_args_info) (run : options_t → RunStats)
    (avgseek : Bool) (n x : Int) (fuel : Nat) (st : SearchState)
    (hg : binaryGuard st = true) :
    binaryLoop args run avgseek n x (fuel + 1) st =
      binaryLoop args run avgseek n x fuel (binaryStep args run avgseek n x st) := by
  rw [binaryLoop, if_pos hg]

/-- With the oracle `cliffRun 40 10`, once `high_qps = 11` and `low_qps = 10`
the binary-search loop probes 10 again and again and never leaves. -/
theorem binaryLoop_stuck (fuel : Nat) :
    ∀ st : SearchState, st.peak_qps = 40 → st.high_qps = 11 → st.low_qps = 10 →
      1 ≤ st.cur_qps →
      binaryLoop (plainArgs 1 0) (cliffRun 40 10) false 95 500 fuel st = none := by
  induction fuel with
  | zero => intro st _ _ _ _; rfl
  | succ k ih =>
    intro st hp hh hl hc
    have hg : binaryGuard st = true := by
      unfold binaryGuard
      rw [hp, hh, hl]
      have h1 : ((11 : Int) : ℚ) > ((10 : Int) : ℚ) * (102 / 100) := by norm_num
      have h2 : (st.cur_qps : ℚ) > 40 * (1 / 100) := by
        have : (1 : ℚ) ≤ (st.cur_qps : ℚ) := by exact_mod_cast hc
        linarith
      rw [Bool.and_eq_true, decide_eq_true_eq, decide_eq_true_eq]
      exact ⟨h1, h2⟩
    rw [binaryLoop_succ _ _ _ _ _ _ _ hg]
    have hcur : Int.tdiv (wrap32 (st.high_qps + st.low_qps)) 2 = 10 := by
      rw [hh, hl]; decide
    have hopt : (searchOptions (plainArgs 1 0) 10).qps = 10 := rfl
    have hlat : ¬ searchStat false 95
        (cliffRun 40 10 (searchOptions (plainArgs 1 0) 10)) > ((500 : Int) : ℚ) := by
      unfold searchStat cliffRun
      rw [hopt]
      norm_num
    apply ih
    · unfold binaryStep
      simp only [hcur]
      rw [if_neg hlat]
      exact hp
    · unfold binaryStep
      simp only [hcur]
      rw [if_neg hlat]
      exact hh
    · unfold binaryStep
      simp only [hcur]
      rw [if_neg hlat]
    · unfold binaryStep
      simp only [hcur]
      rw [if_neg hlat]
      show (1 : Int) ≤ 10
      decide

/-- C18: the search need not end.  With a peak of 40 and a latency that is
100 up to 10 requests per second and 1000 above, the binary-search loop
reaches `high_qps = 11`, `low_qps = 10` and then probes 10 for ever: no
amount of fuel lets the search return. -/
theorem search_never_returns (fuel : Nat) :
    search (plainArgs 1 0) (cliffRun 40 10) false 95 500 fuel = none := by
  have hstuck : ∀ k : Nat, binaryLoop (plainArgs 1 0) (cliffRun 40 10) false 95 500 (k + 5)
      (searchStart (plainArgs 1 0) (cliffRun 40 10) false 95) = none := by
    intro k
    rw [show k + 5 = k + 4 + 1 from rfl, binaryLoop_succ _ _ _ _ _ _ _ (by decide!),
      show k + 4 = k + 3 + 1 from rfl, binaryLoop_succ _ _ _ _ _ _ _ (by decide!),
      show k + 3 = k + 2 + 1 from rfl, binaryLoop_succ _ _ _ _ _ _ _ (by decide!),
      show k + 2 = k + 1 + 1 from rfl, binaryLoop_succ _ _ _ _ _ _ _ (by decide!),
      binaryLoop_succ _ _ _ _ _ _ _ (by decide!)]
    exact binaryLoop_stuck k _ (by decide!) (by decide!) (by decide!) (by decide!)
  have hb : binaryLoop (plainArgs 1 0) (cliffRun 40 10) false 95 500 fuel
      (searchStart (plainArgs 1 0) (cliffRun 40 10) false 95) = none := by
    cases h : binaryLoop (plainArgs 1 0) (cliffRun 40 10) false 95 500 fuel
        (searchStart (plainArgs 1 0) (cliffRun 40 10) false 95) with
    | none => rfl
    | some st =>
      have e := binaryLoop_mono _ _ _ _ _ fuel _ _ h 5
      rw [hstuck fuel] at e
      exact absurd e (by simp)
  have hbad : (searchStart (plainArgs 1 0) (cliffRun 40 10) false 95).nth > ((500 : Int) : ℚ) := by
    decide!
  unfold search
  simp only []
  rw [if_pos hbad, hb]

/-! ## The `--search` argument -/

theorem searchArg_examples :
    searchArg ['9', '5', ':', '5', '0', '0'] = some (false, 95, 500) ∧
    searchArg ['a', 'v', 'g', ':', '5', '0', '0'] = some (true, 0, 500) ∧
    searchArg ['9', '5'] = none := by
  decide

/-- C17: the average is selected exactly when the N field is a substring of
"avg": besides "avg" itself, the fields "a", "v", "g", "av" and "vg" select the
average too (`strstr("avg", n_ptr)` looks for N inside "avg").  With
`--search v:500` the search uses the average, not the percentile `atoi("v") = 0`. -/
theorem avgseek_substring :
    searchArg ['v', ':', '5', '0', '0'] = some (true, 0, 500) ∧
    ∀ n_ptr : List Char, avgSeek n_ptr = true ↔
      n_ptr ∈ [[], ['a'], ['v'], ['g'], ['a', 'v'], ['v', 'g'], ['a', 'v', 'g']] := by
  refine ⟨by decide, ?_⟩
  intro n_ptr
  rcases n_ptr with _ | ⟨c1, _ | ⟨c2, _ | ⟨c3, _ | ⟨c4, r⟩⟩⟩⟩
  · decide
  · by_cases h1 : c1 = 'a'
    · simp [avgSeek, strstr, startsWith, h1]
    · by_cases h2 : c1 = 'v'
      · simp [avgSeek, strstr, startsWith, h2]
      · by_cases h3 : c1 = 'g'
        · simp [avgSeek, strstr, startsWith, h3]
        · simp [avgSeek, strstr, startsWith, h1, h2, h3, Ne.symm h1, Ne.symm h2, Ne.symm h3]
  · by_cases h1 : c1 = 'a' ∧ c2 = 'v'
    · simp [avgSeek, strstr, startsWith, h1.1, h1.2]
    · by_cases h2 : c1 = 'v' ∧ c2 = 'g'
      · simp [avgSeek, strstr, startsWith, h2.1, h2.2]
      · have h1s : ¬ ('a' = c1 ∧ 'v' = c2) := fun h => h1 ⟨h.1.symm, h.2.symm⟩
        have h2s : ¬ ('v' = c1 ∧ 'g' = c2) := fun h => h2 ⟨h.1.symm, h.2.symm⟩
        simp [avgSeek, strstr, startsWith, h1, h2, h1s, h2s]
  · by_cases h1 : c1 = 'a' ∧ c2 = 'v' ∧ c3 = 'g'
    · simp [avgSeek, strstr, startsWith, h1.1, h1.2.1, h1.2.2]
    · have h1s : ¬ ('a' = c1 ∧ 'v' = c2 ∧ 'g' = c3) :=
        fun h => h1 ⟨h.1.symm, h.2.1.symm, h.2.2.symm⟩
      simp [avgSeek, strstr, startsWith, h1, h1s]
  · simp [avgSeek, strstr, startsWith]

/-! ## Round-robin distribution of the servers -/

theorem rrLoop_spec (servers : List String) (threads : Int) (T : Nat)
    (hT : toU32 threads = T) (hT1 : 1 ≤ T) (hT2 : T < 2147483648)
    (hn : servers.length < 2147483648) :
    ∀ (fuel i : Nat) (acc : List String),
      (if i < servers.length then (servers.length - 1 - i) / T + 1 else 0) < fuel →
      ∃ ts, rrLoop servers threads fuel i acc = some ts ∧
        ts.map some = acc.map some ++
          (List.range (if i < servers.length then (servers.length - 1 - i) / T + 1 else 0)).map
            (fun (k : Nat) => servers.get? (i + k * T)) := by
  intro fuel
  induction fuel with
  | zero => intro i acc h; omega
  | succ f ih =>
    intro i acc h
    by_cases hi : i < servers.length
    · rw [if_pos hi] at h
      rw [if_pos hi]
      have hmod : i % servers.length = i := Nat.mod_eq_of_lt hi
      obtain ⟨srv, hsrv⟩ : ∃ srv, servers.get? i = some srv :=
        ⟨servers.get ⟨i, hi⟩, List.get?_eq_get hi⟩
      have hnext : (i + toU32 threads) % 4294967296 = i + T := by
        rw [hT]; exact Nat.mod_eq_of_lt (by omega)
      have hcnt : (servers.length - 1 - i) / T =
          (if i + T < servers.length then (servers.length - 1 - (i + T)) / T + 1 else 0) := by
        by_cases hlt : i + T < servers.length
        · rw [if_pos hlt]
          have e : servers.length - 1 - i = (servers.length - 1 - (i + T)) + T := by omega
          rw [e, Nat.add_div_right _ (by omega)]
        · rw [if_neg hlt]
          exact Nat.div_eq_of_lt (by omega)
      have hf : (if i + T < servers.length then (servers.length - 1 - (i + T)) / T + 1 else 0)
          < f := by rw [← hcnt]; omega
      obtain ⟨ts, h1, h2⟩ := ih (i + T) (acc ++ [srv]) hf
      refine ⟨ts, ?_, ?_⟩
      · rw [rrLoop, if_pos hi, hmod, hsrv]
        simp only []
        rw [hnext]
        exact h1
      · rw [h2, hcnt, List.range_succ_eq_map, List.map_cons, List.map_map, List.map_append,
          List.append_assoc]
        congr 1
        simp only [List.map_cons, List.map_nil, List.singleton_append, Nat.zero_mul,
          Nat.add_zero, hsrv, List.cons.injEq, true_and]
        apply List.map_congr_left
        intro k _
        simp only [Function.comp_apply, Nat.succ_eq_add_one]
        congr 1
        ring
    · rw [if_neg hi]
      refine ⟨acc, ?_, by simp⟩
      rw [rrLoop, if_neg hi]

theorem rrIndices_mem (n T t j : Nat) (hn : 1 ≤ n) (hT : 1 ≤ T) :
    j ∈ rrIndices n T t ↔ j < n ∧ ∃ k, j = t % n + k * T := by
  have hlt : t % n < n := Nat.mod_lt _ (by omega)
  unfold rrIndices
  simp only [List.mem_map, List.mem_range]
  constructor
  · rintro ⟨k, hk, rfl⟩
    have h1 : k ≤ (n - 1 - t % n) / T := by omega
    have h2 : k * T ≤ n - 1 - t % n := (Nat.le_div_iff_mul_le (by omega)).mp h1
    exact ⟨by omega, k, rfl⟩
  · rintro ⟨hj, k, rfl⟩
    refine ⟨k, ?_, rfl⟩
    have h2 : k * T ≤ n - 1 - t % n := by omega
    have h1 : k ≤ (n - 1 - t % n) / T := (Nat.le_div_iff_mul_le (by omega)).mpr h2
    omega

theorem rrIndices_sorted (n T t : Nat) (hT : 1 ≤ T) :
    (rrIndices n T t).Pairwise (fun a b => a < b) := by
  unfold rrIndices
  rw [List.pairwise_map]
  refine List.Pairwise.imp ?_ (List.pairwise_lt_range _)
  intro a b hab
  have : a * T < b * T := Nat.mul_lt_mul_of_pos_right hab (by omega)
  omega

theorem rrIndices_nodup (n T t : Nat) (hT : 1 ≤ T) : (rrIndices n T t).Nodup :=
  (rrIndices_sorted n T t hT).imp (fun h => Nat.ne_of_lt h)

theorem rrIndices_mem_small (n T t j : Nat) (hn : 1 ≤ n) (hT : 1 ≤ T) (hTn : T ≤ n)
    (ht : t < T) : j ∈ rrIndices n T t ↔ j < n ∧ j % T = t := by
  have htn : t % n = t := Nat.mod_eq_of_lt (by omega)
  rw [rrIndices_mem n T t j hn hT, htn]
  constructor
  · rintro ⟨hj, k, rfl⟩
    exact ⟨hj, by rw [Nat.add_mul_mod_self_right, Nat.mod_eq_of_lt ht]⟩
  · rintro ⟨hj, hm⟩
    refine ⟨hj, j / T, ?_⟩
    have := Nat.mod_add_div j T
    rw [hm, Nat.mul_comm] at this
    exact this.symm

theorem rrIndices_single (n T t : Nat) (hn : 1 ≤ n) (hTn : n < T) :
    rrIndices n T t = [t % n] := by
  have hlt : t % n < n := Nat.mod_lt _ (by omega)
  have h0 : (n - 1 - t % n) / T = 0 := Nat.div_eq_of_lt (by omega)
  unfold rrIndices
  rw [h0]
  simp [List.range_succ]

theorem rrIndices_total (n T : Nat) (hn : 1 ≤ n) (hT : 1 ≤ T) :
    ((List.range T).map (fun (t : Nat) => (rrIndices n T t).length)).sum = max n T := by
  by_cases hTn : n < T
  · have h1 : ∀ t ∈ List.range T, (fun (t : Nat) => (rrIndices n T t).length) t = 1 := by
      intro t _
      simp only [rrIndices_single n T t hn hTn, List.length_singleton]
    rw [List.map_congr_left h1]
    simp only [List.map_const', List.sum_replicate, List.length_range, smul_eq_mul, mul_one]
    omega
  · have hTn2 : T ≤ n := by omega
    have hperm : ((List.range T).flatMap (fun (t : Nat) => rrIndices n T t)).Perm (List.range n) := by
      rw [List.perm_ext_iff_of_nodup]
      · intro j
        simp only [List.mem_flatMap, List.mem_range]
        constructor
        · rintro ⟨t, ht, hj⟩
          exact ((rrIndices_mem_small n T t j hn hT hTn2 ht).mp hj).1
        · intro hj
          exact ⟨j % T, Nat.mod_lt _ (by omega),
            (rrIndices_mem_small n T (j % T) j hn hT hTn2 (Nat.mod_lt _ (by omega))).mpr ⟨hj, rfl⟩⟩
      · rw [List.nodup_flatMap]
        refine ⟨fun t _ => rrIndices_nodup n T t hT, ?_⟩
        refine List.Pairwise.imp_of_mem ?_ (List.nodup_range T)
        intro a b ha hb hab
        rw [List.mem_range] at ha hb
        intro j hja hjb
        have e1 := ((rrIndices_mem_small n T a j hn hT hTn2 ha).mp hja).2
        have e2 := ((rrIndices_mem_small n T b j hn hT hTn2 hb).mp hjb).2
        exact hab (e1.symm.trans e2)
      · exact List.nodup_range n
    have hlen := hperm.length_eq
    rw [List.length_flatMap, List.length_range] at hlen
    have e : (fun (t : Nat) => (rrIndices n T t).length) =
        (List.length ∘ fun (t : Nat) => rrIndices n T t) := rfl
    rw [e, hlen]
    omega

theorem threadServers_rr (servers : List String) (options : options_t) (T t : Nat)
    (hrr : options.roundrobin = true) (hthr : options.threads = (T : Int))
    (hT : 1 ≤ T) (hT2 : T < 2147483648)
    (hn1 : 1 ≤ servers.length) (hn2 : servers.length < 2147483648) :
    ∃ ts, threadServers servers options t = some ts ∧
      ts.map some = (rrIndices servers.length T t).map servers.get? := by
  have hlt : t % servers.length < servers.length := Nat.mod_lt _ (by omega)
  have hU : toU32 options.threads = T := by
    rw [hthr]
    unfold toU32
    rw [Int.emod_eq_of_lt (by omega) (by omega)]
    exact Int.toNat_ofNat T
  have hstart : (t % servers.length) % 4294967296 = t % servers.length :=
    Nat.mod_eq_of_lt (by omega)
  have hdiv : (servers.length - 1 - t % servers.length) / T ≤
      servers.length - 1 - t % servers.length := Nat.div_le_self _ _
  obtain ⟨ts, h1, h2⟩ := rrLoop_spec servers options.threads T hU hT hT2 hn2
    (servers.length + 1) (t % servers.length) []
    (by rw [if_pos hlt]; omega)
  refine ⟨ts, ?_, ?_⟩
  · unfold threadServers
    rw [if_pos hrr, if_neg (by omega), hstart]
    exact h1
  · rw [h2, if_pos hlt]
    unfold rrIndices
    rw [List.map_map]
    rfl

/-- C20: in round-robin mode with `T ≥ 2` threads and `n ≥ 1` servers, worker
`t` receives the servers at the indices `t mod n`, `t mod n + T`, ... below `n`
(in this order), a non-empty list; when `T ≤ n` every server index is in the
list of exactly one worker, the one with `t = j mod T`, once; when `T > n` the
list of worker `t` is the single index `t mod n`; the lists have `max n T`
entries in total. -/
theorem rr_distribution (servers : List String) (options : options_t) (T : Nat)
    (hrr : options.roundrobin = true) (hthr : options.threads = (T : Int))
    (hT : 2 ≤ T) (hT2 : T < 2147483648)
    (hn1 : 1 ≤ servers.length) (hn2 : servers.length < 2147483648) :
    (∀ t, t < T → ∃ ts, threadServers servers options t = some ts ∧
        ts.map some = (rrIndices servers.length T t).map servers.get? ∧
        ts.length = (rrIndices servers.length T t).length ∧ ts ≠ []) ∧
    (∀ t j, j ∈ rrIndices servers.length T t ↔
        j < servers.length ∧ ∃ k, j = t % servers.length + k * T) ∧
    (∀ t, (rrIndices servers.length T t).Pairwise (fun a b => a < b)) ∧
    (T ≤ servers.length → ∀ j, j < servers.length → ∀ t, t < T →
        (rrIndices servers.length T t).count j = if j % T = t then 1 else 0) ∧
    (servers.length < T → ∀ t, t < T → rrIndices servers.length T t = [t % servers.length]) ∧
    ((List.range T).map (fun (t : Nat) => (rrIndices servers.length T t).length)).sum =
      max servers.length T := by
  have hT1 : 1 ≤ T := by omega
  refine ⟨?_, fun t j => rrIndices_mem _ T t j hn1 hT1, fun t => rrIndices_sorted _ T t hT1,
    ?_, fun h t _ => rrIndices_single _ T t hn1 h, rrIndices_total _ T hn1 hT1⟩
  · intro t _
    obtain ⟨ts, h1, h2⟩ := threadServers_rr servers options T t hrr hthr hT1 hT2 hn1 hn2
    have hlen : ts.length = (rrIndices servers.length T t).length := by
      have := congrArg List.length h2
      simpa using this
    refine ⟨ts, h1, h2, hlen, ?_⟩
    intro hnil
    rw [hnil] at hlen
    unfold rrIndices at hlen
    simp at hlen
  · intro hTn j hj t ht
    by_cases hm : j % T = t
    · rw [if_pos hm]
      exact List.count_eq_one_of_mem (rrIndices_nodup _ T t hT1)
        ((rrIndices_mem_small _ T t j hn1 hT1 hTn ht).mpr ⟨hj, hm⟩)
    · rw [if_neg hm]
      exact List.count_eq_zero_of_not_mem
        (fun h => hm ((rrIndices_mem_small _ T t j hn1 hT1 hTn ht).mp h).2)

theorem rr_distribution_witness :
    ∃ ts, threadServers ["a", "b", "c"]
        { args_to_options (plainArgs 3 0) with roundrobin := true, threads := 2 } 0 = some ts ∧
      ts.map some = (rrIndices 3 2 0).map ["a", "b", "c"].get? ∧
      ts.length = (rrIndices 3 2 0).length ∧ ts ≠ [] :=
  (rr_distribution ["a", "b", "c"]
    { args_to_options (plainArgs 3 0) with roundrobin := true, threads := 2 } 2
    rfl rfl (by decide) (by decide) (by decide) (by decide)).1 0 (by decide)

theorem rr_distribution_examples :
    threadServers ["a", "b", "c"]
      { args_to_options (plainArgs 3 0) with roundrobin := true, threads := 2 } 0 =
        some ["a", "c"] ∧
    threadServers ["a", "b", "c"]
      { args_to_options (plainArgs 3 0) with roundrobin := true, threads := 2 } 1 =
        some ["b"] ∧
    threadServers ["a", "b"]
      { args_to_options (plainArgs 2 0) with roundrobin := true, threads := 3 } 2 =
        some ["a"] := by
  decide

/-! ## CPU affinity of the workers -/

theorem scan_cpu (max_cpus cur j : Int) (hmax : 0 < max_cpus) (hmax2 : max_cpus ≤ 1073741824)
    (hc1 : -1 ≤ cur) (hc2 : cur < max_cpus) (hj1 : 0 ≤ j) (hj2 : j < max_cpus) :
    Int.tmod (wrap32 (wrap32 (cur + j) + 1)) max_cpus =
      if cur + j + 1 < max_cpus then cur + j + 1 else cur + j + 1 - max_cpus := by
  have e1 : wrap32 (cur + j) = cur + j := wrap32_of_range (by unfold inInt32; omega)
  have e2 : wrap32 (cur + j + 1) = cur + j + 1 := wrap32_of_range (by unfold inInt32; omega)
  rw [e1, e2, Int.tmod_eq_emod (by omega) (by omega)]
  by_cases h : cur + j + 1 < max_cpus
  · rw [if_pos h]
    exact Int.emod_eq_of_lt (by omega) h
  · rw [if_neg h, Int.emod_eq_sub_self_emod]
    exact Int.emod_eq_of_lt (by omega) (by omega)

theorem affinityScan_spec (max_cpus : Int) (m : Int → Bool) (cur : Int)
    (hmax : 0 < max_cpus) (hmax2 : max_cpus ≤ 1073741824)
    (hc1 : -1 ≤ cur) (hc2 : cur < max_cpus) :
    ∀ (k : Nat) (i : Int), 0 ≤ i → i + (k : Int) = max_cpus →
      (∀ j, 0 ≤ j → j < i →
        m (if cur + j + 1 < max_cpus then cur + j + 1 else cur + j + 1 - max_cpus) = false) →
      (affinityScan max_cpus m cur k i = none ∧
        ∀ j, 0 ≤ j → j < max_cpus →
          m (if cur + j + 1 < max_cpus then cur + j + 1 else cur + j + 1 - max_cpus) = false) ∨
      (∃ i1, 0 ≤ i1 ∧ i1 < max_cpus ∧
        affinityScan max_cpus m cur k i =
          some (if cur + i1 + 1 < max_cpus then cur + i1 + 1 else cur + i1 + 1 - max_cpus) ∧
        m (if cur + i1 + 1 < max_cpus then cur + i1 + 1 else cur + i1 + 1 - max_cpus) = true ∧
        ∀ j, 0 ≤ j → j < i1 →
          m (if cur + j + 1 < max_cpus then cur + j + 1 else cur + j + 1 - max_cpus) = false) := by
  intro k
  induction k with
  | zero =>
    intro i hi hk hprev
    left
    refine ⟨rfl, fun j hj1 hj2 => hprev j hj1 (by omega)⟩
  | succ k ih =>
    intro i hi hk hprev
    have hilt : i < max_cpus := by omega
    have hcpu := scan_cpu max_cpus cur i hmax hmax2 hc1 hc2 hi hilt
    by_cases hm : m (if cur + i + 1 < max_cpus then cur + i + 1 else cur + i + 1 - max_cpus) = true
    · right
      refine ⟨i, hi, hilt, ?_, hm, hprev⟩
      rw [affinityScan, hcpu, if_pos hm]
    · have hw : wrap32 (i + 1) = i + 1 := wrap32_of_range (by unfold inInt32; omega)
      have hstep : affinityScan max_cpus m cur (k + 1) i =
          affinityScan max_cpus m cur k (i + 1) := by
        rw [affinityScan, hcpu, if_neg hm, hw]
      rw [hstep]
      have hprev2 : ∀ j, 0 ≤ j → j < i + 1 →
          m (if cur + j + 1 < max_cpus then cur + j + 1 else cur + j + 1 - max_cpus) = false := by
        intro j hj1 hj2
        by_cases hji : j = i
        · rw [hji]
          simpa using hm
        · exact hprev j hj1 (by omega)
      exact ih (i + 1) (by omega) (by push_cast at hk ⊢; omega) hprev2

theorem affinityScan_next (max_cpus : Int) (m : Int → Bool) (cur : Int)
    (hmax : 0 < max_cpus) (hmax2 : max_cpus ≤ 1073741824)
    (hc1 : -1 ≤ cur) (hc2 : cur < max_cpus)
    (hM : ∀ c, m c = true → 0 ≤ c ∧ c < max_cpus) (hne : ∃ c, m c = true) :
    ∃ c, affinityScan max_cpus m cur max_cpus.toNat 0 = some c ∧ IsNextCpu m cur c := by
  have hidx : ∀ d, m d = true → ∃ j, 0 ≤ j ∧ j < max_cpus ∧
      (if cur + j + 1 < max_cpus then cur + j + 1 else cur + j + 1 - max_cpus) = d ∧
      j = (if cur < d then d - cur - 1 else d - cur - 1 + max_cpus) := by
    intro d hd
    obtain ⟨h1, h2⟩ := hM d hd
    by_cases hlt : cur < d
    · refine ⟨d - cur - 1, by omega, by omega, ?_, by rw [if_pos hlt]⟩
      rw [if_pos (by omega)]
      omega
    · refine ⟨d - cur - 1 + max_cpus, by omega, by omega, ?_, by rw [if_neg hlt]⟩
      rw [if_neg (by omega)]
      omega
  rcases affinityScan_spec max_cpus m cur hmax hmax2 hc1 hc2 max_cpus.toNat 0 (le_refl 0)
    (by rw [Int.toNat_of_nonneg (by omega)]; omega) (fun j h1 h2 => by omega) with
    ⟨_, hnone⟩ | ⟨i1, h1, h2, hres, hm, hmin⟩
  · obtain ⟨c0, hc0⟩ := hne
    obtain ⟨j, hj1, hj2, hj3, _⟩ := hidx c0 hc0
    have := hnone j hj1 hj2
    rw [hj3, hc0] at this
    exact absurd this (by simp)
  · refine ⟨_, hres, hm, ?_⟩
    have hge : ∀ d, m d = true →
        i1 ≤ (if cur < d then d - cur - 1 else d - cur - 1 + max_cpus) := by
      intro d hd
      obtain ⟨j, hj1, hj2, hj3, hj4⟩ := hidx d hd
      by_contra hcon
      have := hmin j hj1 (by omega)
      rw [hj3, hd] at this
      exact absurd this (by simp)
    by_cases hw : cur + i1 + 1 < max_cpus
    · left
      rw [if_pos hw]
      refine ⟨by omega, ?_⟩
      intro d hd hpd
      have := hge d hd
      rw [if_pos hpd] at this
      omega
    · right
      rw [if_neg hw]
      constructor
      · intro d hd
        by_contra hcon
        have := hge d hd
        rw [if_pos (by omega)] at this
        have := (hM d hd).2
        omega
      · intro d hd
        have := hge d hd
        have hb := hM d hd
        by_cases hpd : cur < d
        · rw [if_pos hpd] at this
          omega
        · rw [if_neg hpd] at this
          omega

theorem pinLoop_spec (max_cpus : Int) (m setOk : Int → Bool)
    (hmax : 0 < max_cpus) (hmax2 : max_cpus ≤ 1073741824)
    (hM : ∀ c, m c = true → 0 ≤ c ∧ c < max_cpus) (hne : ∃ c, m c = true)
    (hset : ∀ c, m c = true → setOk c = true) :
    ∀ (k : Nat) (cur : Int), -1 ≤ cur → cur < max_cpus →
      ∃ cpus : List Int, pinLoop max_cpus m setOk k cur = some (cpus.map some) ∧
        cpus.length = k ∧ (∀ c ∈ cpus, m c = true) ∧ List.Chain (IsNextCpu m) cur cpus := by
  intro k
  induction k with
  | zero =>
    intro cur _ _
    exact ⟨[], rfl, rfl, by simp, List.Chain.nil⟩
  | succ k ih =>
    intro cur hc1 hc2
    obtain ⟨c, hscan, hnext⟩ := affinityScan_next max_cpus m cur hmax hmax2 hc1 hc2 hM hne
    have hb := hM c hnext.1
    obtain ⟨cpus, h1, h2, h3, h4⟩ := ih c (by omega) hb.2
    refine ⟨c :: cpus, ?_, by simp [h2], ?_, List.Chain.cons hnext h4⟩
    · rw [pinLoop, hscan]
      simp only []
      rw [if_pos (hset c hnext.1), h1]
      rfl
    · intro d hd
      rcases List.mem_cons.mp hd with rfl | hd
      · exact hnext.1
      · exact h3 d hd

/-- C16, as stated, fails: with `--affinity`, the default `--threads 1` and the
mask {0, 1, 2, 3}, the single worker is not pinned. -/
theorem single_worker_not_pinned :
    goPins true (args_to_options (plainArgs 1 0)) 1024
      (fun c => decide (0 ≤ c ∧ c < 4)) (fun _ => true) = some [none] := by
  decide

/-- C16 (amended): with `--affinity`, at least two threads, a non-empty
inherited mask M of CPUs below `max_cpus = 8 * sizeof(cpu_set_t)` and
`pthread_attr_setaffinity_np` succeeding on the CPUs of M, every worker is
pinned to exactly one CPU, which belongs to M: worker 0 to the smallest CPU of
M, each following worker to the smallest CPU of M strictly greater than the
CPU of the previous worker, or to the smallest CPU of M when there is none. -/
theorem affinity_pinning (options : options_t) (max_cpus : Int) (m setOk : Int → Bool)
    (T : Nat) (hthr : options.threads = (T : Int)) (hT : 2 ≤ T)
    (hmax : 0 < max_cpus) (hmax2 : max_cpus ≤ 1073741824)
    (hM : ∀ c, m c = true → 0 ≤ c ∧ c < max_cpus) (hne : ∃ c, m c = true)
    (hset : ∀ c, m c = true → setOk c = true) :
    ∃ cpus : List Int, goPins true options max_cpus m setOk = some (cpus.map some) ∧
      cpus.length = T ∧ (∀ c ∈ cpus, m c = true) ∧
      (∀ c, cpus.head? = some c → IsLeastCpu m c) ∧
      List.Chain' (IsNextCpu m) cpus := by
  obtain ⟨cpus, h1, h2, h3, h4⟩ :=
    pinLoop_spec max_cpus m setOk hmax hmax2 hM hne hset T (-1) (le_refl _) (by omega)
  refine ⟨cpus, ?_, h2, h3, ?_, ?_⟩
  · unfold goPins
    rw [if_pos (by rw [hthr]; omega), if_pos rfl, hthr, Int.toNat_ofNat]
    exact h1
  · intro c hc
    cases cpus with
    | nil => simp at hc
    | cons c0 rest =>
      simp only [List.head?_cons, Option.some.injEq] at hc
      subst hc
      rw [List.chain_cons] at h4
      refine ⟨h4.1.1, ?_⟩
      rcases h4.1.2 with ⟨_, hmin⟩ | ⟨_, hmin⟩
      · intro d hd
        exact hmin d hd (by have := (hM d hd).1; omega)
      · exact hmin
  · cases cpus with
    | nil => exact List.chain'_nil
    | cons c0 rest =>
      rw [List.chain_cons] at h4
      exact h4.2

theorem affinity_pinning_witness :
    ∃ cpus : List Int,
      goPins true { args_to_options (plainArgs 1 0) with threads := 3 } 1024
        (fun c => decide (c = 2 ∨ c = 5)) (fun _ => true) = some (cpus.map some) ∧
      cpus.length = 3 ∧ (∀ c ∈ cpus, (fun c => decide (c = 2 ∨ c = 5)) c = true) ∧
      (∀ c, cpus.head? = some c → IsLeastCpu (fun c => decide (c = 2 ∨ c = 5)) c) ∧
      List.Chain' (IsNextCpu (fun c => decide (c = 2 ∨ c = 5))) cpus :=
  affinity_pinning { args_to_options (plainArgs 1 0) with threads := 3 } 1024
    (fun c => decide (c = 2 ∨ c = 5)) (fun _ => true) 3 rfl (by decide) (by decide) (by decide)
    (fun c h => by simp only [decide_eq_true_eq] at h; omega) ⟨2, by decide⟩ (fun _ _ => rfl)

theorem goPins_example :
    goPins true { args_to_options (plainArgs 1 0) with threads := 3 } 1024
      (fun c => decide (c = 2 ∨ c = 5)) (fun _ => true) = some [some 2, some 5, some 2] := by
  decide!

/-! ## The active set only shrinks -/

theorem eraseFold_sublist {σ α : Type} (body : σ → α → σ × Bool) :
    ∀ (l : List α) (st : σ), (eraseFold body st l).2.Sublist l := by
  intro l
  induction l with
  | nil => intro st; simp [eraseFold]
  | cons s rest ih =>
    intro st
    simp only [eraseFold]
    split_ifs
    · exact (ih _).cons s
    · exact (ih _).cons₂ s

theorem prep_agent_sublist (args : gengetopt_args_info) (env : PrepEnv)
    (servers : List String) (o : options_t) (agents : List Sock) (r : PrepResult)
    (h : prep_agent args env servers o agents = some r) :
    r.agent_sockets.Sublist agents := by
  simp only [prep_agent, eraseLoop_eq_fold, Option.some.injEq] at h
  subst h
  exact (eraseFold_sublist _ _ _).trans (eraseFold_sublist _ _ _)

theorem sync_agent_sublist (args : gengetopt_args_info) (env : SyncEnv) (socket : Sock)
    (agents : List Sock) (r : SyncResult)
    (h : sync_agent args env socket agents = some r) :
    r.agent_sockets.Sublist agents := by
  by_cases hm : args.agent_given ≠ 0
  · rw [sync_agent_master args env socket agents hm] at h
    rw [← Option.some.inj h]
    exact (List.filter_sublist _).trans (List.filter_sublist _)
  · by_cases ha : args.agentmode_given = true
    · simp only [sync_agent, if_neg hm, if_pos ha] at h
      rw [← Option.some.inj h]
    · simp only [sync_agent, if_neg hm, if_neg ha] at h
      rw [← Option.some.inj h]

theorem syncBlock_sublist (args : gengetopt_args_info) (env : SyncEnv) (master : Bool)
    (socket : Sock) (p : Phase) (agents : List Sock) (steps : List Step) (socks : List Sock)
    (died : Bool) (h : syncBlock args env master socket p agents = some (steps, socks, died)) :
    socks.Sublist agents := by
  unfold syncBlock at h
  split_ifs at h with h1 h2
  · cases hs : sync_agent args env socket agents with
    | none => rw [hs] at h; simp at h
    | some r =>
      rw [hs] at h
      have hsub := sync_agent_sublist args env socket agents r hs
      simp only [] at h
      split_ifs at h
      · simp only [Option.some.injEq, Prod.mk.injEq] at h
        rw [← h.2.1]; exact hsub
      · simp only [Option.some.injEq, Prod.mk.injEq] at h
        rw [← h.2.1]; exact hsub
  · simp only [Option.some.injEq, Prod.mk.injEq] at h
    rw [← h.2.1]
  · simp only [Option.some.injEq, Prod.mk.injEq] at h
    rw [← h.2.1]

theorem do_mcperf_sublist (args : gengetopt_args_info) (envW envM : SyncEnv)
    (servers : List String) (options : options_t) (master : Bool) (socket : Sock)
    (agents : List Sock) :
    ∃ run, do_mcperf args envW envM servers options master socket agents = some run ∧
      run.agent_sockets.Sublist agents := by
  unfold do_mcperf
  simp only []
  by_cases hl : options.loadonly = true
  · rw [if_pos hl]
    exact ⟨_, rfl, List.Sublist.refl _⟩
  · rw [if_neg hl]
    by_cases hw : options.warmup > 0
    · rw [if_pos hw]
      obtain ⟨st1, so1, d1, h1, _⟩ :=
        syncBlock_spec args envW master socket Phase.warmup agents
      have s1 := syncBlock_sublist args envW master socket Phase.warmup agents st1 so1 d1 h1
      rw [h1]
      cases d1
      · obtain ⟨st2, so2, d2, h2, _⟩ :=
          syncBlock_spec args envM master socket Phase.measure so1
        have s2 := syncBlock_sublist args envM master socket Phase.measure so1 st2 so2 d2 h2
        simp only [Bool.false_eq_true, if_false, h2]
        exact ⟨_, rfl, s2.trans s1⟩
      · simp only [if_true]
        exact ⟨_, rfl, s1⟩
    · rw [if_neg hw]
      obtain ⟨st2, so2, d2, h2, _⟩ :=
        syncBlock_spec args envM master socket Phase.measure agents
      have s2 := syncBlock_sublist args envM master socket Phase.measure agents st2 so2 d2 h2
      simp only [h2]
      exact ⟨_, rfl, s2⟩

/-! ## Finish: the merged statistics -/

theorem finishLoop_counters (env : FinishEnv) :
    ∀ (l : List Sock) (stats : ConnectionStats) (tr : List Event),
      (finishLoop env l stats tr).1.gets =
        stats.gets + (l.map (fun s => (env.statsReply s).2.gets)).sum ∧
      (finishLoop env l stats tr).1.sets =
        stats.sets + (l.map (fun s => (env.statsReply s).2.sets)).sum ∧
      (finishLoop env l stats tr).1.get_misses =
        stats.get_misses + (l.map (fun s => (env.statsReply s).2.get_misses)).sum ∧
      (finishLoop env l stats tr).1.skips =
        stats.skips + (l.map (fun s => (env.statsReply s).2.skips)).sum ∧
      (finishLoop env l stats tr).1.rx_bytes =
        stats.rx_bytes + (l.map (fun s => (env.statsReply s).2.rx_bytes)).sum ∧
      (finishLoop env l stats tr).1.tx_bytes =
        stats.tx_bytes + (l.map (fun s => (env.statsReply s).2.tx_bytes)).sum := by
  intro l
  induction l with
  | nil => intro stats tr; simp [finishLoop]
  | cons s rest ih =>
    intro stats tr
    obtain ⟨h1, h2, h3, h4, h5, h6⟩ := ih (stats.accumulate (env.statsReply s).2)
      (tr ++ [Event.send s (Msg.str "stats") (env.sendOk s (Msg.str "stats")),
              Event.recv s (if (env.statsReply s).1 then some (Msg.stats (env.statsReply s).2)
                else none)])
    simp only [finishLoop, List.map_cons, List.sum_cons]
    rw [h1, h2, h3, h4, h5, h6]
    simp only [ConnectionStats.accumulate]
    omega

theorem prep_agent_total (args : gengetopt_args_info) (env : PrepEnv)
    (servers : List String) (o : options_t) (agents : List Sock) :
    ∃ r, prep_agent args env servers o agents = some r := by
  simp only [prep_agent, eraseLoop_eq_fold]
  exact ⟨_, rfl⟩

theorem threadServers_total (servers : List String) (options : options_t) (t : Nat)
    (hthr : 1 ≤ options.threads)
    (hrr : options.roundrobin = true →
      1 ≤ servers.length ∧ servers.length < 2147483648 ∧ options.threads < 2147483648) :
    ∃ ts, threadServers servers options t = some ts := by
  by_cases h : options.roundrobin = true
  · obtain ⟨h1, h2, h3⟩ := hrr h
    obtain ⟨ts, hts, _⟩ := threadServers_rr servers options options.threads.toNat t h
      (by rw [Int.toNat_of_nonneg (by omega)]) (by omega) (by omega) h1 h2
    exact ⟨ts, hts⟩
  · exact ⟨servers, by unfold threadServers; rw [if_neg h]⟩

theorem spawnThreads_total (args : gengetopt_args_info) (envW envM : SyncEnv)
    (servers : List String) (options : options_t) (socket : Sock) (agents : List Sock)
    (hts : ∀ t, ∃ ts, threadServers servers options t = some ts) :
    ∀ (k t : Nat), ∃ runs,
      spawnThreads args envW envM servers options socket agents k t = some runs ∧
      runs.length = k ∧ ∀ r ∈ runs, r.agent_sockets.Sublist agents := by
  intro k
  induction k with
  | zero => intro t; exact ⟨[], rfl, rfl, by simp⟩
  | succ k ih =>
    intro t
    obtain ⟨ts, h1⟩ := hts t
    obtain ⟨r, h2, hs⟩ :=
      do_mcperf_sublist args envW envM ts options (decide (t = 0)) socket agents
    obtain ⟨rs, h3, h4, h5⟩ := ih (t + 1)
    refine ⟨r :: rs, ?_, by simp [h4], ?_⟩
    swap
    · intro x hx
      rcases List.mem_cons.mp hx with rfl | hx
      · exact hs
      · exact h5 x hx
    rw [spawnThreads, h1]
    simp only []
    rw [h2]
    simp only []
    rw [h3]

theorem go_prep_total (args : gengetopt_args_info) (penv : PrepEnv) (servers : List String)
    (o : options_t) (agents : List Sock) :
    ∃ pr, (if args.agent_given > 0 then prep_agent args penv servers o agents
        else some { options := o, agent_sockets := agents, trace := [] }) = some pr ∧
      pr.options.threads = o.threads ∧ pr.options.roundrobin = o.roundrobin ∧
      pr.agent_sockets.Sublist agents := by
  by_cases hg : args.agent_given > 0
  · rw [if_pos hg]
    obtain ⟨pr, hpr⟩ := prep_agent_total args penv servers o agents
    obtain ⟨h1, h2, _⟩ := prep_agent_keeps args penv servers o agents pr hpr
    exact ⟨pr, hpr, h1, h2, prep_agent_sublist args penv servers o agents pr hpr⟩
  · rw [if_neg hg]
    exact ⟨_, rfl, rfl, rfl, List.Sublist.refl _⟩

theorem go_total (args : gengetopt_args_info) (penv : PrepEnv) (envW envM : SyncEnv)
    (fenv : FinishEnv) (ws : ConnectionStats) (servers : List String) (o : options_t)
    (socket : Sock) (agents : List Sock)
    (hrr : o.roundrobin = true →
      1 ≤ servers.length ∧ servers.length < 2147483648 ∧ o.threads < 2147483648) :
    ∃ r, go args penv envW envM fenv ws servers o socket agents = some r ∧
      r.agent_sockets.Sublist agents ∧
      (r.died = false → args.agent_given > 0 →
        r.stats = (finishLoop fenv r.agent_sockets ws []).1 ∧
        r.finishTrace = (finishLoop fenv r.agent_sockets ws []).2) := by
  obtain ⟨pr, hpr, hthr, hrr2, hsub⟩ := go_prep_total args penv servers o agents
  unfold go
  simp only [hpr]
  by_cases h1 : pr.options.threads > 1
  · rw [if_pos h1]
    have hts : ∀ t, ∃ ts, threadServers servers pr.options t = some ts := fun t =>
      threadServers_total servers pr.options t (by omega)
        (fun h => by rw [hthr]; exact hrr (by rw [← hrr2]; exact h))
    obtain ⟨runs, hruns, hlen, hall⟩ := spawnThreads_total args envW envM servers pr.options
      socket pr.agent_sockets hts pr.options.threads.toNat 0
    rw [hruns]
    cases runs with
    | nil =>
      simp only [List.length_nil] at hlen
      omega
    | cons r0 rs =>
      have hs0 : r0.agent_sockets.Sublist agents :=
        (hall r0 (List.mem_cons_self _ _)).trans hsub
      simp only []
      cases r0.died
      · simp only []
        by_cases hg : args.agent_given > 0
        · rw [if_pos hg]
          exact ⟨_, rfl, hs0, fun _ _ => ⟨rfl, rfl⟩⟩
        · rw [if_neg hg]
          exact ⟨_, rfl, hs0, fun _ h => absurd h hg⟩
      · exact ⟨_, rfl, hs0, fun h _ => by simp at h⟩
  · rw [if_neg h1]
    by_cases h2 : pr.options.threads = 1
    · rw [if_pos h2]
      obtain ⟨r, hr, hs1⟩ :=
        do_mcperf_sublist args envW envM servers pr.options true socket pr.agent_sockets
      have hs0 : r.agent_sockets.Sublist agents := hs1.trans hsub
      rw [hr]
      simp only []
      cases r.died
      · simp only []
        by_cases hg : args.agent_given > 0
        · rw [if_pos hg]
          exact ⟨_, rfl, hs0, fun _ _ => ⟨rfl, rfl⟩⟩
        · rw [if_neg hg]
          exact ⟨_, rfl, hs0, fun _ h => absurd h hg⟩
      · exact ⟨_, rfl, hs0, fun h _ => by simp at h⟩
    · rw [if_neg h2]
      by_cases h3 : args.agent_given ≠ 0
      · rw [if_pos h3]
        obtain ⟨r, hr, _⟩ := sync_agent_total args envM socket pr.agent_sockets
        have hs0 : r.agent_sockets.Sublist agents :=
          (sync_agent_sublist args envM socket pr.agent_sockets r hr).trans hsub
        rw [hr]
        simp only []
        by_cases he : r.errors > 0
        · rw [decide_eq_true he]
          exact ⟨_, rfl, hs0, fun h _ => by simp at h⟩
        · rw [decide_eq_false he]
          simp only []
          have hg : args.agent_given > 0 := Nat.pos_of_ne_zero h3
          rw [if_pos hg]
          exact ⟨_, rfl, hs0, fun _ _ => ⟨rfl, rfl⟩⟩
      · rw [if_neg h3]
        simp only []
        have hg : ¬ args.agent_given > 0 := by omega
        rw [if_neg hg]
        exact ⟨_, rfl, hsub, fun _ h => absurd h hg⟩

/-- C15: `go` on a master with agents returns (in round-robin mode: with at
least one server), and when it did not end in `DIE`, every agent of the active
set having answered the "stats" request with the copy of its own
`ConnectionStats`, each counter of the master's statistics is the counter
accumulated by the master's workers plus the sum, over the active set, of the
agent's counter, each entry of the active set counted once; the active set is a
sublist of the agents configured. -/
theorem finish_merges_counters (args : gengetopt_args_info) (penv : PrepEnv)
    (envW envM : SyncEnv) (fenv : FinishEnv) (ws : ConnectionStats) (servers : List String)
    (o : options_t) (socket : Sock) (agents : List Sock) (conn : Sock → ConnectionStats)
    (hag : args.agent_given > 0)
    (hrr : o.roundrobin = true →
      1 ≤ servers.length ∧ servers.length < 2147483648 ∧ o.threads < 2147483648)
    (hans : ∀ s ∈ agents, fenv.statsReply s = (true, agent_stats (conn s))) :
    ∃ r, go args penv envW envM fenv ws servers o socket agents = some r ∧
      r.agent_sockets.Sublist agents ∧
      (r.died = false →
        r.stats.gets = ws.gets + (r.agent_sockets.map (fun s => (conn s).gets)).sum ∧
        r.stats.sets = ws.sets + (r.agent_sockets.map (fun s => (conn s).sets)).sum ∧
        r.stats.get_misses =
          ws.get_misses + (r.agent_sockets.map (fun s => (conn s).get_misses)).sum ∧
        r.stats.skips = ws.skips + (r.agent_sockets.map (fun s => (conn s).skips)).sum ∧
        r.stats.rx_bytes = ws.rx_bytes + (r.agent_sockets.map (fun s => (conn s).rx_bytes)).sum ∧
        r.stats.tx_bytes =
          ws.tx_bytes + (r.agent_sockets.map (fun s => (conn s).tx_bytes)).sum) := by
  obtain ⟨r, hr, hsub, hfin⟩ :=
    go_total args penv envW envM fenv ws servers o socket agents hrr
  refine ⟨r, hr, hsub, ?_⟩
  intro hd
  obtain ⟨hst, _⟩ := hfin hd hag
  obtain ⟨h1, h2, h3, h4, h5, h6⟩ := finishLoop_counters fenv r.agent_sockets ws []
  have hmap : ∀ (f : AgentStats → Nat) (g : ConnectionStats → Nat),
      (∀ c, f (agent_stats c) = g c) →
      r.agent_sockets.map (fun s => f (fenv.statsReply s).2) =
        r.agent_sockets.map (fun s => g (conn s)) := by
    intro f g hfg
    apply List.map_congr_left
    intro s hs
    rw [hans s (hsub.subset hs)]
    exact hfg _
  rw [hst, h1, h2, h3, h4, h5, h6,
    hmap (fun a => a.gets) (fun c => c.gets) (fun _ => rfl),
    hmap (fun a => a.sets) (fun c => c.sets) (fun _ => rfl),
    hmap (fun a => a.get_misses) (fun c => c.get_misses) (fun _ => rfl),
    hmap (fun a => a.skips) (fun c => c.skips) (fun _ => rfl),
    hmap (fun a => a.rx_bytes) (fun c => c.rx_bytes) (fun _ => rfl),
    hmap (fun a => a.tx_bytes) (fun c => c.tx_bytes) (fun _ => rfl)]
  exact ⟨rfl, rfl, rfl, rfl, rfl, rfl⟩

theorem finish_merges_counters_witness :
    ∃ r, go (masterArgs 2) (answeringEnv (fun _ => duoAgentArgs)) calmSync calmSync
        (agentFinish (fun s => someStats (s + 1) s)) (someStats 5 5) ["a"]
        (args_to_options (masterArgs 2)) 0 [0, 1] = some r ∧
      r.agent_sockets.Sublist [0, 1] ∧
      (r.died = false →
        r.stats.gets = (someStats 5 5).gets +
          (r.agent_sockets.map (fun s => (someStats (s + 1) s).gets)).sum ∧
        r.stats.sets = (someStats 5 5).sets +
          (r.agent_sockets.map (fun s => (someStats (s + 1) s).sets)).sum) :=
  let ⟨r, h1, h2, h3⟩ := finish_merges_counters (masterArgs 2)
    (answeringEnv (fun _ => duoAgentArgs)) calmSync calmSync
    (agentFinish (fun s => someStats (s + 1) s)) (someStats 5 5) ["a"]
    (args_to_options (masterArgs 2)) 0 [0, 1] (fun s => someStats (s + 1) s)
    (by decide) (fun h => absurd h (by decide)) (fun _ _ => rfl)
  ⟨r, h1, h2, fun hd => ⟨(h3 hd).1, (h3 hd).2.1⟩⟩

theorem finish_example :
    (go (masterArgs 2) (answeringEnv (fun _ => duoAgentArgs)) calmSync calmSync
        (agentFinish (fun s => someStats (s + 1) s)) (someStats 5 5) ["a"]
        (args_to_options (masterArgs 2)) 0 [0, 1]).map
      (fun r => (r.died, r.agent_sockets, r.stats.gets, r.stats.sets, r.stats.rx_bytes)) =
      some (false, [0, 1], 8, 6, 800) := by
  decide!

/-! ## The schedules of master and agent -/

theorem recvFrom_append (s : Sock) (a b : List Event) :
    recvFrom s (a ++ b) = recvFrom s a ++ recvFrom s b := by
  simp [recvFrom]

theorem recvFrom_flatMap (s : Sock) (ev : Sock → List Event)
    (hother : ∀ s1, s1 ≠ s → recvFrom s (ev s1) = []) :
    ∀ (l : List Sock), l.Nodup →
      recvFrom s (l.flatMap ev) = if s ∈ l then recvFrom s (ev s) else [] := by
  intro l
  induction l with
  | nil => intro _; simp [recvFrom]
  | cons s1 rest ih =>
    intro hnd
    have hnd2 := List.nodup_cons.mp hnd
    rw [List.flatMap_cons, recvFrom_append, ih hnd2.2]
    by_cases h : s1 = s
    · subst h
      simp [hnd2.1]
    · have h2 : ¬ s = s1 := fun e => h e.symm
      simp [hother s1 h, h2]

theorem sendServers_recv_other (env : PrepEnv) (s s1 : Sock) (h : s1 ≠ s) :
    ∀ (l : List String) (i : Nat), recvFrom s (sendServers env s1 l i []).1 = [] := by
  intro l
  induction l with
  | nil => intro i; rfl
  | cons srv rest ih =>
    intro i
    simp only [sendServers]
    split_ifs
    · simp [recvFrom, h]
    · rw [sendServers_append, recvFrom_append, ih]
      simp [recvFrom, h]

theorem sendServers_recv_self (env : PrepEnv) (s : Sock) :
    ∀ (l : List String) (i : Nat),
      (∀ j, j < l.length → s_recv (env.srvReply s (i + j)) ≠ "FAIL-RECV") →
      (sendServers env s l i []).2 = false ∧
      recvFrom s (sendServers env s l i []).1 =
        (List.range l.length).map (fun (j : Nat) => (env.srvReply s (i + j)).map Msg.str) := by
  intro l
  induction l with
  | nil => intro i _; exact ⟨rfl, rfl⟩
  | cons srv rest ih =>
    intro i hok
    have h0 : s_recv (env.srvReply s i) ≠ "FAIL-RECV" := by
      have := hok 0 (by simp)
      simpa using this
    have hrest : ∀ j, j < rest.length → s_recv (env.srvReply s (i + 1 + j)) ≠ "FAIL-RECV" := by
      intro j hj
      have := hok (j + 1) (by simp [hj])
      rw [show i + (j + 1) = i + 1 + j by omega] at this
      exact this
    obtain ⟨k1, k2⟩ := ih (i + 1) hrest
    simp only [sendServers, if_neg h0, List.nil_append]
    rw [sendServers_append]
    refine ⟨k1, ?_⟩
    simp only []
    rw [recvFrom_append, k2, List.length_cons, List.range_succ_eq_map, List.map_cons,
      List.map_map]
    simp only [recvFrom, List.flatMap_cons, List.flatMap_nil, if_true, List.nil_append,
      List.append_nil, Nat.add_zero, List.singleton_append, List.cons.injEq, true_and]
    apply List.map_congr_left
    intro j _
    simp only [Function.comp_apply, Nat.succ_eq_add_one]
    rw [show i + (j + 1) = i + 1 + j by omega]

theorem prepBody_recv_other (env : PrepEnv) (servers : List String) (o : options_t)
    (s s1 : Sock) (h : s1 ≠ s) :
    recvFrom s (prepBody env servers o (0, []) s1).1.2 = [] := by
  simp only [prepBody]
  cases env.numReply s1 with
  | none => simp [recvFrom, h]
  | some n =>
    simp only []
    rw [sendServers_append, recvFrom_append, sendServers_recv_other env s s1 h]
    simp [recvFrom, h]

theorem prepBody_recv_self (env : PrepEnv) (servers : List String) (o : options_t) (s : Sock)
    (hnum : (env.numReply s).isSome = true)
    (hsrv : ∀ i, i < servers.length → s_recv (env.srvReply s i) ≠ "FAIL-RECV") :
    (prepBody env servers o (0, []) s).2 = false ∧
    recvFrom s (prepBody env servers o (0, []) s).1.2 =
      (env.numReply s).map Msg.num ::
        (List.range servers.length).map (fun (i : Nat) => (env.srvReply s i).map Msg.str) := by
  obtain ⟨k1, k2⟩ := sendServers_recv_self env s servers 0
    (fun j hj => by rw [Nat.zero_add]; exact hsrv j hj)
  simp only [prepBody]
  cases hn : env.numReply s with
  | none => rw [hn] at hnum; simp at hnum
  | some n =>
    simp only []
    rw [sendServers_append]
    refine ⟨k1, ?_⟩
    simp only []
    rw [recvFrom_append, k2]
    simp [recvFrom]

theorem denomBody_recv_other (env : PrepEnv) (d : Int) (s s1 : Sock) (h : s1 ≠ s) :
    recvFrom s (denomBody env d [] s1).1 = [] := by
  simp [denomBody, recvFrom, h]

theorem prep_agent_shape (args : gengetopt_args_info) (env : PrepEnv)
    (servers : List String) (o : options_t) (agents : List Sock) :
    ∃ (r : PrepResult) (o1 : options_t) (sum2 : Int),
      prep_agent args env servers o agents = some r ∧
      o1.server_given = o.server_given ∧ o1.roundrobin = o.roundrobin ∧
      o1.loadonly = o.loadonly ∧ o1.warmup = o.warmup ∧
      r.options.loadonly = o.loadonly ∧ r.options.warmup = o.warmup ∧
      r.options.lambda_denom =
        (eraseFold (prepBody env servers o1) (sum2, []) agents).1.1 ∧
      r.agent_sockets =
        (eraseFold (denomBody env
          (eraseFold (prepBody env servers o1) (sum2, []) agents).1.1)
          (eraseFold (prepBody env servers o1) (sum2, []) agents).1.2
          (eraseFold (prepBody env servers o1) (sum2, []) agents).2).2 ∧
      r.trace =
        (eraseFold (denomBody env
          (eraseFold (prepBody env servers o1) (sum2, []) agents).1.1)
          (eraseFold (prepBody env servers o1) (sum2, []) agents).1.2
          (eraseFold (prepBody env servers o1) (sum2, []) agents).2).1 := by
  simp only [prep_agent, eraseLoop_eq_fold]
  refine ⟨_,
    (if args.measure_qps_given = true ∧ o.qps ≠ 0 then
      { o with qps := wrap32 (o.qps - args.measure_qps_arg) } else o),
    (if args.measure_qps_given = true then 0
     else if args.measure_connections_given = true then
       wrap32 (wrap32 (args.measure_connections_arg * o.server_given) * o.threads)
     else o.lambda_denom), rfl, ?_, ?_, ?_, ?_, ?_, ?_, ?_, rfl, rfl⟩
  all_goals (split_ifs <;> rfl)

theorem prep_agent_channel (args : gengetopt_args_info) (env : PrepEnv)
    (servers : List String) (o : options_t) (agents : List Sock)
    (hnd : agents.Nodup)
    (hans : ∀ s ∈ agents, (env.numReply s).isSome = true ∧
      (∀ i, i < servers.length → s_recv (env.srvReply s i) ≠ "FAIL-RECV") ∧
      s_recv (env.denomReply s) ≠ "FAIL-RECV") :
    ∃ (r : PrepResult) (o1 : options_t), prep_agent args env servers o agents = some r ∧
      o1.server_given = o.server_given ∧ o1.roundrobin = o.roundrobin ∧
      o1.loadonly = o.loadonly ∧ o1.warmup = o.warmup ∧
      r.agent_sockets = agents ∧
      r.options.loadonly = o.loadonly ∧ r.options.warmup = o.warmup ∧
      ∀ s ∈ agents,
        sentTo s r.trace =
          Msg.blob o1 :: servers.map Msg.str ++ [Msg.num r.options.lambda_denom] ∧
        recvFrom s r.trace =
          (env.numReply s).map Msg.num ::
            (List.range servers.length).map (fun (i : Nat) => (env.srvReply s i).map Msg.str) ++
            [(env.denomReply s).map Msg.str] := by
  obtain ⟨r, o1, sum2, hr, e1, e2, e3, e4, hlo, hwu, hd, hsocks, htr⟩ :=
    prep_agent_shape args env servers o agents
  obtain ⟨p1, _, _, _⟩ := prepFold_all env servers o1 agents sum2 []
    (fun s hs => ⟨(hans s hs).1, (hans s hs).2.1⟩)
  have t1 := eraseFold_trace (prepBody env servers o1) (fun st => st.2)
    (fun s => (prepBody env servers o1 (0, []) s).1.2)
    (fun st s => (prepBody_append env servers o1 st s).1) agents (sum2, [])
  rw [← hd] at hsocks htr
  generalize (eraseFold (prepBody env servers o1) (sum2, []) agents) = F1 at *
  rw [p1] at hsocks htr
  obtain ⟨d1, _, _, _⟩ := denomFold_all env r.options.lambda_denom agents F1.1.2
    (fun s hs => (hans s hs).2.2)
  have t2 := eraseFold_trace (denomBody env r.options.lambda_denom) (fun tr => tr)
    (fun s => (denomBody env r.options.lambda_denom [] s).1)
    (fun tr s => by simp [denomBody]) agents F1.1.2
  simp only [] at t1 t2
  have hkeep : r.agent_sockets = agents := by rw [hsocks, d1]
  refine ⟨r, o1, hr, e1, e2, e3, e4, hkeep, hlo, hwu, ?_⟩
  intro s hs
  obtain ⟨b1, b2⟩ := prepBody_recv_self env servers o1 s (hans s hs).1 (hans s hs).2.1
  constructor
  · rw [htr, t2, t1, List.nil_append, sentTo_append,
      sentTo_flatMap s _ (fun s1 h => prepBody_other env servers o1 s s1 h) agents hnd,
      sentTo_flatMap s _ (fun s1 h => denomBody_other env _ s s1 h) agents hnd,
      if_pos hs, if_pos hs, prepBody_self env servers o1 s b1]
    simp [denomBody, sentTo]
  · rw [htr, t2, t1, List.nil_append, recvFrom_append,
      recvFrom_flatMap s _ (fun s1 h => prepBody_recv_other env servers o1 s s1 h) agents hnd,
      recvFrom_flatMap s _ (fun s1 h => denomBody_recv_other env _ s s1 h) agents hnd,
      if_pos hs, if_pos hs, b2]
    simp [denomBody, recvFrom]

theorem sentTo_sends (s : Sock) (m : Msg) (st : Sock → Bool) :
    ∀ (l : List Sock), l.Nodup →
      sentTo s (l.map (fun s1 => Event.send s1 m (st s1))) = if s ∈ l then [m] else [] := by
  intro l
  induction l with
  | nil => intro _; rfl
  | cons s1 rest ih =>
    intro hnd
    have hnd2 := List.nodup_cons.mp hnd
    simp only [List.map_cons, sentTo, ih hnd2.2]
    by_cases h : s1 = s
    · subst h
      simp [hnd2.1]
    · have h2 : ¬ s = s1 := fun e => h e.symm
      simp [h, h2]

theorem sentTo_recvs (s : Sock) (f : Sock → Option Msg) (l : List Sock) :
    sentTo s (l.map (fun s1 => Event.recv s1 (f s1))) = [] := by
  induction l with
  | nil => rfl
  | cons s1 rest ih => simp only [List.map_cons, sentTo, ih]

theorem recvFrom_sends (s : Sock) (m : Msg) (st : Sock → Bool) (l : List Sock) :
    recvFrom s (l.map (fun s1 => Event.send s1 m (st s1))) = [] := by
  induction l with
  | nil => rfl
  | cons s1 rest ih =>
    simp only [recvFrom, List.map_cons, List.flatMap_cons, List.nil_append] at ih ⊢
    exact ih

theorem recvFrom_recvs (s : Sock) (f : Sock → Option Msg) :
    ∀ (l : List Sock), l.Nodup →
      recvFrom s (l.map (fun s1 => Event.recv s1 (f s1))) = if s ∈ l then [f s] else [] := by
  intro l
  induction l with
  | nil => intro _; rfl
  | cons s1 rest ih =>
    intro hnd
    have hnd2 := List.nodup_cons.mp hnd
    have ih2 := ih hnd2.2
    simp only [recvFrom, List.map_cons, List.flatMap_cons] at ih2 ⊢
    rw [ih2]
    by_cases h : s1 = s
    · subst h
      simp [hnd2.1]
    · have h2 : ¬ s = s1 := fun e => h e.symm
      simp [h, h2]

/-- A synchronisation point on the master when every agent answers "sync" and
"ack": no error, nobody removed, and on each agent's socket the master sends
"sync_req" then "proceed" and receives "sync" then "ack". -/
theorem master_sync_channel (args : gengetopt_args_info) (env : SyncEnv) (socket : Sock)
    (agents : List Sock) (hm : args.agent_given ≠ 0) (hnd : agents.Nodup)
    (hgood : ∀ s ∈ agents, s_recv (env.syncReply s) = "sync" ∧ s_recv (env.ackReply s) = "ack") :
    ∃ tr, sync_agent args env socket agents =
        some { errors := 0, agent_sockets := agents, trace := tr } ∧
      ∀ s ∈ agents,
        sentTo s tr = [Msg.str "sync_req", Msg.str "proceed"] ∧
        recvFrom s tr = [some (Msg.str "sync"), some (Msg.str "ack")] := by
  obtain ⟨r, hr, h0, hs⟩ := sync_errors_zero args env socket agents hm hgood
  have hmaster := sync_agent_master args env socket agents hm
  have hkeep1 : agents.filter (fun s => !(decide (s_recv (env.syncReply s) ≠ "sync") &&
      decide (s_recv (env.syncReply s) = "FAIL-RECV"))) = agents := by
    apply List.filter_eq_self.mpr
    intro s hs
    simp [(hgood s hs).1]
  rw [hkeep1] at hmaster
  have htr : r.trace = sendAll env "sync_req" agents ++
      agents.map (fun s => Event.recv s ((env.syncReply s).map Msg.str)) ++
      sendAll env "proceed" agents ++
      agents.map (fun s => Event.recv s ((env.ackReply s).map Msg.str)) := by
    have e := hr.symm.trans hmaster
    rw [Option.some.injEq] at e
    rw [e]
  refine ⟨r.trace, ?_, ?_⟩
  · rw [hr]
    congr 1
    cases r
    simp only [] at h0 hs
    rw [h0, hs]
  · intro s hs1
    have e1 : env.syncReply s = some "sync" := s_recv_eq_some (by decide) (hgood s hs1).1
    have e2 : env.ackReply s = some "ack" := s_recv_eq_some (by decide) (hgood s hs1).2
    rw [htr]
    unfold sendAll
    constructor
    · rw [sentTo_append, sentTo_append, sentTo_append, sentTo_sends s _ _ agents hnd,
        sentTo_sends s _ _ agents hnd, sentTo_recvs, sentTo_recvs]
      simp [hs1]
    · rw [recvFrom_append, recvFrom_append, recvFrom_append, recvFrom_sends, recvFrom_sends,
        recvFrom_recvs s _ agents hnd, recvFrom_recvs s _ agents hnd, e1, e2]
      simp [hs1]

/-- A synchronisation point on an agent that receives "sync_req" and then
"proceed": no error; it answers "sync" and "ack". -/
theorem agent_sync_channel (args : gengetopt_args_info) (env : SyncEnv) (socket : Sock)
    (agents : List Sock) (ha : args.agent_given = 0) (hmode : args.agentmode_given = true)
    (h1 : env.reqRecv = some "sync_req") (h2 : env.proceedRecv = some "proceed") :
    ∃ tr, sync_agent args env socket agents =
        some { errors := 0, agent_sockets := agents, trace := tr } ∧
      sentTo socket tr = [Msg.str "sync", Msg.str "ack"] ∧
      recvFrom socket tr = [some (Msg.str "sync_req"), some (Msg.str "proceed")] := by
  refine ⟨[Event.recv socket (some (Msg.str "sync_req")),
      Event.send socket (Msg.str "sync") (env.sendOk socket (Msg.str "sync")),
      Event.recv socket (some (Msg.str "proceed")),
      Event.send socket (Msg.str "ack") (env.sendOk socket (Msg.str "ack"))], ?_, ?_, ?_⟩
  · simp [sync_agent, ha, hmode, h1, h2, s_recv]
  · simp [sentTo]
  · simp [recvFrom]

theorem syncBlock_zero (args : gengetopt_args_info) (env : SyncEnv) (socket : Sock)
    (p : Phase) (agents : List Sock) (tr : List Event)
    (hsync : args.agent_given ≠ 0 ∨ args.agentmode_given = true)
    (h : sync_agent args env socket agents =
      some { errors := 0, agent_sockets := agents, trace := tr }) :
    syncBlock args env true socket p agents = some ([Step.sync p 0 tr], agents, false) := by
  unfold syncBlock
  rw [if_pos hsync, if_pos rfl, h]
  simp

theorem do_mcperf_master (args : gengetopt_args_info) (envW envM : SyncEnv)
    (servers : List String) (options : options_t) (socket : Sock) (agents : List Sock)
    (tW tM : List Event)
    (hsync : args.agent_given ≠ 0 ∨ args.agentmode_given = true)
    (hW : options.loadonly = false → options.warmup > 0 →
      sync_agent args envW socket agents =
        some { errors := 0, agent_sockets := agents, trace := tW })
    (hM : options.loadonly = false →
      sync_agent args envM socket agents =
        some { errors := 0, agent_sockets := agents, trace := tM }) :
    ∃ run, do_mcperf args envW envM servers options true socket agents = some run ∧
      run.died = false ∧ run.agent_sockets = agents ∧
      run.steps =
        (if options.loadonly then []
         else (if options.warmup > 0 then [Step.sync Phase.warmup 0 tW, Step.window Phase.warmup]
               else []) ++ [Step.sync Phase.measure 0 tM, Step.window Phase.measure]) := by
  unfold do_mcperf
  simp only []
  by_cases hl : options.loadonly = true
  · rw [if_pos hl, if_pos hl]
    exact ⟨_, rfl, rfl, rfl, rfl⟩
  · rw [if_neg hl, if_neg hl]
    have hl2 : options.loadonly = false := by simpa using hl
    have bM := syncBlock_zero args envM socket Phase.measure agents tM hsync (hM hl2)
    by_cases hw : options.warmup > 0
    · have bW := syncBlock_zero args envW socket Phase.warmup agents tW hsync (hW hl2 hw)
      rw [if_pos hw, if_pos hw, bW]
      simp only [Bool.false_eq_true, if_false, bM]
      exact ⟨_, rfl, rfl, rfl, by simp⟩
    · rw [if_neg hw, if_neg hw]
      simp only [bM]
      exact ⟨_, rfl, rfl, rfl, by simp⟩

theorem do_mcperf_worker (args : gengetopt_args_info) (envW envM : SyncEnv)
    (servers : List String) (options : options_t) (socket : Sock) (agents : List Sock) :
    ∃ run, do_mcperf args envW envM servers options false socket agents = some run ∧
      run.died = false ∧ run.agent_sockets = agents ∧
      run.steps =
        (if options.loadonly then []
         else (if options.warmup > 0 then [Step.window Phase.warmup] else []) ++
           [Step.window Phase.measure]) := by
  have hb : ∀ (env : SyncEnv) (p : Phase),
      syncBlock args env false socket p agents = some ([], agents, false) := by
    intro env p
    unfold syncBlock
    split_ifs <;> first | rfl | simp_all
  unfold do_mcperf
  simp only []
  by_cases hl : options.loadonly = true
  · rw [if_pos hl, if_pos hl]
    exact ⟨_, rfl, rfl, rfl, rfl⟩
  · rw [if_neg hl, if_neg hl]
    by_cases hw : options.warmup > 0
    · rw [if_pos hw, if_pos hw, hb]
      simp only [Bool.false_eq_true, if_false, hb]
      exact ⟨_, rfl, rfl, rfl, by simp⟩
    · rw [if_neg hw, if_neg hw]
      simp only [hb]
      exact ⟨_, rfl, rfl, rfl, by simp⟩

theorem spawnThreads_workers (args : gengetopt_args_info) (envW envM : SyncEnv)
    (servers : List String) (options : options_t) (socket : Sock) (agents : List Sock)
    (hts : ∀ t, ∃ ts, threadServers servers options t = some ts) :
    ∀ (k t : Nat), 1 ≤ t → ∃ runs,
      spawnThreads args envW envM servers options socket agents k t = some runs ∧
      ∀ run ∈ runs, ∀ st ∈ run.steps, ∀ p e tr, st ≠ Step.sync p e tr := by
  intro k
  induction k with
  | zero => intro t _; exact ⟨[], rfl, by simp⟩
  | succ k ih =>
    intro t ht
    obtain ⟨ts, h1⟩ := hts t
    obtain ⟨r, h2, _, _, hsteps⟩ :=
      do_mcperf_worker args envW envM ts options socket agents
    obtain ⟨rs, h3, h4⟩ := ih (t + 1) (by omega)
    have hm : decide (t = 0) = false := decide_eq_false (by omega)
    refine ⟨r :: rs, ?_, ?_⟩
    · rw [spawnThreads, h1]
      simp only []
      rw [hm, h2]
      simp only []
      rw [h3]
    · intro run hrun
      rcases List.mem_cons.mp hrun with rfl | hrun
      · intro st hst p e tr
        rw [hsteps] at hst
        split_ifs at hst <;> simp at hst <;> aesop
      · exact h4 run hrun

theorem runs_no_sync (rs : List McperfRun)
    (h : ∀ run ∈ rs, ∀ st ∈ run.steps, ∀ p e tr, st ≠ Step.sync p e tr) :
    rs.flatMap runSyncs = [] ∧
    rs.flatMap (fun run => run.steps.flatMap stepWarmup) = [] := by
  constructor
  · rw [List.flatMap_eq_nil_iff]
    intro run hrun
    unfold runSyncs
    rw [List.flatMap_eq_nil_iff]
    intro st hst
    cases st with
    | sync p e tr => exact absurd rfl (h run hrun _ hst p e tr)
    | window p => rfl
    | die p => rfl
  · rw [List.flatMap_eq_nil_iff]
    intro run hrun
    rw [List.flatMap_eq_nil_iff]
    intro st hst
    cases st with
    | sync p e tr => exact absurd rfl (h run hrun _ hst p e tr)
    | window p => rfl
    | die p => rfl

theorem master_run_syncs (run : McperfRun) (loadonly : Bool) (warmup : Int)
    (tW tM : List Event)
    (h : run.steps =
      (if loadonly then []
       else (if warmup > 0 then [Step.sync Phase.warmup 0 tW, Step.window Phase.warmup]
             else []) ++ [Step.sync Phase.measure 0 tM, Step.window Phase.measure])) :
    runSyncs run =
      (if loadonly then [] else (if warmup > 0 then [(0, tW)] else []) ++ [(0, tM)]) ∧
    run.steps.flatMap stepWarmup = (if loadonly then [] else if warmup > 0 then tW else []) := by
  unfold runSyncs
  rw [h]
  constructor <;> split_ifs <;> simp [stepWarmup]

theorem go_schedule (args : gengetopt_args_info) (penv : PrepEnv) (envW envM : SyncEnv)
    (fenv : FinishEnv) (ws : ConnectionStats) (servers : List String) (o : options_t)
    (socket : Sock) (agents : List Sock) (pr : PrepResult) (tW tM : List Event)
    (hprep : (if args.agent_given > 0 then prep_agent args penv servers o agents
      else some { options := o, agent_sockets := agents, trace := [] }) = some pr)
    (hT : 1 ≤ pr.options.threads)
    (hts : ∀ t, ∃ ts, threadServers servers pr.options t = some ts)
    (hsync : args.agent_given ≠ 0 ∨ args.agentmode_given = true)
    (hW : pr.options.loadonly = false → pr.options.warmup > 0 →
      sync_agent args envW socket pr.agent_sockets =
        some { errors := 0, agent_sockets := pr.agent_sockets, trace := tW })
    (hM : pr.options.loadonly = false →
      sync_agent args envM socket pr.agent_sockets =
        some { errors := 0, agent_sockets := pr.agent_sockets, trace := tM }) :
    ∃ r, go args penv envW envM fenv ws servers o socket agents = some r ∧
      r.died = false ∧ r.agent_sockets = pr.agent_sockets ∧ r.options = pr.options ∧
      r.prepTrace = pr.trace ∧
      r.syncs = (if pr.options.loadonly then []
        else (if pr.options.warmup > 0 then [(0, tW)] else []) ++ [(0, tM)]) ∧
      r.warmupTrace = (if pr.options.loadonly then []
        else if pr.options.warmup > 0 then tW else []) ∧
      r.stats = (if args.agent_given > 0 then (finishLoop fenv pr.agent_sockets ws []).1
        else ws) ∧
      r.finishTrace = (if args.agent_given > 0 then (finishLoop fenv pr.agent_sockets ws []).2
        else []) := by
  unfold go
  simp only [hprep]
  by_cases h1 : pr.options.threads > 1
  · rw [if_pos h1]
    obtain ⟨k, hk⟩ : ∃ k, pr.options.threads.toNat = k + 1 :=
      ⟨pr.options.threads.toNat - 1, by omega⟩
    obtain ⟨ts0, hts0⟩ := hts 0
    obtain ⟨r0, hr0, hd0, hs0, hsteps⟩ := do_mcperf_master args envW envM ts0 pr.options
      socket pr.agent_sockets tW tM hsync hW hM
    obtain ⟨rs, hrs, hno⟩ := spawnThreads_workers args envW envM servers pr.options socket
      pr.agent_sockets hts k 1 (le_refl 1)
    have hspawn : spawnThreads args envW envM servers pr.options socket pr.agent_sockets
        pr.options.threads.toNat 0 = some (r0 :: rs) := by
      rw [hk, spawnThreads, hts0]
      simp only [decide_True]
      rw [hr0]
      simp only [Nat.zero_add]
      rw [hrs]
    obtain ⟨n1, n2⟩ := runs_no_sync rs hno
    obtain ⟨m1, m2⟩ := master_run_syncs r0 pr.options.loadonly pr.options.warmup tW tM hsteps
    rw [hspawn]
    simp only [hd0, hs0]
    by_cases hg : args.agent_given > 0
    · rw [if_pos hg, if_pos hg, if_pos hg]
      refine ⟨_, rfl, rfl, rfl, rfl, rfl, ?_, ?_, rfl, rfl⟩
      · simp only [GoResult.syncs, List.flatMap_cons, n1, List.append_nil, m1]
      · simp only [GoResult.warmupTrace, List.flatMap_cons, n2, List.append_nil, m2]
    · rw [if_neg hg, if_neg hg, if_neg hg]
      refine ⟨_, rfl, rfl, rfl, rfl, rfl, ?_, ?_, rfl, rfl⟩
      · simp only [GoResult.syncs, List.flatMap_cons, n1, List.append_nil, m1]
      · simp only [GoResult.warmupTrace, List.flatMap_cons, n2, List.append_nil, m2]
  · rw [if_neg h1]
    have h2 : pr.options.threads = 1 := by omega
    rw [if_pos h2]
    obtain ⟨r0, hr0, hd0, hs0, hsteps⟩ := do_mcperf_master args envW envM servers pr.options
      socket pr.agent_sockets tW tM hsync hW hM
    obtain ⟨m1, m2⟩ := master_run_syncs r0 pr.options.loadonly pr.options.warmup tW tM hsteps
    rw [hr0]
    simp only [hd0, hs0]
    by_cases hg : args.agent_given > 0
    · rw [if_pos hg, if_pos hg, if_pos hg]
      refine ⟨_, rfl, rfl, rfl, rfl, rfl, ?_, ?_, rfl, rfl⟩
      · simp only [GoResult.syncs, List.flatMap_cons, List.flatMap_nil, List.append_nil, m1]
      · simp only [GoResult.warmupTrace, List.flatMap_cons, List.flatMap_nil, List.append_nil, m2]
    · rw [if_neg hg, if_neg hg, if_neg hg]
      refine ⟨_, rfl, rfl, rfl, rfl, rfl, ?_, ?_, rfl, rfl⟩
      · simp only [GoResult.syncs, List.flatMap_cons, List.flatMap_nil, List.append_nil, m1]
      · simp only [GoResult.warmupTrace, List.flatMap_cons, List.flatMap_nil, List.append_nil, m2]

theorem finishLoop_trace (env : FinishEnv) :
    ∀ (l : List Sock) (stats : ConnectionStats) (tr : List Event),
      (finishLoop env l stats tr).2 = tr ++ l.flatMap (fun s =>
        [Event.send s (Msg.str "stats") (env.sendOk s (Msg.str "stats")),
         Event.recv s (if (env.statsReply s).1 then some (Msg.stats (env.statsReply s).2)
           else none)]) := by
  intro l
  induction l with
  | nil => intro stats tr; simp [finishLoop]
  | cons s rest ih =>
    intro stats tr
    simp only [finishLoop, ih, List.flatMap_cons, List.append_assoc]

theorem finishLoop_channel (env : FinishEnv) (l : List Sock) (stats : ConnectionStats)
    (hnd : l.Nodup) (s : Sock) (hs : s ∈ l) (hok : (env.statsReply s).1 = true) :
    sentTo s (finishLoop env l stats []).2 = [Msg.str "stats"] ∧
    recvFrom s (finishLoop env l stats []).2 = [some (Msg.stats (env.statsReply s).2)] := by
  rw [finishLoop_trace, List.nil_append]
  constructor
  · rw [sentTo_flatMap s _ (fun s1 h => by simp [sentTo, h]) l hnd, if_pos hs]
    simp [sentTo]
  · rw [recvFrom_flatMap s _ (fun s1 h => by simp [recvFrom, h]) l hnd, if_pos hs]
    simp [recvFrom, hok]

theorem sentTo_syncs (s : Sock) (loadonly : Bool) (warmup : Int) (tW tM : List Event)
    (a b : Msg) (hW : sentTo s tW = [a, b]) (hM : sentTo s tM = [a, b]) :
    sentTo s ((if loadonly then ([] : List (Int × List Event))
        else (if warmup > 0 then [(0, tW)] else []) ++ [(0, tM)]).flatMap (fun x => x.2)) =
      (List.range (if loadonly then 0 else if warmup > 0 then 2 else 1)).flatMap
        (fun _ => [a, b]) := by
  split_ifs <;> simp [sentTo, sentTo_append, hW, hM, List.range_succ]

theorem recvFrom_syncs (s : Sock) (loadonly : Bool) (warmup : Int) (tW tM : List Event)
    (a b : Option Msg) (hW : recvFrom s tW = [a, b]) (hM : recvFrom s tM = [a, b]) :
    recvFrom s ((if loadonly then ([] : List (Int × List Event))
        else (if warmup > 0 then [(0, tW)] else []) ++ [(0, tM)]).flatMap (fun x => x.2)) =
      (List.range (if loadonly then 0 else if warmup > 0 then 2 else 1)).flatMap
        (fun _ => [a, b]) := by
  split_ifs
  · simp [recvFrom]
  · simp [recvFrom_append, hW, hM, List.range_succ]
  · simp [hM, List.range_succ]

/-- The master's side of a failure-free run with at least one thread: `go`
returns without `DIE`, keeps every agent, makes `syncPoints` calls of
`sync_agent` that all return 0, and on the socket of each agent it sends the
Options blob `o1` (the options with the `qps` that `--measure_qps` leaves),
the server strings, `lambda_denom`, then "sync_req" and "proceed" per
synchronisation point, then "stats", and receives the agent's answers in
between. -/
theorem master_schedule (args : gengetopt_args_info) (penv : PrepEnv) (envW envM : SyncEnv)
    (fenv : FinishEnv) (ws : ConnectionStats) (servers : List String) (o : options_t)
    (socket : Sock) (agents : List Sock)
    (hag : args.agent_given > 0)
    (hnd : agents.Nodup) (hT : 1 ≤ o.threads)
    (hrr : o.roundrobin = true →
      1 ≤ servers.length ∧ servers.length < 2147483648 ∧ o.threads < 2147483648)
    (hans : ∀ s ∈ agents, (penv.numReply s).isSome = true ∧
      (∀ i, i < servers.length → s_recv (penv.srvReply s i) ≠ "FAIL-RECV") ∧
      s_recv (penv.denomReply s) ≠ "FAIL-RECV")
    (hgW : ∀ s ∈ agents,
      s_recv (envW.syncReply s) = "sync" ∧ s_recv (envW.ackReply s) = "ack")
    (hgM : ∀ s ∈ agents,
      s_recv (envM.syncReply s) = "sync" ∧ s_recv (envM.ackReply s) = "ack")
    (hfin : ∀ s ∈ agents, (fenv.statsReply s).1 = true) :
    ∃ (r : GoResult) (o1 : options_t),
      go args penv envW envM fenv ws servers o socket agents = some r ∧
      o1.server_given = o.server_given ∧ o1.roundrobin = o.roundrobin ∧
      syncPoints o1 = syncPoints o ∧
      r.died = false ∧ r.agent_sockets = agents ∧
      r.syncs.length = syncPoints o ∧ (∀ x ∈ r.syncs, x.1 = 0) ∧
      ∀ s ∈ agents,
        sentTo s r.trace =
          Msg.blob o1 :: servers.map Msg.str ++ [Msg.num r.options.lambda_denom] ++
            (List.range (syncPoints o)).flatMap
              (fun _ => [Msg.str "sync_req", Msg.str "proceed"]) ++ [Msg.str "stats"] ∧
        recvFrom s r.trace =
          (penv.numReply s).map Msg.num ::
            (List.range servers.length).map
              (fun (i : Nat) => (penv.srvReply s i).map Msg.str) ++
            [(penv.denomReply s).map Msg.str] ++
            (List.range (syncPoints o)).flatMap
              (fun _ => [some (Msg.str "sync"), some (Msg.str "ack")]) ++
            [some (Msg.stats (fenv.statsReply s).2)] := by
  obtain ⟨pr, o1, hpr, e1, e2, e3, e4, hsocks, hlo, hwu, hchan⟩ :=
    prep_agent_channel args penv servers o agents hnd hans
  obtain ⟨hthr, hrr2, _⟩ := prep_agent_keeps args penv servers o agents pr hpr
  have hm : args.agent_given ≠ 0 := by omega
  obtain ⟨tW, hW, cW⟩ := master_sync_channel args envW socket agents hm hnd hgW
  obtain ⟨tM, hM, cM⟩ := master_sync_channel args envM socket agents hm hnd hgM
  have hts : ∀ t, ∃ ts, threadServers servers pr.options t = some ts := fun t =>
    threadServers_total servers pr.options t (by omega)
      (fun h => by rw [hthr]; exact hrr (by rw [← hrr2]; exact h))
  obtain ⟨r, hr, hd, hs, ho, hp, hsy, _, _, hf⟩ :=
    go_schedule args penv envW envM fenv ws servers o socket agents pr tW tM
      (by rw [if_pos hag]; exact hpr) (by omega) hts (Or.inl hm)
      (fun _ _ => by rw [hsocks]; exact hW) (fun _ => by rw [hsocks]; exact hM)
  rw [if_pos hag] at hf
  rw [hlo, hwu] at hsy
  refine ⟨r, o1, hr, e1, e2, by unfold syncPoints; rw [e3, e4], hd, by rw [hs, hsocks],
    ?_, ?_, ?_⟩
  · rw [hsy]
    unfold syncPoints
    split_ifs <;> rfl
  · intro x hx
    rw [hsy] at hx
    split_ifs at hx <;> simp at hx <;> aesop
  · intro s hs1
    obtain ⟨p1, p2⟩ := hchan s hs1
    obtain ⟨f1, f2⟩ := finishLoop_channel fenv agents ws hnd s hs1 (hfin s hs1)
    obtain ⟨w1, w2⟩ := cW s hs1
    obtain ⟨m1, m2⟩ := cM s hs1
    unfold GoResult.trace syncPoints
    rw [hp, hf, hsy, hsocks, ho]
    constructor
    · rw [sentTo_append, sentTo_append, p1, f1,
        sentTo_syncs s o.loadonly o.warmup tW tM _ _ w1 m1]
    · rw [recvFrom_append, recvFrom_append, p2, f2,
        recvFrom_syncs s o.loadonly o.warmup tW tM _ _ w2 m2]

theorem agent_prep_rest (aargs : gengetopt_args_info) (o : options_t)
    (servers : List String) (d : Int) (rest : List Msg)
    (h : o.server_given.toNat = servers.length) :
    ∃ a, agent_prep aargs (Msg.blob o :: servers.map Msg.str ++ [Msg.num d] ++ rest) = some a ∧
      a.rest = rest ∧ a.servers = servers ∧ a.num = agent_num aargs ∧
      a.options.lambda_denom = d ∧ a.options.threads = aargs.threads_arg ∧
      a.options.roundrobin = o.roundrobin ∧ a.options.loadonly = o.loadonly ∧
      a.options.warmup = o.warmup := by
  have e : Msg.blob o :: servers.map Msg.str ++ [Msg.num d] ++ rest =
      Msg.blob o :: (servers.map Msg.str ++ Msg.num d :: rest) := by simp
  rw [e]
  simp only [agent_prep, h, agentServers_map]
  exact ⟨_, rfl, rfl, rfl, rfl, rfl, rfl, rfl, rfl, rfl⟩

theorem agent_sync_queue (aargs : gengetopt_args_info) (socket : Sock)
    (ha : aargs.agent_given = 0) (hmode : aargs.agentmode_given = true) :
    ∃ tr, sentTo socket tr = [Msg.str "sync", Msg.str "ack"] ∧
      recvFrom socket tr = [some (Msg.str "sync_req"), some (Msg.str "proceed")] ∧
      ∀ (q : List Msg) (agents : List Sock),
        q.get? 0 = some (Msg.str "sync_req") → q.get? 1 = some (Msg.str "proceed") →
        sync_agent aargs (queueSync q) socket agents =
          some { errors := 0, agent_sockets := agents, trace := tr } := by
  refine ⟨[Event.recv socket (some (Msg.str "sync_req")),
      Event.send socket (Msg.str "sync") true,
      Event.recv socket (some (Msg.str "proceed")),
      Event.send socket (Msg.str "ack") true], by simp [sentTo], by simp [recvFrom], ?_⟩
  intro q agents h0 h1
  have e0 : (queueSync q).reqRecv = some "sync_req" := by
    simp only [queueSync, h0, Option.map_some', msgText]
  have e1 : (queueSync q).proceedRecv = some "proceed" := by
    simp only [queueSync, h1, Option.map_some', msgText]
  have es : ∀ m, (queueSync q).sendOk socket m = true := fun _ => rfl
  simp only [sync_agent, ha, ne_eq, not_true_eq_false, if_false, hmode, if_true, e0, e1, es,
    s_recv, Option.map_some']

/-- The agent's side of a failure-free run: fed with the Options blob, the
server strings, `lambda_denom`, then "sync_req" and "proceed" per
synchronisation point and "stats", an agent with at least one thread and no
agent of its own reads every message, makes `syncPoints` calls of `sync_agent`
that all return 0, and answers each message in turn. -/
theorem agent_schedule (aargs : gengetopt_args_info) (socket : Sock) (o : options_t)
    (servers : List String) (d : Int) (ws : ConnectionStats)
    (ha : aargs.agent_given = 0) (hmode : aargs.agentmode_given = true)
    (hT : 1 ≤ aargs.threads_arg)
    (hsrv : o.server_given.toNat = servers.length)
    (hrr : o.roundrobin = true →
      1 ≤ servers.length ∧ servers.length < 2147483648 ∧ aargs.threads_arg < 2147483648) :
    ∃ ar, agent_round aargs socket
        (Msg.blob o :: servers.map Msg.str ++ [Msg.num d] ++
          (List.range (syncPoints o)).flatMap
            (fun _ => [Msg.str "sync_req", Msg.str "proceed"]) ++ [Msg.str "stats"]) ws =
        some ar ∧
      ar.prep.servers = servers ∧ ar.prep.options.lambda_denom = d ∧
      ar.rest = [] ∧ ar.req = some (Msg.str "stats") ∧ ar.run.died = false ∧
      ar.run.syncs.length = syncPoints o ∧ (∀ x ∈ ar.run.syncs, x.1 = 0) ∧
      ar.sent =
        Msg.num (agent_num aargs) :: servers.map (fun _ => Msg.str "ack") ++
          [Msg.str "THANKS"] ++
          (List.range (syncPoints o)).flatMap (fun _ => [Msg.str "sync", Msg.str "ack"]) ++
          [Msg.stats (agent_stats ws)] := by
  obtain ⟨a, hprep, hrest, hservers, hnum, hden, hthr, hrr2, hlo, hwu⟩ :=
    agent_prep_rest aargs o servers d
      ((List.range (syncPoints o)).flatMap
        (fun _ => [Msg.str "sync_req", Msg.str "proceed"]) ++ [Msg.str "stats"]) hsrv
  obtain ⟨tr, hsent, hrecv, hsync⟩ := agent_sync_queue aargs socket ha hmode
  have hg : ¬ aargs.agent_given > 0 := by omega
  have hts : ∀ t, ∃ ts, threadServers a.servers a.options t = some ts := fun t =>
    threadServers_total a.servers a.options t (by omega)
      (fun h => by rw [hthr, hservers]; exact hrr (by rw [← hrr2]; exact h))
  have hq0 : a.options.loadonly = false →
      a.rest.get? 0 = some (Msg.str "sync_req") ∧ a.rest.get? 1 = some (Msg.str "proceed") := by
    intro h
    rw [hrest]
    unfold syncPoints
    rw [← hlo, h]
    simp only [Bool.false_eq_true, if_false]
    split_ifs <;> simp [List.range_succ]
  have hqW : a.options.loadonly = false → a.options.warmup > 0 →
      (a.rest.drop 2).get? 0 = some (Msg.str "sync_req") ∧
      (a.rest.drop 2).get? 1 = some (Msg.str "proceed") := by
    intro h hw
    rw [hrest]
    unfold syncPoints
    rw [← hlo, h, ← hwu]
    simp [hw, List.range_succ]
  obtain ⟨r1, hr1, _, _, _, _, _, hwt, _, _⟩ :=
    go_schedule aargs noPrep (queueSync a.rest) (queueSync a.rest) deadFinish ws a.servers
      a.options socket [] { options := a.options, agent_sockets := [], trace := [] } tr tr
      (by rw [if_neg hg]) (by simp only []; omega) hts (Or.inr hmode)
      (fun h _ => hsync a.rest [] (hq0 h).1 (hq0 h).2)
      (fun h => hsync a.rest [] (hq0 h).1 (hq0 h).2)
  simp only [] at hwt
  have hdrop : a.options.loadonly = false →
      (a.rest.drop (recvFrom socket r1.warmupTrace).length).get? 0 =
        some (Msg.str "sync_req") ∧
      (a.rest.drop (recvFrom socket r1.warmupTrace).length).get? 1 =
        some (Msg.str "proceed") := by
    intro h
    rw [hwt, h]
    simp only [Bool.false_eq_true, if_false]
    by_cases hw : a.options.warmup > 0
    · rw [if_pos hw, hrecv]
      exact hqW h hw
    · rw [if_neg hw]
      exact hq0 h
  obtain ⟨r, hr, hd, _, _, hp, hsy, _, hst, hf⟩ :=
    go_schedule aargs noPrep (queueSync a.rest)
      (queueSync (a.rest.drop (recvFrom socket r1.warmupTrace).length)) deadFinish ws a.servers
      a.options socket [] { options := a.options, agent_sockets := [], trace := [] } tr tr
      (by rw [if_neg hg]) (by simp only []; omega) hts (Or.inr hmode)
      (fun h _ => hsync a.rest [] (hq0 h).1 (hq0 h).2)
      (fun h => hsync _ [] (hdrop h).1 (hdrop h).2)
  simp only [] at hp hsy hst hf
  rw [if_neg hg] at hst hf
  rw [hlo, hwu] at hsy
  have htrS : sentTo socket r.trace =
      (List.range (syncPoints o)).flatMap (fun _ => [Msg.str "sync", Msg.str "ack"]) := by
    unfold GoResult.trace syncPoints
    rw [hp, hf, hsy, List.nil_append, List.append_nil,
      sentTo_syncs socket o.loadonly o.warmup tr tr _ _ hsent hsent]
  have htrR : recvFrom socket r.trace =
      (List.range (syncPoints o)).flatMap
        (fun _ => [some (Msg.str "sync_req"), some (Msg.str "proceed")]) := by
    unfold GoResult.trace syncPoints
    rw [hp, hf, hsy, List.nil_append, List.append_nil,
      recvFrom_syncs socket o.loadonly o.warmup tr tr _ _ hrecv hrecv]
  have hq : a.rest.drop (recvFrom socket r.trace).length = [Msg.str "stats"] := by
    rw [htrR, hrest]
    unfold syncPoints
    split_ifs <;> simp [List.range_succ]
  have hround : agent_round aargs socket
      (Msg.blob o :: servers.map Msg.str ++ [Msg.num d] ++
        (List.range (syncPoints o)).flatMap
          (fun _ => [Msg.str "sync_req", Msg.str "proceed"]) ++ [Msg.str "stats"]) ws =
      some { prep := a, run := r, req := some (Msg.str "stats")
             sent := (Msg.num a.num :: a.servers.map (fun _ => Msg.str "ack") ++
               [Msg.str "THANKS"]) ++ sentTo socket r.trace ++ [Msg.stats (agent_stats r.stats)]
             rest := [] } := by
    unfold agent_round
    rw [List.append_assoc, hprep]
    simp only []
    unfold agent_go
    rw [hr1]
    simp only []
    rw [hr]
    simp only [hd, Bool.false_eq_true, if_false, hq, List.head?_cons, List.drop_succ_cons,
      List.drop_zero]
  refine ⟨_, hround, hservers, hden, rfl, rfl, hd, ?_, ?_, ?_⟩
  · simp only []
    rw [hsy]
    unfold syncPoints
    split_ifs <;> rfl
  · intro x hx
    simp only [] at hx
    rw [hsy] at hx
    split_ifs at hx <;> simp at hx <;> aesop
  · simp only []
    rw [htrS, hst, hnum, hservers]

/-- C19, as stated, fails: the master runs one thread, its agent was started
with `--threads 0`.  The agent's `go` makes no call of `sync_agent` while the
master makes one; the agent takes the master's "sync_req" for the request it
answers with its statistics, where the master expects "sync", and never reads
"proceed" and "stats". -/
theorem idle_agent_desync :
    (go duoMasterArgs (answeringEnv (fun _ => idleAgentArgs)) calmSync calmSync
        (agentFinish (fun _ => zeroStats)) zeroStats ["a"]
        (args_to_options duoMasterArgs) 0 [0]).bind
      (fun r => (agent_round idleAgentArgs 0 (sentTo 0 r.trace) zeroStats).map
        (fun ar => (r.syncs.length, ar.run.syncs.length, ar.req, ar.sent.getLast?, ar.rest))) =
      some (1, 0, some (Msg.str "sync_req"), some (Msg.stats zeroAgentStats),
        [Msg.str "proceed", Msg.str "stats"]) := by
  decide!

/-- C19 (amended): in a failure-free run with master threads ≥ 1 in which
every agent runs with at least one thread and without `--agent`, the two
schedules agree on every agent's channel (whatever `--measure_connections`,
`--measure_qps` and `--measure_depth` the master was given): the master's `go` returns without `DIE` and keeps every
agent; the agent, fed with what the master sends on its socket, receives
exactly the master's server strings, reads every message, makes as many calls
of `sync_agent` as the master, all returning 0 on both sides, takes "stats"
for its last request, and what it sends is, message by message, what the
master receives. -/
theorem schedules_agree (margs : gengetopt_args_info) (aargs : Sock → gengetopt_args_info)
    (conn : Sock → ConnectionStats) (ws : ConnectionStats) (servers : List String)
    (o : options_t) (socket : Sock) (agents : List Sock)
    (hag : margs.agent_given > 0)
    (hnd : agents.Nodup) (hT : 1 ≤ o.threads)
    (hsrv : o.server_given.toNat = servers.length)
    (hrr : o.roundrobin = true →
      1 ≤ servers.length ∧ servers.length < 2147483648 ∧ o.threads < 2147483648)
    (hagents : ∀ s ∈ agents, (aargs s).agent_given = 0 ∧ (aargs s).agentmode_given = true ∧
      1 ≤ (aargs s).threads_arg ∧
      (o.roundrobin = true → (aargs s).threads_arg < 2147483648)) :
    ∃ r, go margs (answeringEnv aargs) calmSync calmSync (agentFinish conn) ws servers o
        socket agents = some r ∧
      r.died = false ∧ r.agent_sockets = agents ∧ (∀ x ∈ r.syncs, x.1 = 0) ∧
      ∀ s ∈ agents, ∃ ar, agent_round (aargs s) s (sentTo s r.trace) (conn s) = some ar ∧
        ar.prep.servers = servers ∧ ar.rest = [] ∧ ar.req = some (Msg.str "stats") ∧
        ar.run.died = false ∧ ar.run.syncs.length = r.syncs.length ∧
        (∀ x ∈ ar.run.syncs, x.1 = 0) ∧
        ar.sent.map some = recvFrom s r.trace := by
  obtain ⟨r, o1, hr, e1, e2, e3, hd, hs, hlen, herr, hchan⟩ :=
    master_schedule margs (answeringEnv aargs) calmSync calmSync (agentFinish conn) ws servers o
      socket agents hag hnd hT hrr
      (fun s _ => ⟨rfl, fun _ _ => by simp [answeringEnv, s_recv],
        by simp [answeringEnv, s_recv]⟩)
      (fun s _ => ⟨rfl, rfl⟩) (fun s _ => ⟨rfl, rfl⟩) (fun s _ => rfl)
  refine ⟨r, hr, hd, hs, herr, ?_⟩
  intro s hs1
  obtain ⟨c1, c2⟩ := hchan s hs1
  obtain ⟨h1, h2, h3, h4⟩ := hagents s hs1
  obtain ⟨ar, a1, a2, _, a4, a5, a6, a7, a8, a9⟩ :=
    agent_schedule (aargs s) s o1 servers r.options.lambda_denom (conn s) h1 h2 h3
      (by rw [e1]; exact hsrv)
      (fun h => ⟨(hrr (by rw [← e2]; exact h)).1, (hrr (by rw [← e2]; exact h)).2.1,
        h4 (by rw [← e2]; exact h)⟩)
  rw [e3] at a1 a7 a9
  refine ⟨ar, by rw [c1]; exact a1, a2, a4, a5, a6, by rw [a7, hlen], a8, ?_⟩
  rw [a9, c2]
  simp [answeringEnv, agentFinish, List.map_flatMap]

theorem schedules_agree_witness :
    ∃ r, go duoMasterArgs (answeringEnv (fun _ => duoAgentArgs)) calmSync calmSync
        (agentFinish (fun _ => someStats 3 1)) (someStats 5 5) ["a"]
        (args_to_options duoMasterArgs) 0 [0] = some r ∧
      r.died = false ∧ r.agent_sockets = [0] ∧ (∀ x ∈ r.syncs, x.1 = 0) ∧
      ∀ s ∈ [0], ∃ ar, agent_round duoAgentArgs s (sentTo s r.trace) (someStats 3 1) = some ar ∧
        ar.prep.servers = ["a"] ∧ ar.rest = [] ∧ ar.req = some (Msg.str "stats") ∧
        ar.run.died = false ∧ ar.run.syncs.length = r.syncs.length ∧
        (∀ x ∈ ar.run.syncs, x.1 = 0) ∧
        ar.sent.map some = recvFrom s r.trace :=
  schedules_agree duoMasterArgs (fun _ => duoAgentArgs) (fun _ => someStats 3 1)
    (someStats 5 5) ["a"] (args_to_options duoMasterArgs) 0 [0]
    (by decide) (by decide) (by decide) (by decide)
    (fun h => absurd h (by decide))
    (fun _ _ => ⟨rfl, rfl, (by decide : (1 : Int) ≤ duoAgentArgs.threads_arg),
      fun h => absurd h (by decide)⟩)

theorem schedules_example :
    (go duoMasterArgs (answeringEnv (fun _ => duoAgentArgs)) calmSync calmSync
        (agentFinish (fun _ => someStats 3 1)) (someStats 5 5) ["a"]
        (args_to_options duoMasterArgs) 0 [0]).bind
      (fun r => (agent_round duoAgentArgs 0 (sentTo 0 r.trace) (someStats 3 1)).map
        (fun ar => (r.syncs.length, ar.run.syncs.length, ar.req, ar.rest,
          decide (ar.sent.map some = recvFrom 0 r.trace)))) =
      some (1, 1, some (Msg.str "stats"), [], true) := by
  decide!

theorem schedules_measure_example :
    (go measuringMasterArgs (answeringEnv (fun _ => duoAgentArgs)) calmSync calmSync
        (agentFinish (fun _ => someStats 3 1)) (someStats 5 5) ["a"]
        (args_to_options measuringMasterArgs) 0 [0]).bind
      (fun r => (agent_round duoAgentArgs 0 (sentTo 0 r.trace) (someStats 3 1)).map
        (fun ar => (r.died, r.syncs.length, ar.run.syncs.length, ar.req,
          decide (ar.rest = [] ∧ ar.sent.map some = recvFrom 0 r.trace)))) =
      some (false, 1, 1, some (Msg.str "stats"), true) := by
  decide!

/-! ## The share of an agent removed during the preparation -/

theorem prepFold_sum (env : PrepEnv) (servers : List String) (o : options_t) :
    ∀ (l : List Sock) (sum : Int) (tr : List Event),
      (eraseFold (prepBody env servers o) (sum, tr) l).1.1 % 4294967296 =
        (sum + ((l.filter (fun s => (env.numReply s).isSome)).map (fun s => o.connections *
          (if o.roundrobin then ((max servers.length (toU32 ((env.numReply s).getD 0)) : Nat) : Int)
           else (servers.length : Int) * (toU32 ((env.numReply s).getD 0) : Int)))).sum)
          % 4294967296 := by
  intro l
  induction l with
  | nil => intro sum tr; simp [eraseFold]
  | cons s rest ih =>
    intro sum tr
    cases hn : env.numReply s with
    | none =>
      have hbody : (prepBody env servers o (sum, tr) s).1.1 = sum := by
        simp only [prepBody, hn]
      have hf : (List.filter (fun s => (env.numReply s).isSome) (s :: rest)) =
          List.filter (fun s => (env.numReply s).isSome) rest := by
        rw [List.filter_cons, hn]
        rfl
      have h := ih (prepBody env servers o (sum, tr) s).1.1
        (prepBody env servers o (sum, tr) s).1.2
      simp only [Prod.mk.eta] at h
      simp only [eraseFold]
      rw [hf, h, hbody]
    | some n =>
      have hbody : (prepBody env servers o (sum, tr) s).1.1 =
          addAgentShare sum o.connections o.roundrobin servers.length (toU32 n) := by
        simp only [prepBody, hn]
      have hf : (List.filter (fun s => (env.numReply s).isSome) (s :: rest)) =
          s :: List.filter (fun s => (env.numReply s).isSome) rest := by
        rw [List.filter_cons, hn]
        rfl
      have ha := addAgentShare_emod sum o.connections o.roundrobin servers.length (toU32 n)
      have h := ih (prepBody env servers o (sum, tr) s).1.1
        (prepBody env servers o (sum, tr) s).1.2
      simp only [Prod.mk.eta] at h
      simp only [eraseFold]
      rw [hf, h, hbody]
      simp only [List.map_cons, List.sum_cons, hn, Option.getD_some]
      rw [← add_assoc]
      exact Int.ModEq.add_right _ ha

/-- What `prep_agent` adds to `lambda_denom`: the share of every agent whose
reply to the Options blob arrived, whether or not the agent is removed later
in the preparation (modulo 2^32, the sum being kept in an `int`). -/
theorem prep_agent_counts_answered (args : gengetopt_args_info) (env : PrepEnv)
    (servers : List String) (o : options_t) (agents : List Sock)
    (hmc : args.measure_connections_given = false)
    (hmq : args.measure_qps_given = false) :
    ∃ r, prep_agent args env servers o agents = some r ∧
      r.options.lambda_denom % 4294967296 =
        (o.lambda_denom + ((agents.filter (fun s => (env.numReply s).isSome)).map
          (fun s => o.connections *
            (if o.roundrobin then
              ((max servers.length (toU32 ((env.numReply s).getD 0)) : Nat) : Int)
             else (servers.length : Int) * (toU32 ((env.numReply s).getD 0) : Int)))).sum)
          % 4294967296 := by
  obtain ⟨r, hr, hd, _⟩ := prep_agent_plain args env servers o agents hmc hmq
  exact ⟨r, hr, by rw [hd]; exact prepFold_sum env servers o agents o.lambda_denom []⟩

theorem scanLoop_stuck (args : gengetopt_args_info) (run : options_t → ConnectionStats)
    (max step : Int) (hstep : step ≤ 0) (hmax : max ≤ 2147483647) :
    ∀ (fuel : Nat) (q : Int) (rows : List ScanRow),
      q ≤ max → -2147483648 ≤ q + (fuel : Int) * step →
      scanLoop args run max step fuel q rows = none := by
  intro fuel
  induction fuel with
  | zero => intro q rows _ _; rfl
  | succ f ih =>
    intro q rows hq hlow
    have e : ((f + 1 : Nat) : Int) * step = (f : Int) * step + step := by push_cast; ring
    rw [e] at hlow
    have hf : (f : Int) * step ≤ 0 := mul_nonpos_of_nonneg_of_nonpos (Int.ofNat_nonneg f) hstep
    have hw : wrap32 (q + step) = q + step := wrap32_of_range (by unfold inInt32; omega)
    rw [scanLoop, if_pos hq, hw]
    exact ih (q + step) _ (by omega) (by omega)

/-- C22: with `min` and `max` in `int` range, the scan loop ends at once when
`min > max` and ends when `step > 0` (no overflow: `max + step` at most
`INT_MAX`); with `step ≤ 0` and `min ≤ max` it does not end as long as `q` has
not overflowed (after any number of turns that keeps `min + turns * step` in
range it is still running), and with `step = 0` it never ends. -/
theorem scan_termination (args : gengetopt_args_info) (run : options_t → ConnectionStats)
    (min max step : Int) (hmin : inInt32 min) (hmax : inInt32 max) :
    (max < min → ∃ fuel rows, scan args run min max step fuel = some rows) ∧
    (0 < step → max + step ≤ 2147483647 →
      ∃ fuel rows, scan args run min max step fuel = some rows) ∧
    (step ≤ 0 → min ≤ max → ∀ fuel : Nat, -2147483648 ≤ min + (fuel : Int) * step →
      scan args run min max step fuel = none) ∧
    (step = 0 → min ≤ max → ∀ fuel : Nat, scan args run min max step fuel = none) := by
  unfold inInt32 at hmin hmax
  have hstuck := fun (hs : step ≤ 0) => scanLoop_stuck args run max step hs hmax.2
  refine ⟨?_, ?_, ?_, ?_⟩
  · intro h
    refine ⟨1, [], ?_⟩
    unfold scan
    rw [scanLoop, if_neg (by omega)]
  · intro hstep hno
    by_cases h : max < min
    · refine ⟨1, [], ?_⟩
      unfold scan
      rw [scanLoop, if_neg (by omega)]
    · have hd : 0 ≤ (max - min) / step := Int.ediv_nonneg (by omega) (le_of_lt hstep)
      have hdm := Int.ediv_add_emod (max - min) step
      have hr0 := Int.emod_nonneg (max - min) (ne_of_gt hstep)
      have hr1 := Int.emod_lt_of_pos (max - min) hstep
      refine ⟨((max - min) / step).toNat + 1 + 1,
        [] ++ (List.range (((max - min) / step).toNat + 1)).map
          (fun (i : Nat) => scanRun args run (min + (i : Int) * step)), ?_⟩
      unfold scan
      have hcast : ((((max - min) / step).toNat + 1 : Nat) : Int) = (max - min) / step + 1 := by
        push_cast
        rw [Int.toNat_of_nonneg hd]
      apply scanLoop_rows args run max step hstep hno (((max - min) / step).toNat + 1) min []
        _ hmin.1 ?_ ?_ (le_refl _)
      · right
        rw [hcast]
        have : ((max - min) / step + 1 - 1) * step = step * ((max - min) / step) := by ring
        rw [this]
        omega
      · rw [hcast]
        have : ((max - min) / step + 1) * step = step * ((max - min) / step) + step := by ring
        rw [this]
        omega
  · intro hs hle fuel hlow
    unfold scan
    exact hstuck hs fuel min [] hle hlow
  · intro hs hle fuel
    unfold scan
    exact hstuck (by omega) fuel min [] hle (by rw [hs]; simp; omega)

theorem scan_termination_witness :
    (∀ fuel : Nat, scan (plainArgs 1 0) (fun _ => zeroStats) 10 25 0 fuel = none) ∧
    (∀ fuel : Nat, -2147483648 ≤ (10 : Int) + (fuel : Int) * (-5) →
      scan (plainArgs 1 0) (fun _ => zeroStats) 10 25 (-5) fuel = none) ∧
    (∃ fuel rows, scan (plainArgs 1 0) (fun _ => zeroStats) 10 25 5 fuel = some rows) :=
  ⟨(scan_termination (plainArgs 1 0) (fun _ => zeroStats) 10 25 0 (by decide)
      (by decide)).2.2.2 rfl (by decide),
   (scan_termination (plainArgs 1 0) (fun _ => zeroStats) 10 25 (-5) (by decide)
      (by decide)).2.2.1 (by decide) (by decide),
   (scan_termination (plainArgs 1 0) (fun _ => zeroStats) 10 25 5 (by decide)
      (by decide)).2.1 (by decide) (by decide)⟩

end Mcperf
